import Mathlib

/-!
# The gaze velocity controller of iKinGazeCtrl (`controller.cpp`)

A shallow embedding of `Controller` and of the operations its specification
speaks about: the constructor, `setTeyes`, `setTneck`, `stopLimbsVel`,
`suspend`, `resume`, `threadRelease`, `setTrackingMode`, `getPose` and the
periodic `run`.  The contacts of `dynContact.cpp` and the drift compensation of
`Compensator.cpp` follow the controller, each in a namespace of its own.

Modelling conventions.

* A `double` is a rational number (every finite double is one) and the
  arithmetic on it is exact: rounding, infinities and NaN are outside the model.
* A `yarp::sig::Vector` is a list of rationals.  `v[i]` reads with a default of
  `0` and writes with `List.set`; the source only indexes inside the vectors
  when the head has its six joints.
* `norm(x) < t` and `norm(x) > t` are decided on the squared norm, which is
  equivalent for the Euclidean norm and keeps the model executable.
* The calls on the motor interface and on the output ports, the delays and the
  printed notices are recorded, in program order, in the `trace` of the state.
* `port_xd` is a pointer that is `NULL` until the port is attached: `run`
  returns `none` where the source would dereference it while it is `NULL`, and
  the theorems on `run` assume an attached port.
* Macros of the missing headers (`CTRL_DEG2RAD`, `GAZECTRL_MOTIONDONE_QTHRES`,
  ...) are fields of `Consts`; the minimum-jerk law of the control library is a
  function parameter; what the environment returns in one cycle (the encoder
  reading, the number of readers of each port) is a `CycleEnv`.
-/

set_option autoImplicit false

namespace GazeCtrl

/-! ## Vectors -/

/-- A yarp vector of doubles. -/
abbrev Vec := List ℚ

/-- Componentwise difference `a-b`. -/
def vsub (a b : Vec) : Vec := List.zipWith (fun x y => x - y) a b

/-- Componentwise sum `a+b`. -/
def vadd (a b : Vec) : Vec := List.zipWith (fun x y => x + y) a b

/-- Product `k*a` of a scalar and a vector. -/
def scal (k : ℚ) (a : Vec) : Vec := a.map (fun x => k * x)

/-- The assignment `a=0.0`, which keeps the length of `a`. -/
def zeroed (a : Vec) : Vec := List.replicate a.length 0

/-- Squared Euclidean norm. -/
def normSq (a : Vec) : ℚ := (a.map (fun x => x * x)).sum

/-- The test `norm(a) < t`. -/
def normLt (a : Vec) (t : ℚ) : Bool := decide (0 < t) && decide (normSq a < t * t)

/-- The test `norm(a) > t`. -/
def normGt (a : Vec) (t : ℚ) : Bool := decide (t < 0) || decide (t * t < normSq a)

/-- The loop `for i<3: dst[i]=src[off+i]`. -/
def copy3 (dst src : Vec) (off : Nat) : Vec :=
  ((dst.set 0 (src.getD off 0)).set 1 (src.getD (off + 1) 0)).set 2 (src.getD (off + 2) 0)

/-! ## Data model -/

/-- Macros of the headers that `controller.cpp` includes. -/
structure Consts where
  CTRL_DEG2RAD : ℚ
  CTRL_RAD2DEG : ℚ
  GAZECTRL_MOTIONDONE_QTHRES : ℚ
  GAZECTRL_MOTIONSTART_XTHRES : ℚ
  MINALLOWED_VERGENCE : ℚ

/-- The record `exchangeData` shared with the solver (`commData`). -/
structure exchangeData where
  isCtrlActive : Bool
  canCtrlBeDisabled : Bool
  xd : Vec
  qd : Vec
  x : Vec
  q : Vec
  torso : Vec
  v : Vec
  counterv : Vec
  deriving DecidableEq, Repr

/-- The target port `port_xd`: its `new` flag and its fixation point. -/
structure xdPort where
  isNew : Bool
  xd : Vec
  deriving DecidableEq, Repr

/-- What the controller does to the outside world. -/
inductive Event where
  | delay (seconds : ℚ)
  | stop
  | velocityMove (vdeg : Vec)
  | timeoutNotice
  | suspendedNotice
  | resumedNotice
  | iterInfo
  | writeX (fp : Vec)
  | writeQ (q : Vec)
  | threadSuspend
  | threadResume
  | portsClosed
  deriving DecidableEq, Repr

/-- A joint of a kinematic chain: its bounds and its current angle. -/
structure Joint where
  min : ℚ
  max : ℚ
  ang : ℚ
  deriving DecidableEq, Repr

/-- Clamp of `x` to the bounds `b`. -/
def clampTo (b : ℚ × ℚ) (x : ℚ) : ℚ := if x < b.1 then b.1 else if b.2 < x then b.2 else x

/-- Modelled from the spec: `setAng` of the kinematic chain (iKin library, not
in the sources at hand) writes the joint value at index `i`; the angles of a
chain are always within `[min,max]` after a write, so the value is clamped to
the bounds of the joint. -/
def setAng (ch : List Joint) (i : Nat) (a : ℚ) : List Joint :=
  match ch.get? i with
  | some j => ch.set i { j with ang := clampTo (j.min, j.max) a }
  | none => ch

/-- Modelled from the spec: the bounded integrator of the control library (not
in the sources at hand): its timestep, its belief and the bounds of each joint. -/
structure Integrator where
  Ts : ℚ
  y : Vec
  lim : List (ℚ × ℚ)
  deriving DecidableEq, Repr

/-- Modelled from the spec: `reset(position)` overwrites the belief. -/
def Integrator.reset (I : Integrator) (y : Vec) : Integrator := { I with y := y }

/-- Modelled from the spec: `integrate(velocity)` advances the belief to
`clamp(position + velocity*period, bounds)`, every joint on its own. -/
def Integrator.integrate (I : Integrator) (v : Vec) : Integrator :=
  let moved := List.zipWith (fun p w => p + w * I.Ts) I.y v
  { I with y := List.zipWith (fun b x => clampTo b x) I.lim moved }

/-- The minimum-jerk law `computeCmd` of the control library: from the state of
the controller object, the execution time and the error to the velocity and the
next state of the object. -/
abbrev MjLaw := Vec → ℚ → Vec → Vec × Vec

/-- Outcome of `getFeedback`: its boolean result and the contents it leaves in
`fbTorso` and `fbHead`. -/
structure FeedbackResult where
  ok : Bool
  torso : Vec
  head : Vec
  deriving DecidableEq, Repr

/-- What the environment answers during one cycle. -/
structure CycleEnv where
  fb : FeedbackResult
  xOutputCount : Nat
  qOutputCount : Nat
  deriving DecidableEq, Repr

/-- The members of `Controller` (with the suspension flag of its `RateThread`
base and the trace of its external actions). -/
structure Controller where
  Robotable : Bool
  commData : exchangeData
  port_xd : Option xdPort
  neckTime : ℚ
  eyesTime : ℚ
  eyeTiltMin : ℚ
  eyeTiltMax : ℚ
  minAbsVel : ℚ
  period : Nat
  Ts : ℚ
  printAccTime : ℚ
  nJointsTorso : Nat
  nJointsHead : Nat
  fbTorso : Vec
  fbHead : Vec
  fbNeck : Vec
  fbEyes : Vec
  qdNeck : Vec
  qdEyes : Vec
  vNeck : Vec
  vEyes : Vec
  xd : Vec
  qd : Vec
  fp : Vec
  v : Vec
  vdeg : Vec
  vdegOld : Vec
  qddeg : Vec
  qdeg : Vec
  chainNeck : List Joint
  chainEyeL : List Joint
  chainEyeR : List Joint
  mjCtrlNeck : Vec
  mjCtrlEyes : Vec
  Int : Integrator
  suspended : Bool
  trace : List Event
  deriving DecidableEq, Repr

namespace Controller

/-! ## Execution times -/

/-- The getter `Controller::getTneck`. -/
def getTneck (c : Controller) : ℚ := c.neckTime

/-- The getter `Controller::getTeyes`. -/
def getTeyes (c : Controller) : ℚ := c.eyesTime

/-- The setter `Controller::setTneck` (the warning it prints is not recorded). -/
def setTneck (c : Controller) (execTime : ℚ) : Controller :=
  let lowerThresNeck := c.eyesTime + 0.2
  { c with neckTime := if execTime < lowerThresNeck then lowerThresNeck else execTime }

/-- The setter `Controller::setTeyes` (the warning it prints is not recorded). -/
def setTeyes (c : Controller) (execTime : ℚ) : Controller :=
  let lowerThresEyes := 10.0 * c.Ts
  { c with eyesTime := if execTime < lowerThresEyes then lowerThresEyes else execTime }

end Controller

/-! ## Construction -/

/-- The objects the constructor gets from the kinematic and control libraries:
the three chains once their links are released and aligned, and the state of a
fresh minimum-jerk controller. -/
structure Libraries where
  chainNeck : List Joint
  chainEyeL : List Joint
  chainEyeR : List Joint
  mjFresh : Vec

/-- What the constructor reads through the drivers when `drvHead` is given: the
numbers of axes, the outcome of `alignJointsBounds` (the bounds matrix and the
chains with their bounds copied) and the first `getFeedback`. -/
structure HeadDriver where
  nJointsTorso : Nat
  nJointsHead : Nat
  lim : List (ℚ × ℚ)
  chainNeck : List Joint
  chainEyeL : List Joint
  chainEyeR : List Joint
  fbTorso : Vec
  fbHead : Vec

/-- The assignment `lim(i,0)=x`. -/
def setLimMin (lim : List (ℚ × ℚ)) (i : Nat) (x : ℚ) : List (ℚ × ℚ) :=
  match lim.get? i with
  | some b => lim.set i (x, b.2)
  | none => lim

/-- The bounds matrix built when there is no robot: rows `0..nJointsHead-2` from
the neck chain, the vergence row from `MINALLOWED_VERGENCE` and the upper bound
of the row before it. -/
def simLim (K : Consts) (chainNeck : List Joint) (nJointsTorso nJointsHead : Nat) : List (ℚ × ℚ) :=
  let rows := (List.range (nJointsHead - 1)).map (fun i =>
    match chainNeck.get? (nJointsTorso + i) with
    | some j => (j.min, j.max)
    | none => ((0 : ℚ), (0 : ℚ)))
  rows ++ [(K.MINALLOWED_VERGENCE * K.CTRL_DEG2RAD, ((rows.get? (nJointsHead - 2)).getD (0, 0)).2)]

namespace Controller

/-- The constructor `Controller::Controller`.  `drv` is `none` when `drvHead` is
`NULL`. -/
def construct (K : Consts) (lib : Libraries) (drv : Option HeadDriver) (_commData : exchangeData)
    (_neckTime _eyesTime _eyeTiltMin _eyeTiltMax _minAbsVel : ℚ) (_period : Nat) : Controller :=
  let Ts : ℚ := (_period : ℚ) / 1000.0
  let nJointsTorso := match drv with
    | some d => d.nJointsTorso
    | none => 3
  let nJointsHead := match drv with
    | some d => d.nJointsHead
    | none => 6
  let lim := match drv with
    | some d => setLimMin d.lim (d.nJointsHead - 1) (K.MINALLOWED_VERGENCE * K.CTRL_DEG2RAD)
    | none => simLim K lib.chainNeck 3 6
  let fbTorso := match drv with
    | some d => d.fbTorso
    | none => List.replicate 3 0
  let fbHead := match drv with
    | some d => d.fbHead
    | none => (List.replicate 6 (0 : ℚ)).set 5 (K.MINALLOWED_VERGENCE * K.CTRL_DEG2RAD)
  let v : Vec := List.replicate nJointsHead 0
  let c0 : Controller :=
    { Robotable := drv.isSome
      commData := _commData
      port_xd := none
      neckTime := _neckTime
      eyesTime := _eyesTime
      eyeTiltMin := _eyeTiltMin
      eyeTiltMax := _eyeTiltMax
      minAbsVel := _minAbsVel
      period := _period
      Ts := Ts
      printAccTime := 0.0
      nJointsTorso := nJointsTorso
      nJointsHead := nJointsHead
      fbTorso := fbTorso
      fbHead := fbHead
      fbNeck := List.replicate 3 0
      fbEyes := List.replicate 3 0
      qdNeck := List.replicate 3 0
      qdEyes := List.replicate 3 0
      vNeck := List.replicate 3 0
      vEyes := List.replicate 3 0
      xd := []
      qd := []
      fp := []
      v := []
      vdeg := []
      vdegOld := []
      qddeg := []
      qdeg := []
      chainNeck := (drv.map (fun d => d.chainNeck)).getD lib.chainNeck
      chainEyeL := (drv.map (fun d => d.chainEyeL)).getD lib.chainEyeL
      chainEyeR := (drv.map (fun d => d.chainEyeR)).getD lib.chainEyeR
      mjCtrlNeck := []
      mjCtrlEyes := []
      Int := { Ts := Ts, y := [], lim := [] }
      suspended := false
      trace := [] }
  -- Set the task execution time
  let c1 := setTeyes c0 c0.eyesTime
  let c2 := setTneck c1 c1.neckTime
  { c2 with
    mjCtrlNeck := lib.mjFresh
    mjCtrlEyes := lib.mjFresh
    Int := { Ts := Ts, y := fbHead, lim := lim }
    v := v
    vdegOld := v
    qd := fbHead
    qddeg := scal K.CTRL_RAD2DEG fbHead
    vdeg := scal K.CTRL_RAD2DEG v
    commData := { c2.commData with isCtrlActive := false, canCtrlBeDisabled := true }
    port_xd := none }

/-- The attachment of the target port (`set_xdport` of the class declaration). -/
def set_xdport (c : Controller) (p : xdPort) : Controller := { c with port_xd := some p }

/-! ## Stop, suspend, resume, release -/

/-- The method `Controller::stopLimbsVel`. -/
def stopLimbsVel (c : Controller) : Controller :=
  if c.Robotable then
    { c with trace := c.trace ++ [Event.delay (2 * c.Ts), Event.stop] }
  else
    c

/-- The method `Controller::suspend`. -/
def suspend (c : Controller) : Controller :=
  let c1 := stopLimbsVel c
  { c1 with trace := c1.trace ++ [Event.suspendedNotice], suspended := true }

/-- The method `Controller::isMotionDone`. -/
def isMotionDone (c : Controller) : Bool := !c.commData.isCtrlActive

/-- The method `Controller::setTrackingMode`; `set_xd` is the setter of the port. -/
def setTrackingMode (set_xd : xdPort → Vec → xdPort) (c : Controller) (f : Bool) : Controller :=
  let c1 := { c with commData := { c.commData with canCtrlBeDisabled := !f } }
  match c1.port_xd with
  | some p => if f then { c1 with port_xd := some (set_xd p c1.fp) } else c1
  | none => c1

/-- The method `Controller::getTrackingMode`. -/
def getTrackingMode (c : Controller) : Bool := !c.commData.canCtrlBeDisabled

/-! ## Pose query -/

/-- The method `Controller::getPose`: its boolean result and the contents it
leaves in `x`.  `EndEffPose` is the forward kinematics of the kinematic library
(the semaphore around the read has no model). -/
def getPose (EndEffPose : List Joint → Vec) (c : Controller) (poseSel : String) (x : Vec) :
    Bool × Vec :=
  if poseSel = "left" then
    (true, EndEffPose c.chainEyeL)
  else if poseSel = "right" then
    (true, EndEffPose c.chainEyeR)
  else if poseSel = "head" then
    (true, EndEffPose c.chainNeck)
  else
    (false, x)

/-! ## The periodic cycle -/

/-- The motion-done condition `swOffCond` computed at the head of `run`. -/
def swOffCond (K : Consts) (c : Controller) : Bool :=
  normLt (vsub c.commData.qd c.fbHead) (K.GAZECTRL_MOTIONDONE_QTHRES * K.CTRL_DEG2RAD)

/-- The switch-on expression of `run`, for the attached port `p`. -/
def swOnCond (K : Consts) (c : Controller) (p : xdPort) : Bool :=
  if c.commData.canCtrlBeDisabled then
    (p.isNew || decide (c.commData.qd.getD 0 0 ≠ c.qd.getD 0 0)
      || decide (c.commData.qd.getD 1 0 ≠ c.qd.getD 1 0)
      || decide (c.commData.qd.getD 2 0 ≠ c.qd.getD 2 0))
  else
    normGt (vsub p.xd c.fp) K.GAZECTRL_MOTIONSTART_XTHRES

/-- First block of `run`: verify the control switching conditions.  The result
is `none` when the block dereferences a `port_xd` that is `NULL`. -/
def switchCtrl (K : Consts) (c : Controller) : Option Controller :=
  if c.commData.isCtrlActive then
    -- switch-off condition
    if swOffCond K c then
      let c1 := stopLimbsVel c
      match c1.port_xd with
      | some p =>
        some { c1 with commData := { c1.commData with isCtrlActive := false },
                       port_xd := some { p with isNew := false } }
      | none => none
    else
      some c
  else if !swOffCond K c then
    -- switch-on condition
    match c.port_xd with
    | some p => some { c with commData := { c.commData with isCtrlActive := swOnCond K c p } }
    | none => none
  else
    some c

/-- Block `get data` of `run`. -/
def getData (c : Controller) : Controller :=
  { c with xd := c.commData.xd, qd := c.commData.qd, fp := c.commData.x }

/-- The loop of `run` that splits `qd` and `fbHead` into neck and eyes. -/
def splitJoints (c : Controller) : Controller :=
  { c with qdNeck := copy3 c.qdNeck c.qd 0, qdEyes := copy3 c.qdEyes c.qd 3,
           fbNeck := copy3 c.fbNeck c.fbHead 0, fbEyes := copy3 c.fbEyes c.fbHead 3 }

/-- The control law of `run`: the minimum-jerk commands when the controller is
active, zero otherwise. -/
def controlLaw (mj : MjLaw) (c : Controller) : Controller :=
  if c.commData.isCtrlActive then
    let n := mj c.mjCtrlNeck c.neckTime (vsub c.qdNeck c.fbNeck)
    let e := mj c.mjCtrlEyes c.eyesTime (vsub c.qdEyes c.fbEyes)
    { c with vNeck := n.1, mjCtrlNeck := n.2,
             vEyes := vadd e.1 c.commData.counterv, mjCtrlEyes := e.2 }
  else
    { c with vNeck := zeroed c.vNeck, vEyes := zeroed c.vEyes }

/-- The loop of `run` that joins `vNeck` and `vEyes` into `v`. -/
def joinVel (c : Controller) : Controller :=
  { c with v :=
      (((((c.v.set 0 (c.vNeck.getD 0 0)).set 3 (c.vEyes.getD 0 0)).set 1 (c.vNeck.getD 1 0)).set 4
        (c.vEyes.getD 1 0)).set 2 (c.vNeck.getD 2 0)).set 5 (c.vEyes.getD 2 0) }

/-- The body of the bang-bang loop for one joint: `vi` is `v[i]` and `e` the
error `qd[i]-fbHead[i]`. -/
def bangBangAt (minAbsVel vi e : ℚ) : ℚ :=
  if (decide (-minAbsVel < vi) && decide (vi < minAbsVel) && decide (vi ≠ 0)) then
    if e > 0 then minAbsVel
    else if e < 0 then -minAbsVel
    else 0
  else
    vi

/-- The bang-bang loop over the joints `i, i+1, ...` of `v`. -/
def bangBangFrom (minAbsVel : ℚ) (qd fbHead : Vec) : Nat → Vec → Vec
  | _, [] => []
  | i, vi :: rest =>
    bangBangAt minAbsVel vi (qd.getD i 0 - fbHead.getD i 0)
      :: bangBangFrom minAbsVel qd fbHead (i + 1) rest

/-- The bang-bang block of `run`, applied only with a robot. -/
def bangBang (c : Controller) : Controller :=
  if c.Robotable then
    { c with v := bangBangFrom c.minAbsVel c.qd c.fbHead 0 c.v }
  else
    c

/-- Conversion to degrees and conditional `velocityMove` of `run`. -/
def sendVel (K : Consts) (c : Controller) : Controller :=
  let c1 := { c with qddeg := scal K.CTRL_RAD2DEG c.qd, qdeg := scal K.CTRL_RAD2DEG c.fbHead,
                     vdeg := scal K.CTRL_RAD2DEG c.v }
  if c1.Robotable && !(decide (c1.vdeg = c1.vdegOld)) then
    { c1 with trace := c1.trace ++ [Event.velocityMove c1.vdeg], vdegOld := c1.vdeg }
  else
    c1

/-- The method `Controller::printIter`. -/
def printIter (c : Controller) (printTime : ℚ) : Controller :=
  let acc := c.printAccTime + c.Ts
  if printTime ≤ acc then
    { c with printAccTime := 0.0, trace := c.trace ++ [Event.iterInfo] }
  else
    { c with printAccTime := acc }

/-- The joint vector `q` that `run` sends on `port_q`. -/
def jointsOut (K : Consts) (c : Controller) : Vec :=
  (List.range (c.nJointsTorso + c.nJointsHead)).map (fun j =>
    if j < c.nJointsTorso then K.CTRL_RAD2DEG * c.fbTorso.getD j 0
    else c.qdeg.getD (j - c.nJointsTorso) 0)

/-- The writes of `run` on the output ports. -/
def publish (K : Consts) (env : CycleEnv) (c : Controller) : Controller :=
  let c1 := if env.xOutputCount > 0 then { c with trace := c.trace ++ [Event.writeX c.fp] } else c
  if env.qOutputCount > 0 then { c1 with trace := c1.trace ++ [Event.writeQ (jointsOut K c1)] } else c1

/-- The loop `for i<n: ch.setAng(off+i, src[i])`. -/
def setAngs (ch : List Joint) (off n : Nat) (src : Vec) : List Joint :=
  (List.range n).foldl (fun acc i => setAng acc (off + i) (src.getD i 0)) ch

/-- Block `update pose information` of `run`. -/
def updatePose (c : Controller) : Controller :=
  let nT := c.nJointsTorso
  let h := c.fbHead
  let neck := setAngs (setAngs c.chainNeck 0 nT c.fbTorso) nT 3 h
  let eyeL := setAngs (setAngs c.chainEyeL 0 nT c.fbTorso) nT 3 h
  let eyeR := setAngs (setAngs c.chainEyeR 0 nT c.fbTorso) nT 3 h
  { c with
    chainNeck := neck
    chainEyeL := setAng (setAng eyeL (nT + 3) (h.getD 3 0)) (nT + 4) (h.getD 4 0 + h.getD 5 0 / 2.0)
    chainEyeR := setAng (setAng eyeR (nT + 3) (h.getD 3 0)) (nT + 4) (h.getD 4 0 - h.getD 5 0 / 2.0) }

/-- Block `update joints angles` of `run`. -/
def updateJoints (c : Controller) : Controller :=
  let I := c.Int.integrate c.v
  { c with Int := I, fbHead := I.y,
           commData := { c.commData with q := I.y, torso := c.fbTorso, v := c.v } }

/-- The writes of `getFeedback` into `fbTorso` and `fbHead`. -/
def acquire (env : CycleEnv) (c : Controller) : Controller :=
  { c with fbTorso := env.fb.torso, fbHead := env.fb.head }

/-- The blocks of `run` that compute the velocity before it is shaped: split of
the joints, control law, join of the velocities. -/
def rawStep (mj : MjLaw) (c : Controller) : Controller :=
  joinVel (controlLaw mj (splitJoints c))

/-- The blocks of `run` after the bang-bang one: conversion and send, print,
publication, pose and joints update. -/
def outputStep (K : Consts) (env : CycleEnv) (c : Controller) : Controller :=
  updateJoints (updatePose (publish K env (printIter (sendVel K c) 1.0)))

/-- The part of `run` after a feedback that did not fail. -/
def controlStep (K : Consts) (mj : MjLaw) (env : CycleEnv) (c : Controller) : Controller :=
  outputStep K env (bangBang (rawStep mj c))

/-- The call `Int->reset(fbHead)` that follows a feedback that did not fail. -/
def resetInt (c : Controller) : Controller :=
  { c with Int := c.Int.reset c.fbHead }

/-- The part of `run` after the switching block. -/
def afterSwitch (K : Consts) (mj : MjLaw) (env : CycleEnv) (c : Controller) : Controller :=
  let c1 := getData c
  if c1.Robotable then
    let c2 := acquire env c1
    if !env.fb.ok then
      suspend { c2 with trace := c2.trace ++ [Event.timeoutNotice] }
    else
      controlStep K mj env (resetInt c2)
  else
    controlStep K mj env c1

/-- The method `Controller::run`: one cycle.  `none` stands for the dereference
of a `port_xd` that was never attached. -/
def run (K : Consts) (mj : MjLaw) (c : Controller) (env : CycleEnv) : Option Controller :=
  (switchCtrl K c).map (afterSwitch K mj env)

end Controller

end GazeCtrl

/-! # Contacts of the skin dynamics library (`dynContact.cpp`)

The vectors of a contact are lists over a field `α`, so that the model runs on
the rationals and its theorems also hold on the reals; `norm` of the maths
library is the parameter `nrm`. -/

namespace SkinDynLib

/-- The members of `dynContact`. -/
structure dynContact (α : Type) where
  bodyPart : Nat
  linkNumber : Nat
  CoP : List α
  Mu : List α
  Fdir : List α
  Fmodule : α
  muKnown : Bool
  fDirKnown : Bool
  verbose : Nat
  deriving DecidableEq, Repr

/-- Squared Euclidean norm of a vector. -/
def normSq {α : Type} [Field α] (v : List α) : α := (v.map (fun x => x * x)).sum

namespace dynContact

variable {α : Type} [Field α]

/-- The method `dynContact::checkVectorDim` (its message is not recorded). -/
def checkVectorDim (v : List α) (dim : Nat) : Bool :=
  if v.length ≠ dim then false else true

/-- The method `dynContact::getForce`: `Fmodule*Fdir`. -/
def getForce (c : dynContact α) : List α := c.Fdir.map (fun x => c.Fmodule * x)

/-- The method `dynContact::getForceDirection`. -/
def getForceDirection (c : dynContact α) : List α := c.Fdir

/-- The method `dynContact::getForceModule`. -/
def getForceModule (c : dynContact α) : α := c.Fmodule

/-- The method `dynContact::getMoment`. -/
def getMoment (c : dynContact α) : List α := c.Mu

/-- The method `dynContact::getCoP`. -/
def getCoP (c : dynContact α) : List α := c.CoP

/-- The method `dynContact::getForceMoment`: six entries, read from the force
and from the moment (an entry that the source reads outside a vector is `0`). -/
def getForceMoment (c : dynContact α) : List α :=
  let F := c.getForce
  [F.getD 0 0, F.getD 1 0, F.getD 2 0, c.Mu.getD 0 0, c.Mu.getD 1 0, c.Mu.getD 2 0]

/-- The method `dynContact::isMomentKnown`. -/
def isMomentKnown (c : dynContact α) : Bool := c.muKnown

/-- The method `dynContact::isForceDirectionKnown`. -/
def isForceDirectionKnown (c : dynContact α) : Bool := c.fDirKnown

/-- The method `dynContact::setForce`: its result and the contact it leaves. -/
def setForce (nrm : List α → α) (c : dynContact α) (_F : List α) : Bool × dynContact α :=
  if !checkVectorDim _F 3 then
    (false, c)
  else
    let Fmodule := nrm _F
    (true, { c with Fmodule := Fmodule, Fdir := _F.map (fun x => x / Fmodule) })

/-- The method `dynContact::setForceDirection`. -/
def setForceDirection (nrm : List α → α) (c : dynContact α) (_Fdir : List α) :
    Bool × dynContact α :=
  if !checkVectorDim _Fdir 3 then
    (false, c)
  else
    (true, { c with Fdir := _Fdir.map (fun x => x / nrm _Fdir) })

/-- The method `dynContact::setMoment`. -/
def setMoment (c : dynContact α) (_Mu : List α) : Bool × dynContact α :=
  if !checkVectorDim _Mu 3 then (false, c) else (true, { c with Mu := _Mu })

/-- The method `dynContact::setCoP`. -/
def setCoP (c : dynContact α) (_CoP : List α) : Bool × dynContact α :=
  if !checkVectorDim _CoP 3 then (false, c) else (true, { c with CoP := _CoP })

/-- The method `dynContact::setLinkNumber`. -/
def setLinkNumber (c : dynContact α) (_linkNum : Nat) : dynContact α :=
  { c with linkNumber := _linkNum }

/-- The method `dynContact::setBodyPart`. -/
def setBodyPart (c : dynContact α) (_bodyPart : Nat) : dynContact α :=
  { c with bodyPart := _bodyPart }

/-- The method `dynContact::fixForceDirection`. -/
def fixForceDirection (nrm : List α → α) (c : dynContact α) (_Fdir : List α) :
    Bool × dynContact α :=
  let r := setForceDirection nrm c _Fdir
  if r.1 then (true, { r.2 with fDirKnown := true }) else (false, r.2)

/-- The method `dynContact::fixMoment(const Vector&)`. -/
def fixMoment (c : dynContact α) (_Mu : List α) : Bool × dynContact α :=
  let r := setMoment c _Mu
  if r.1 then (true, { r.2 with muKnown := true }) else (false, r.2)

/-- The method `dynContact::fixMoment()`, with the zero moment. -/
def fixMomentZero (c : dynContact α) : Bool × dynContact α :=
  fixMoment c [0, 0, 0]

/-- The method `dynContact::unfixForceDirection`. -/
def unfixForceDirection (c : dynContact α) : dynContact α := { c with fDirKnown := false }

/-- The method `dynContact::unfixMoment`. -/
def unfixMoment (c : dynContact α) : dynContact α := { c with muKnown := false }

/-- The method `dynContact::init`, on the object `c` under construction. -/
def init (nrm : List α → α) (c : dynContact α) (_bodyPart _linkNumber : Nat)
    (_CoP _Mu _Fdir : List α) : dynContact α :=
  let c1 := (setCoP (setLinkNumber (setBodyPart c _bodyPart) _linkNumber) _CoP).2
  let c2 := if _Mu.length = 0 then { c1 with muKnown := false } else (fixMoment c1 _Mu).2
  if _Fdir.length = 0 then { c2 with fDirKnown := false } else (fixForceDirection nrm c2 _Fdir).2

end dynContact

/-- Sample norm on the rationals: the rational square root of the squared norm
(exact on the vectors whose norm is rational). -/
def nrm0 (v : List ℚ) : ℚ := Rat.sqrt (normSq v)

/-- The members of a contact before `init`: the vectors are empty, as their
own construction leaves them. -/
def contactFresh : dynContact ℚ :=
  { bodyPart := 0, linkNumber := 0, CoP := [], Mu := [], Fdir := [],
    Fmodule := 0, muKnown := false, fDirKnown := false, verbose := 0 }

/-- The contact built by the constructor `dynContact()`:
`init(UNKNOWN_BODY_PART, 0, pos)` with `pos` zero and neither a moment nor a
force direction. -/
def contactDefault : dynContact ℚ :=
  dynContact.init nrm0 contactFresh 0 0 [0, 0, 0] [] []

/-- Sample contact: nothing known, moment zero. -/
def contact0 : dynContact ℚ :=
  { bodyPart := 0, linkNumber := 0, CoP := [0, 0, 0], Mu := [0, 0, 0], Fdir := [1, 0, 0],
    Fmodule := 0, muKnown := false, fDirKnown := false, verbose := 0 }

end SkinDynLib

/-! # Drift compensation of the tactile sensors (`Compensator.cpp`)

Doubles and floats are rationals; the vectors are lists, read with `getD` and
written with `set`.  The members are declared in `Compensator.h`; `start_sum` is
taken as a vector of floating-point numbers, `skin_empty` as a table of
counters. -/

namespace SkinDriftCompensation

/-- Constants of `Compensator.h`. -/
structure SkinConsts where
  MAX_SKIN : Nat
  MIN_TOUCH_THR : ℚ
  BIN_TOUCH : ℚ
  BIN_NO_TOUCH : ℚ
  MAX_READ_ERROR : Nat
  deriving DecidableEq, Repr

/-- Status that `IAnalogSensor::read` returns. -/
inductive AnalogStatus where
  | AS_OK
  | AS_ERROR
  | AS_OVF
  | AS_TIMEOUT
  deriving DecidableEq, Repr

/-- What one call of `tactileSensor->read` gives: its status and the vector it
leaves in the argument. -/
structure SensorRead where
  status : AnalogStatus
  values : List ℚ
  deriving DecidableEq, Repr

/-- Messages of `sendInfoMsg`. -/
inductive InfoMsg where
  | timeoutError
  | ovfError
  | genericError
  | noText
  | unexpectedSize (n : Nat)
  | tooManyErrors
  | hardwareProblem
  deriving DecidableEq, Repr

/-- Effects on the outside: the calibration command, the info messages and the
vectors written to the output port. -/
inductive SkinEvent where
  | calibrateSensor
  | infoMsg (m : InfoMsg)
  | write (v : List ℚ)
  deriving DecidableEq, Repr

/-- The members of `Compensator` that the modelled methods use. -/
structure Compensator where
  robotName : String
  skinDim : Nat
  zeroUpRawData : Bool
  binarization : Bool
  smoothFilter : Bool
  smoothFactor : ℚ
  compensationGain : ℚ
  addThreshold : Nat
  minBaseline : ℚ
  _isWorking : Bool
  readErrorCounter : Nat
  calibrationRead : Nat
  baselines : List ℚ
  initialBaselines : List ℚ
  touchThresholds : List ℚ
  compensatedData : List ℚ
  compensatedDataOld : List ℚ
  touchDetected : List Bool
  subTouchDetected : List Bool
  touchDetectedFilt : List Bool
  saturatedTaxels : List Nat
  start_sum : List ℚ
  skin_empty : List (List Nat)
  events : List SkinEvent
  deriving DecidableEq, Repr

namespace Compensator

/-- `calibrationInit`: the calibration command (not on the simulator) and the
reset of the calibration data. -/
def calibrationInit (K : SkinConsts) (c : Compensator) : Compensator :=
  { c with
    events := if c.robotName ≠ "icubSim" then c.events ++ [SkinEvent.calibrateSensor]
              else c.events
    calibrationRead := 0
    saturatedTaxels := []
    start_sum := List.replicate c.skinDim 0
    skin_empty := List.replicate c.skinDim (List.replicate (K.MAX_SKIN + 1) 0) }

/-- The message of `readInputData` for a status other than `AS_OK`. -/
def readErrorMsg (s : AnalogStatus) : InfoMsg :=
  if s = AnalogStatus.AS_TIMEOUT then InfoMsg.timeoutError
  else if s = AnalogStatus.AS_OVF then InfoMsg.ovfError
  else if s = AnalogStatus.AS_ERROR then InfoMsg.genericError
  else InfoMsg.noText

/-- The common tail of the two error branches of `readInputData`: count the
error, send the message, stop the compensator after too many errors. -/
def readFailed (K : SkinConsts) (c : Compensator) (m : InfoMsg) : Compensator :=
  { c with
    readErrorCounter := c.readErrorCounter + 1
    _isWorking := if c.readErrorCounter + 1 > K.MAX_READ_ERROR then false else c._isWorking
    events := if c.readErrorCounter + 1 > K.MAX_READ_ERROR
              then c.events ++ [SkinEvent.infoMsg m, SkinEvent.infoMsg InfoMsg.tooManyErrors]
              else c.events ++ [SkinEvent.infoMsg m] }

/-- `readInputData`; the vector read is `rd.values`. -/
def readInputData (K : SkinConsts) (c : Compensator) (rd : SensorRead) : Bool × Compensator :=
  if rd.status ≠ AnalogStatus.AS_OK then
    (false, readFailed K c (readErrorMsg rd.status))
  else if rd.values.length ≠ c.skinDim then
    (false, readFailed K c (InfoMsg.unexpectedSize rd.values.length))
  else
    (true, { c with readErrorCounter := 0 })

/-- Body of the loop of `calibrationDataCollection` on the pair
`(skin_empty, start_sum)`. -/
def collectTaxel (K : SkinConsts) (zeroUpRawData : Bool) (skin_values : List ℚ)
    (s : List (List Nat) × List ℚ) (j : Nat) : List (List Nat) × List ℚ :=
  let v : ℚ := if zeroUpRawData = false then (K.MAX_SKIN : ℚ) - skin_values.getD j 0
               else skin_values.getD j 0
  if v < 0 ∨ v > (K.MAX_SKIN : ℚ) then s
  else
    let k : Nat := (Rat.floor v).toNat
    (s.1.set j ((s.1.getD j []).set k ((s.1.getD j []).getD k 0 + 1)),
     s.2.set j (s.2.getD j 0 + (k : ℚ)))

/-- `calibrationDataCollection`. -/
def calibrationDataCollection (K : SkinConsts) (c : Compensator) (rd : SensorRead) :
    Compensator :=
  let r := readInputData K c rd
  if !r.1 then r.2
  else
    let s := (List.range c.skinDim).foldl (collectTaxel K c.zeroUpRawData rd.values)
      (r.2.skin_empty, r.2.start_sum)
    { r.2 with calibrationRead := r.2.calibrationRead + 1, skin_empty := s.1, start_sum := s.2 }

/-- The loop `for j = 1 .. MAX_SKIN: row[j] += row[j-1]`. -/
def cumulate (K : SkinConsts) (row : List Nat) : List Nat :=
  (List.range K.MAX_SKIN).foldl (fun r j => r.set (j + 1) (r.getD (j + 1) 0 + r.getD j 0)) row

/-- The loop that looks for the first `j <= MAX_SKIN` with
`row[j] > calibrationRead*0.95` (the assignment `j = MAX_SKIN` ends it). -/
def crossing (K : SkinConsts) (calibrationRead : Nat) (row : List Nat) : Option Nat :=
  (List.range (K.MAX_SKIN + 1)).find?
    (fun j => decide (((row.getD j 0 : Nat) : ℚ) > (calibrationRead : ℚ) * (95 / 100)))

/-- Body of the first loop of `calibrationFinish`. -/
def finishTaxel (K : SkinConsts) (c : Compensator) (i : Nat) : Compensator :=
  let b : ℚ := c.start_sum.getD i 0 / (c.calibrationRead : ℚ)
  let row := cumulate K (c.skin_empty.getD i [])
  { c with
    baselines := c.baselines.set i b
    skin_empty := c.skin_empty.set i row
    touchThresholds :=
      match crossing K c.calibrationRead row with
      | some j => c.touchThresholds.set i ((j : ℚ) - b)
      | none => c.touchThresholds }

/-- The test `baseline255` of `calibrationFinish`. -/
def baseline255 (c : Compensator) : Bool :=
  (List.range c.skinDim).all (fun i => decide (c.baselines.getD i 0 = 255))

/-- The test `thresholdZero` of `calibrationFinish`. -/
def thresholdZero (c : Compensator) : Bool :=
  (List.range c.skinDim).all (fun i => !decide (c.touchThresholds.getD i 0 > 1 / 100000))

/-- The loop of the print block: `touchThresholds[i] = max(MIN_TOUCH_THR, touchThresholds[i])`. -/
def clampThresholds (K : SkinConsts) (n : Nat) (t : List ℚ) : List ℚ :=
  (List.range n).foldl (fun t i => t.set i (max K.MIN_TOUCH_THR (t.getD i 0))) t

/-- `calibrationFinish`. -/
def calibrationFinish (K : SkinConsts) (c : Compensator) : Compensator :=
  let c1 := (List.range c.skinDim).foldl (finishTaxel K) c
  let c2 := { c1 with initialBaselines := c1.baselines, compensatedDataOld := c1.baselines }
  let broken := baseline255 c2 || thresholdZero c2
  let working := if broken then false else c2._isWorking
  { c2 with
    _isWorking := working
    events := if broken then c2.events ++ [SkinEvent.infoMsg InfoMsg.hardwareProblem]
              else c2.events
    touchThresholds := if working then clampThresholds K c2.skinDim c2.touchThresholds
                       else c2.touchThresholds }

/-- Body of the loop of `readRawAndWriteCompensatedData`; the second component
is `compensatedData2Send`. -/
def compensateTaxel (K : SkinConsts) (rawData : List ℚ) (s : Compensator × List ℚ) (i : Nat) :
    Compensator × List ℚ :=
  let c := s.1
  let d0 : ℚ := if c.zeroUpRawData = false
    then (K.MAX_SKIN : ℚ) - rawData.getD i 0 - c.baselines.getD i 0
    else rawData.getD i 0 - c.baselines.getD i 0
  let d1 : ℚ := if c.smoothFilter
    then (1 - c.smoothFactor) * d0 + c.smoothFactor * c.compensatedDataOld.getD i 0
    else d0
  let d2 : ℚ := if d1 > c.touchThresholds.getD i 0 + (c.addThreshold : ℚ)
    then (if c.binarization then K.BIN_TOUCH else d1)
    else (if c.binarization then K.BIN_NO_TOUCH else d1)
  let d3 : ℚ := if d2 < 0 then 0 else d2
  ({ c with
     compensatedData := c.compensatedData ++ [d0]
     touchDetected := c.touchDetected.set i
       (if d0 > c.touchThresholds.getD i 0 + (c.addThreshold : ℚ) then true else false)
     subTouchDetected := c.subTouchDetected.set i
       (if d0 < -c.touchThresholds.getD i 0 - (c.addThreshold : ℚ) then true else false)
     compensatedDataOld := if c.smoothFilter then c.compensatedDataOld.set i d1
                           else c.compensatedDataOld
     touchDetectedFilt := c.touchDetectedFilt.set i
       (if d1 > c.touchThresholds.getD i 0 + (c.addThreshold : ℚ) then true else false) },
   s.2 ++ [d3])

/-- `readRawAndWriteCompensatedData`. -/
def readRawAndWriteCompensatedData (K : SkinConsts) (c : Compensator) (rd : SensorRead) :
    Bool × Compensator :=
  let r := readInputData K c rd
  if !r.1 then (false, r.2)
  else
    let s := (List.range c.skinDim).foldl (compensateTaxel K rd.values)
      ({ r.2 with compensatedData := [] }, [])
    (true, { s.1 with events := s.1.events ++ [SkinEvent.write s.2] })

/-- Body of the first loop of `updateBaseline` on the triple
`(baselines, mean_change, non_touching_taxels)`. -/
def driftTaxel (c : Compensator) (s : List ℚ × ℚ × Nat) (j : Nat) : List ℚ × ℚ × Nat :=
  if !(c.touchDetected.getD j false || c.subTouchDetected.getD j false) then
    let d : ℚ := c.compensatedData.getD j 0
    if |d| > 1 / 2 then
      let change : ℚ := (c.compensationGain / 50) * d / c.touchThresholds.getD j 0
      (s.1.set j (s.1.getD j 0 + change), s.2.1 + change, s.2.2 + 1)
    else (s.1, s.2.1, s.2.2 + 1)
  else s

/-- Body of the second loop of `updateBaseline`. -/
def shiftTaxel (c : Compensator) (mean_change : ℚ) (b : List ℚ) (j : Nat) : List ℚ :=
  if c.touchDetected.getD j false then b.set j (b.getD j 0 + mean_change) else b

/-- `updateBaseline`. -/
def updateBaseline (c : Compensator) : Compensator :=
  let s := (List.range c.skinDim).foldl (driftTaxel c) (c.baselines, 0, 0)
  if 0 < s.2.2 ∧ s.2.2 < c.skinDim ∧ s.2.1 ≠ 0 then
    { c with baselines := (List.range c.skinDim).foldl (shiftTaxel c (s.2.1 / (s.2.2 : ℚ))) s.1 }
  else
    { c with baselines := s.1 }

/-- The test of `doesBaselineExceed` on taxel `i`: the baseline is out of
`[minBaseline, MAX_SKIN - minBaseline]`. -/
def exceeds (K : SkinConsts) (c : Compensator) (i : Nat) : Bool :=
  decide (c.baselines.getD i 0 < c.minBaseline
    ∨ c.baselines.getD i 0 > (K.MAX_SKIN : ℚ) - c.minBaseline)

/-- The loop of `doesBaselineExceed` over the indices still to visit: the first
one that exceeds and is not in `saturatedTaxels`. -/
def exceedFrom (K : SkinConsts) (c : Compensator) : List Nat → Option Nat
  | [] => none
  | i :: rest =>
    if exceeds K c i then
      if !c.saturatedTaxels.contains i then some i else exceedFrom K c rest
    else exceedFrom K c rest

/-- `doesBaselineExceed`: `some (taxelIndex, baseline, initialBaseline)` when it
returns true, `none` when it returns false (the three references are then not
written). -/
def doesBaselineExceed (K : SkinConsts) (c : Compensator) : Option (Nat × ℚ × ℚ) × Compensator :=
  match exceedFrom K c (List.range c.skinDim) with
  | some i =>
    (some (i, c.baselines.getD i 0, c.initialBaselines.getD i 0),
     { c with saturatedTaxels := c.saturatedTaxels ++ [i] })
  | none => (none, c)

/-- `setBinarization`. -/
def setBinarization (c : Compensator) (value : Bool) : Compensator :=
  { c with binarization := value }

/-- `setSmoothFilter`. -/
def setSmoothFilter (c : Compensator) (value : Bool) : Compensator :=
  if c.smoothFilter ≠ value then
    { c with
      smoothFilter := value
      compensatedDataOld := if value then c.compensatedData else c.compensatedDataOld }
  else c

/-- `setSmoothFactor`. -/
def setSmoothFactor (c : Compensator) (value : ℚ) : Bool × Compensator :=
  if value < 0 ∨ value > 1 then (false, c)
  else
    let value1 : ℚ := if value = 1 then 99 / 100 else value
    (true, { c with smoothFactor := value1 })

/-- `setAddThreshold`. -/
def setAddThreshold (K : SkinConsts) (c : Compensator) (thr : Nat) : Bool × Compensator :=
  if thr ≥ K.MAX_SKIN then (false, c) else (true, { c with addThreshold := thr })

/-- `setCompensationGain`. -/
def setCompensationGain (c : Compensator) (gain : ℚ) : Bool × Compensator :=
  if gain ≤ 0 then (false, c) else (true, { c with compensationGain := gain })

end Compensator

/-! ## Notions used by the theorems on the compensator -/

/-- Baseline-compensated value of taxel `i` for the raw vector `raw`. -/
def compensated (K : SkinConsts) (c : Compensator) (raw : List ℚ) (i : Nat) : ℚ :=
  if c.zeroUpRawData = false then (K.MAX_SKIN : ℚ) - raw.getD i 0 - c.baselines.getD i 0
  else raw.getD i 0 - c.baselines.getD i 0

/-- The compensated value after the optional smoothing filter. -/
def smoothed (K : SkinConsts) (c : Compensator) (raw : List ℚ) (i : Nat) : ℚ :=
  if c.smoothFilter
  then (1 - c.smoothFactor) * compensated K c raw i + c.smoothFactor * c.compensatedDataOld.getD i 0
  else compensated K c raw i

/-- The touch level of taxel `i`: `touchThresholds[i] + addThreshold`. -/
def touchLevel (c : Compensator) (i : Nat) : ℚ :=
  c.touchThresholds.getD i 0 + (c.addThreshold : ℚ)

/-- The value before the clamp at zero: the smoothed value, replaced by
`BIN_TOUCH` or `BIN_NO_TOUCH` when the binarization is on. -/
def binarized (K : SkinConsts) (c : Compensator) (raw : List ℚ) (i : Nat) : ℚ :=
  if c.binarization then
    (if smoothed K c raw i > touchLevel c i then K.BIN_TOUCH else K.BIN_NO_TOUCH)
  else smoothed K c raw i

/-- Taxel `j` has neither touch nor sub-touch detected. -/
def untouched (c : Compensator) (j : Nat) : Bool :=
  !(c.touchDetected.getD j false || c.subTouchDetected.getD j false)

/-- The drift step of an untouched taxel `j`: `(compensationGain/50)*d/touchThresholds[j]`
when `|d| > 0.5`, nothing otherwise. -/
def driftChange (c : Compensator) (j : Nat) : ℚ :=
  if |c.compensatedData.getD j 0| > 1 / 2
  then (c.compensationGain / 50) * c.compensatedData.getD j 0 / c.touchThresholds.getD j 0
  else 0

/-- Number of untouched taxels among the first `n`. -/
def untouchedCount (c : Compensator) (n : Nat) : Nat :=
  ((List.range n).filter (untouched c)).length

/-- Sum of the drift steps of the untouched taxels among the first `n`. -/
def untouchedChange (c : Compensator) (n : Nat) : ℚ :=
  ((List.range n).map (fun j => if untouched c j then driftChange c j else 0)).sum

/-- The shift of the touched taxels: the mean of the drift steps of the
untouched ones, or nothing when no taxel or every taxel is untouched or the sum
of the steps is zero. -/
def touchShift (c : Compensator) : ℚ :=
  if 0 < untouchedCount c c.skinDim ∧ untouchedCount c c.skinDim < c.skinDim
      ∧ untouchedChange c c.skinDim ≠ 0
  then untouchedChange c c.skinDim / (untouchedCount c c.skinDim : ℚ)
  else 0

/-- The taxels that `doesBaselineExceed` has still to report, in index order. -/
def pendingTaxels (K : SkinConsts) (c : Compensator) : List Nat :=
  (List.range c.skinDim).filter
    (fun i => Compensator.exceeds K c i && !c.saturatedTaxels.contains i)

/-- State after `n` calls of `doesBaselineExceed` in a row. -/
def exceedCalls (K : SkinConsts) (c : Compensator) : Nat → Compensator
  | 0 => c
  | n + 1 => (Compensator.doesBaselineExceed K (exceedCalls K c n)).2

/-- What the call number `n` (from 0) of a row of calls of `doesBaselineExceed`
returns. -/
def exceedReport (K : SkinConsts) (c : Compensator) (n : Nat) : Option (Nat × ℚ × ℚ) :=
  (Compensator.doesBaselineExceed K (exceedCalls K c n)).1

/-- A calibration run: `calibrationInit`, the reads, `calibrationFinish`. -/
def calibrationRun (K : SkinConsts) (c : Compensator) (reads : List SensorRead) : Compensator :=
  Compensator.calibrationFinish K
    (reads.foldl (Compensator.calibrationDataCollection K) (Compensator.calibrationInit K c))

/-- The compensator `c` with the five vectors that the loop of
`readRawAndWriteCompensatedData` writes replaced. -/
def loopState (c : Compensator) (cd : List ℚ) (td sd : List Bool) (old : List ℚ)
    (tf : List Bool) : Compensator :=
  { c with compensatedData := cd, touchDetected := td, subTouchDetected := sd,
           compensatedDataOld := old, touchDetectedFilt := tf }

/-- The smoothing filter on the compensated value `d`, with old output `o`. -/
def smoothWith (c : Compensator) (d o : ℚ) : ℚ :=
  if c.smoothFilter then (1 - c.smoothFactor) * d + c.smoothFactor * o else d

/-- The binarization filter and the clamp at zero on the filtered value `d` of
taxel `i`. -/
def sendValue (K : SkinConsts) (c : Compensator) (i : Nat) (d : ℚ) : ℚ :=
  max 0 (if c.binarization then
      (if d > touchLevel c i then K.BIN_TOUCH else K.BIN_NO_TOUCH)
    else d)

/-! ## Sample data for the compensator -/

/-- Sample constants. -/
def Ks : SkinConsts :=
  { MAX_SKIN := 255, MIN_TOUCH_THR := 1, BIN_TOUCH := 100, BIN_NO_TOUCH := 0,
    MAX_READ_ERROR := 100 }

/-- Sample compensator with two taxels, as `init` leaves it. -/
def comp0 : Compensator :=
  { robotName := "icub", skinDim := 2, zeroUpRawData := true, binarization := false,
    smoothFilter := true, smoothFactor := 1 / 2, compensationGain := 1 / 5, addThreshold := 2,
    minBaseline := 3, _isWorking := true, readErrorCounter := 0, calibrationRead := 0,
    baselines := [10, 20], initialBaselines := [10, 20], touchThresholds := [1, 1],
    compensatedData := [0, 0], compensatedDataOld := [0, 0],
    touchDetected := [false, false], subTouchDetected := [false, false],
    touchDetectedFilt := [false, false], saturatedTaxels := [],
    start_sum := [], skin_empty := [], events := [] }

/-- Sample read: both taxels answer. -/
def rd0 : SensorRead := { status := AnalogStatus.AS_OK, values := [30, 12] }

/-- Sample read of a skin whose two taxels give the constant value 10. -/
def rdFlat : SensorRead := { status := AnalogStatus.AS_OK, values := [10, 10] }

/-- Sample compensator with three taxels: the first touched, the second with
sub-touch, the third with neither and a compensated value above 0.5. -/
def compTouch : Compensator :=
  { comp0 with
    skinDim := 3, compensationGain := 5, baselines := [1, 2, 3], initialBaselines := [1, 2, 3],
    touchThresholds := [1, 1, 2], compensatedData := [5, -4, 1],
    compensatedDataOld := [5, -4, 1], touchDetected := [true, false, false],
    subTouchDetected := [false, true, false], touchDetectedFilt := [true, false, false] }

end SkinDriftCompensation

namespace GazeCtrl

/-! ## Notions used by the theorems -/

/-- The condition under which `run` calls `velocityMove`. -/
def Controller.sends (K : Consts) (c : Controller) : Bool :=
  c.Robotable && !(decide (scal K.CTRL_RAD2DEG c.v = c.vdegOld))

/-- The velocity vector of `run` when it enters the bang-bang block, from the
state `c1` left by the switching block, in a cycle with a robot. -/
def unshapedVel (mj : MjLaw) (env : CycleEnv) (c1 : Controller) : Vec :=
  (Controller.rawStep mj (Controller.acquire env c1.getData).resetInt).v

/-- The events of `run` after the `velocityMove`: none is a motor command. -/
def quietEvents (evs : List Event) : Prop :=
  ∀ e ∈ evs, e = Event.iterInfo ∨ (∃ x, e = Event.writeX x) ∨ (∃ q, e = Event.writeQ q)

/-- The state in which a cycle whose feedback did not fail enters its control
blocks, from the state `c1` left by the switching block. -/
def cycleEntry (env : CycleEnv) (c1 : Controller) : Controller :=
  if c1.Robotable then (Controller.acquire env c1.getData).resetInt else c1.getData

/-- The head feedback of a cycle: the encoders with a robot, the belief of the
integrator without. -/
def cycleHead (env : CycleEnv) (c : Controller) : Vec :=
  if c.Robotable then env.fb.head else c.fbHead

/-- The torso feedback of a cycle: the encoders with a robot, the stored value
without. -/
def cycleTorso (env : CycleEnv) (c : Controller) : Vec :=
  if c.Robotable then env.fb.torso else c.fbTorso

/-- The velocity vector of a cycle whose feedback did not fail when `run`
enters the bang-bang block, with or without a robot. -/
def rawVel (mj : MjLaw) (env : CycleEnv) (c1 : Controller) : Vec :=
  (Controller.rawStep mj (cycleEntry env c1)).v

/-- A call on one of the two setters of the execution times. -/
inductive TimeCall where
  | setTeyes (execTime : ℚ)
  | setTneck (execTime : ℚ)
  deriving DecidableEq, Repr

/-- The effect of one call on a setter. -/
def applyCall (c : Controller) : TimeCall → Controller
  | TimeCall.setTeyes t => c.setTeyes t
  | TimeCall.setTneck t => c.setTneck t

/-- The effect of a sequence of calls on the setters, first call first. -/
def applyCalls (c : Controller) (calls : List TimeCall) : Controller :=
  calls.foldl applyCall c

/-- The timing invariant of the data model: `eyesTime >= 10*Ts` and
`neckTime >= eyesTime + 0.2`. -/
def timingInvariant (c : Controller) : Prop :=
  c.eyesTime ≥ 10 * c.Ts ∧ c.neckTime ≥ c.eyesTime + 0.2

instance (c : Controller) : Decidable (timingInvariant c) := by
  unfold timingInvariant
  infer_instance

/-! ## Sample data for the concrete evaluations -/

/-- Sample constants: thresholds of one degree and one unit, no conversion. -/
def K0 : Consts :=
  { CTRL_DEG2RAD := 1, CTRL_RAD2DEG := 1, GAZECTRL_MOTIONDONE_QTHRES := 1,
    GAZECTRL_MOTIONSTART_XTHRES := 1, MINALLOWED_VERGENCE := 1 }

/-- Sample chains of eight joints with bounds `[-10,10]`. -/
def lib0 : Libraries :=
  { chainNeck := List.replicate 8 { min := -10, max := 10, ang := 0 }
    chainEyeL := List.replicate 8 { min := -10, max := 10, ang := 0 }
    chainEyeR := List.replicate 8 { min := -10, max := 10, ang := 0 }
    mjFresh := [] }

/-- Sample shared record: everything zero. -/
def cd0 : exchangeData :=
  { isCtrlActive := false, canCtrlBeDisabled := true, xd := [0, 0, 0],
    qd := [0, 0, 0, 0, 0, 1], x := [0, 0, 0], q := [], torso := [], v := [],
    counterv := [0, 0, 0] }

/-- Sample control law: the velocity is the error, the object has no state. -/
def mj0 : MjLaw := fun st _ e => (e, st)

/-- Sample driver data of a robot with three torso and six head joints. -/
def drv0 : HeadDriver :=
  { nJointsTorso := 3, nJointsHead := 6, lim := List.replicate 6 (-10, 10),
    chainNeck := lib0.chainNeck, chainEyeL := lib0.chainEyeL, chainEyeR := lib0.chainEyeR,
    fbTorso := [0, 0, 0], fbHead := [0, 0, 0, 0, 0, 1] }

/-- Sample target port: no new target, fixation point at the origin. -/
def p0 : xdPort := { isNew := false, xd := [0, 0, 0] }

/-- Sample environment of a cycle: the encoders answer with the rest posture
and nobody reads the output ports. -/
def env0 : CycleEnv :=
  { fb := { ok := true, torso := [0, 0, 0], head := [0, 0, 0, 0, 0, 1] },
    xOutputCount := 0, qOutputCount := 0 }

/-- Sample environment of a cycle in which `getFeedback` fails. -/
def envFail : CycleEnv :=
  { fb := { ok := false, torso := [0, 0, 0], head := [0, 0, 0, 0, 0, 1] },
    xOutputCount := 0, qOutputCount := 0 }

/-- A controller on a robot right after construction and attachment of the
port: idle, at rest in the desired posture. -/
def cIdle : Controller :=
  (Controller.construct K0 lib0 (some drv0) cd0 (1 / 10) (1 / 2) 0 0 (1 / 10) 20).set_xdport p0

/-- An active controller in tracking mode whose head is on the target. -/
def cActiveLocked : Controller :=
  { cIdle with commData := { cd0 with isCtrlActive := true, canCtrlBeDisabled := false } }

/-- An idle controller that receives, as a new target, the posture
`[1,0,0,0,0,1]` in which the head already is; it tracked `[0,0,0,0,0,1]` before. -/
def cIdleNewTargetReached : Controller :=
  { cIdle with
    commData := { cd0 with qd := [1, 0, 0, 0, 0, 1] }
    fbHead := [1, 0, 0, 0, 0, 1]
    port_xd := some { isNew := true, xd := [0, 0, 0] } }

/-- An idle controller that receives the new target `[2,0,0,0,0,1]` while the
head is in `[0,0,0,0,0,1]`. -/
def cIdleNewTarget : Controller :=
  { cIdle with
    commData := { cd0 with qd := [2, 0, 0, 0, 0, 1] }
    port_xd := some { isNew := true, xd := [0, 0, 0] } }

/-- An active controller on a robot whose first joint is `1/100` short of the
target; the minimum velocity is `1/10`. -/
def cActiveNear : Controller :=
  { cIdle with
    commData := { cd0 with isCtrlActive := true, qd := [2, 0, 0, 0, 0, 1] }
    fbHead := [0, 0, 0, 0, 0, 1] }

/-- Sample environment of a cycle whose encoders read `199/100` on the first
head joint. -/
def envNear : CycleEnv :=
  { fb := { ok := true, torso := [0, 0, 0], head := [199 / 100, 0, 0, 0, 0, 1] },
    xOutputCount := 0, qOutputCount := 0 }

/-- A controller on a robot that was sending a velocity on the first joint,
in the cycle in which the desired joints equal the feedback. -/
def cMoving : Controller :=
  { cIdle with
    commData := { cd0 with isCtrlActive := true }
    v := [1, 0, 0, 0, 0, 0]
    vdeg := [1, 0, 0, 0, 0, 0]
    vdegOld := [1, 0, 0, 0, 0, 0] }

/-- An active controller on a robot whose first eye joint is `1/100` beyond the
target while the counter-rotation velocity `counterv` pushes it further by
`1/50`: the unshaped velocity of that joint is `+1/100`, its error `-1/100`. -/
def cCounter : Controller :=
  { cIdle with
    commData := { cd0 with isCtrlActive := true, qd := [2, 0, 0, -1 / 100, 0, 1],
                           counterv := [1 / 50, 0, 0] } }

/-- A controller without robot, idle, right after construction and attachment
of the port. -/
def cSim : Controller :=
  (Controller.construct K0 lib0 none cd0 (1 / 10) (1 / 2) 0 0 (1 / 10) 20).set_xdport p0

/-- A controller without robot whose belief has the version `8` and the
vergence `6`, both within the bounds `[-10,10]` and `[1,10]` of the integrator. -/
def cSimWide : Controller :=
  { cSim with
    fbHead := [0, 0, 0, 0, 8, 6]
    Int := { cSim.Int with y := [0, 0, 0, 0, 8, 6] } }

/-- An active controller without robot, `1/100` short of the target on its
first joint and two units beyond it on the last. -/
def cSimNear : Controller :=
  { cSim with
    commData := { cd0 with isCtrlActive := true, qd := [2, 0, 0, 0, 0, 1] }
    fbHead := [199 / 100, 0, 0, 0, 0, 3] }

/-- Sample environment of a cycle whose encoders read `199/100` on the first
head joint, with one reader on the joints port. -/
def envNearQ : CycleEnv :=
  { fb := { ok := true, torso := [0, 0, 0], head := [199 / 100, 0, 0, 0, 0, 1] },
    xOutputCount := 0, qOutputCount := 1 }

/-- Sample driver data of a robot whose aligned bounds give the vergence the
strictly positive lower bound `5`. -/
def drvPos : HeadDriver :=
  { drv0 with lim := List.replicate 5 (-10, 10) ++ [(5, 10)] }

/-- The controller built with `neckTime = 0.1`, `eyesTime = 0.5` and a period of
20 ms, without a robot. -/
def cTimes : Controller :=
  Controller.construct K0 lib0 none cd0 0.1 0.5 0 0 0 20

/-! ## The norm tests -/

/-- The squared norm is not negative. -/
theorem normSq_nonneg (a : Vec) : 0 ≤ normSq a := by
  unfold normSq
  induction a with
  | nil => simp
  | cons x xs ih =>
    simp only [List.map_cons, List.sum_cons]
    exact add_nonneg (mul_self_nonneg x) ih

/-- The test `normLt` is the comparison `norm(a) < t` of the Euclidean norm. -/
theorem normLt_iff_sqrt (a : Vec) (t : ℚ) :
    normLt a t = true ↔ Real.sqrt ((normSq a : ℚ) : ℝ) < (t : ℝ) := by
  unfold normLt
  simp only [Bool.and_eq_true, decide_eq_true_eq]
  constructor
  · rintro ⟨ht, h⟩
    have ht' : (0 : ℝ) < (t : ℝ) := by exact_mod_cast ht
    rw [Real.sqrt_lt' ht']
    have : ((normSq a : ℚ) : ℝ) < ((t * t : ℚ) : ℝ) := by exact_mod_cast h
    simpa [pow_two] using this
  · intro h
    have ht' : (0 : ℝ) < (t : ℝ) := lt_of_le_of_lt (Real.sqrt_nonneg _) h
    have ht : 0 < t := by exact_mod_cast ht'
    refine ⟨ht, ?_⟩
    rw [Real.sqrt_lt' ht'] at h
    have : ((normSq a : ℚ) : ℝ) < ((t * t : ℚ) : ℝ) := by simpa [pow_two] using h
    exact_mod_cast this

/-- The test `normGt` is the comparison `norm(a) > t` of the Euclidean norm. -/
theorem normGt_iff_sqrt (a : Vec) (t : ℚ) :
    normGt a t = true ↔ (t : ℝ) < Real.sqrt ((normSq a : ℚ) : ℝ) := by
  unfold normGt
  simp only [Bool.or_eq_true, decide_eq_true_eq]
  have hn : (0 : ℝ) ≤ ((normSq a : ℚ) : ℝ) := by exact_mod_cast normSq_nonneg a
  constructor
  · rintro (ht | h)
    · have ht' : (t : ℝ) < 0 := by exact_mod_cast ht
      exact lt_of_lt_of_le ht' (Real.sqrt_nonneg _)
    · by_cases ht : t < 0
      · have ht' : (t : ℝ) < 0 := by exact_mod_cast ht
        exact lt_of_lt_of_le ht' (Real.sqrt_nonneg _)
      · have ht' : (0 : ℝ) ≤ (t : ℝ) := by exact_mod_cast not_lt.mp ht
        rw [Real.lt_sqrt ht']
        have : ((t * t : ℚ) : ℝ) < ((normSq a : ℚ) : ℝ) := by exact_mod_cast h
        simpa [pow_two] using this
  · intro h
    by_cases ht : t < 0
    · exact Or.inl ht
    · right
      have ht' : (0 : ℝ) ≤ (t : ℝ) := by exact_mod_cast not_lt.mp ht
      rw [Real.lt_sqrt ht'] at h
      have : ((t * t : ℚ) : ℝ) < ((normSq a : ℚ) : ℝ) := by simpa [pow_two] using h
      exact_mod_cast this

/-! ## Execution times: theorems -/

theorem ten_eq : (10.0 : ℚ) = 10 := by norm_num

theorem thousand_eq : (1000.0 : ℚ) = 1000 := by norm_num

theorem ite_lt_eq_max (x b : ℚ) : (if x < b then b else x) = max x b := by
  by_cases h : x < b
  · simp [h, max_eq_right (le_of_lt h)]
  · simp [h, max_eq_left (not_lt.mp h)]

theorem setTneck_neckTime (c : Controller) (t : ℚ) :
    (c.setTneck t).neckTime = max t (c.eyesTime + 0.2) :=
  ite_lt_eq_max t (c.eyesTime + 0.2)

theorem setTeyes_eyesTime (c : Controller) (t : ℚ) :
    (c.setTeyes t).eyesTime = max t (10 * c.Ts) := by
  have h : (c.setTeyes t).eyesTime = (if t < 10.0 * c.Ts then 10.0 * c.Ts else t) := rfl
  rw [h, ten_eq]
  exact ite_lt_eq_max _ _

theorem construct_Ts (K : Consts) (lib : Libraries) (drv : Option HeadDriver)
    (cd : exchangeData) (n e tmin tmax mv : ℚ) (p : Nat) :
    (Controller.construct K lib drv cd n e tmin tmax mv p).Ts = (p : ℚ) / 1000 := by
  have h : (Controller.construct K lib drv cd n e tmin tmax mv p).Ts = (p : ℚ) / 1000.0 := rfl
  rw [thousand_eq] at h
  exact h

theorem construct_eyesTime (K : Consts) (lib : Libraries) (drv : Option HeadDriver)
    (cd : exchangeData) (n e tmin tmax mv : ℚ) (p : Nat) :
    (Controller.construct K lib drv cd n e tmin tmax mv p).eyesTime
      = max e (10 * ((p : ℚ) / 1000)) := by
  have h : (Controller.construct K lib drv cd n e tmin tmax mv p).eyesTime
      = (if e < 10.0 * ((p : ℚ) / 1000.0) then 10.0 * ((p : ℚ) / 1000.0) else e) := rfl
  rw [h, ten_eq, thousand_eq]
  exact ite_lt_eq_max _ _

theorem construct_neckTime (K : Consts) (lib : Libraries) (drv : Option HeadDriver)
    (cd : exchangeData) (n e tmin tmax mv : ℚ) (p : Nat) :
    (Controller.construct K lib drv cd n e tmin tmax mv p).neckTime
      = max n ((Controller.construct K lib drv cd n e tmin tmax mv p).eyesTime + 0.2) := by
  have h : (Controller.construct K lib drv cd n e tmin tmax mv p).neckTime
      = (if n < (Controller.construct K lib drv cd n e tmin tmax mv p).eyesTime + 0.2
          then (Controller.construct K lib drv cd n e tmin tmax mv p).eyesTime + 0.2 else n) := rfl
  rw [h]
  exact ite_lt_eq_max _ _

/-- C8: `setTneck` clamps and never rejects: afterwards `getTneck` is
`max(execTime, eyesTime+0.2)` for the current `eyesTime`, which it leaves
unchanged; the function is total. -/
theorem setTneck_clamps (c : Controller) (execTime : ℚ) :
    (c.setTneck execTime).getTneck = max execTime (c.eyesTime + 0.2) ∧
    (c.setTneck execTime).eyesTime = c.eyesTime :=
  ⟨setTneck_neckTime c execTime, rfl⟩

/-- C9: `setTeyes` clamps and never rejects: afterwards `getTeyes` is
`max(execTime, 10*Ts)`, the neck time (and `Ts`) are unchanged, and `Ts` is
`period/1000` from the construction on. -/
theorem setTeyes_clamps (c : Controller) (execTime : ℚ) :
    (c.setTeyes execTime).getTeyes = max execTime (10 * c.Ts) ∧
    (c.setTeyes execTime).neckTime = c.neckTime ∧
    (c.setTeyes execTime).Ts = c.Ts ∧
    (c.setTneck execTime).Ts = c.Ts ∧
    ∀ (K : Consts) (lib : Libraries) (drv : Option HeadDriver) (cd : exchangeData)
      (n e tmin tmax mv : ℚ) (p : Nat),
      (Controller.construct K lib drv cd n e tmin tmax mv p).Ts = (p : ℚ) / 1000 :=
  ⟨setTeyes_eyesTime c execTime, rfl, rfl, rfl, construct_Ts⟩

/-- C10: the constructor clamps the eyes time first and the neck time second:
`getTeyes = max(e, 10*p/1000)` and `getTneck = max(n, getTeyes+0.2)`; with
`n = 0.1`, `e = 0.5`, `p = 20` this is `0.5` and `0.7`. -/
theorem construct_times (K : Consts) (lib : Libraries) (drv : Option HeadDriver)
    (cd : exchangeData) (n e tmin tmax mv : ℚ) (p : Nat) :
    (Controller.construct K lib drv cd n e tmin tmax mv p).getTeyes
        = max e (10 * ((p : ℚ) / 1000)) ∧
    (Controller.construct K lib drv cd n e tmin tmax mv p).getTneck
        = max n ((Controller.construct K lib drv cd n e tmin tmax mv p).getTeyes + 0.2) ∧
    (Controller.construct K lib drv cd 0.1 0.5 tmin tmax mv 20).getTeyes = 0.5 ∧
    (Controller.construct K lib drv cd 0.1 0.5 tmin tmax mv 20).getTneck = 0.7 := by
  refine ⟨construct_eyesTime K lib drv cd n e tmin tmax mv p,
    construct_neckTime K lib drv cd n e tmin tmax mv p, ?_, ?_⟩
  · show (Controller.construct K lib drv cd 0.1 0.5 tmin tmax mv 20).eyesTime = 0.5
    rw [construct_eyesTime]
    norm_num
  · show (Controller.construct K lib drv cd 0.1 0.5 tmin tmax mv 20).neckTime = 0.7
    rw [construct_neckTime, construct_eyesTime]
    norm_num

/-- The first half of the timing invariant holds in every state reached from a
state that has it by calls on the two setters. -/
theorem applyCalls_eyes_bound (calls : List TimeCall) (c : Controller)
    (h : c.eyesTime ≥ 10 * c.Ts) :
    (applyCalls c calls).eyesTime ≥ 10 * (applyCalls c calls).Ts := by
  induction calls generalizing c with
  | nil => exact h
  | cons call rest ih =>
    refine ih (applyCall c call) ?_
    cases call with
    | setTeyes t =>
      show (c.setTeyes t).eyesTime ≥ 10 * c.Ts
      rw [setTeyes_eyesTime]
      exact le_max_right _ _
    | setTneck t => exact h

/-- C7 fails on the code: after the construction with `neckTime = 0.1`,
`eyesTime = 0.5`, period 20 ms (which gives `0.5` and `0.7`), the call
`setTeyes(1)` leaves `eyesTime = 1` and `neckTime = 0.7`, below
`eyesTime + 0.2`: `setTeyes` does not clamp the neck time again. -/
theorem timing_invariant_broken_by_setTeyes :
    timingInvariant cTimes ∧
    (applyCalls cTimes [TimeCall.setTeyes 1]).eyesTime = 1 ∧
    (applyCalls cTimes [TimeCall.setTeyes 1]).neckTime = 0.7 ∧
    ¬ timingInvariant (applyCalls cTimes [TimeCall.setTeyes 1]) := by
  with_unfolding_all decide

/-! ## The cycle: what each block leaves alone -/

theorem stopLimbsVel_eq (c : Controller) :
    c.stopLimbsVel = { c with trace := c.trace ++
      (if c.Robotable then [Event.delay (2 * c.Ts), Event.stop] else []) } := by
  unfold Controller.stopLimbsVel
  split <;> simp

theorem controlLaw_eq (mj : MjLaw) (c : Controller) :
    Controller.controlLaw mj c = { c with
      vNeck := if c.commData.isCtrlActive then (mj c.mjCtrlNeck c.neckTime (vsub c.qdNeck c.fbNeck)).1
        else zeroed c.vNeck
      mjCtrlNeck := if c.commData.isCtrlActive then
          (mj c.mjCtrlNeck c.neckTime (vsub c.qdNeck c.fbNeck)).2
        else c.mjCtrlNeck
      vEyes := if c.commData.isCtrlActive then
          vadd (mj c.mjCtrlEyes c.eyesTime (vsub c.qdEyes c.fbEyes)).1 c.commData.counterv
        else zeroed c.vEyes
      mjCtrlEyes := if c.commData.isCtrlActive then
          (mj c.mjCtrlEyes c.eyesTime (vsub c.qdEyes c.fbEyes)).2
        else c.mjCtrlEyes } := by
  unfold Controller.controlLaw
  split <;> simp [*]

theorem bangBang_eq (c : Controller) :
    c.bangBang = { c with v := if c.Robotable then
      Controller.bangBangFrom c.minAbsVel c.qd c.fbHead 0 c.v else c.v } := by
  unfold Controller.bangBang
  by_cases h : c.Robotable = true
  · rw [if_pos h, if_pos h]
  · rw [if_neg h, if_neg h]

theorem sendVel_eq (K : Consts) (c : Controller) :
    c.sendVel K = { c with
      qddeg := scal K.CTRL_RAD2DEG c.qd
      qdeg := scal K.CTRL_RAD2DEG c.fbHead
      vdeg := scal K.CTRL_RAD2DEG c.v
      trace := c.trace ++ (if c.sends K then [Event.velocityMove (scal K.CTRL_RAD2DEG c.v)] else [])
      vdegOld := if c.sends K then scal K.CTRL_RAD2DEG c.v else c.vdegOld } := by
  unfold Controller.sendVel Controller.sends
  split <;> simp_all

theorem printIter_eq (c : Controller) (printTime : ℚ) :
    c.printIter printTime = { c with
      printAccTime := if printTime ≤ c.printAccTime + c.Ts then 0.0 else c.printAccTime + c.Ts
      trace := c.trace ++ (if printTime ≤ c.printAccTime + c.Ts then [Event.iterInfo] else []) } := by
  unfold Controller.printIter
  split <;> simp_all

theorem publish_eq (K : Consts) (env : CycleEnv) (c : Controller) :
    c.publish K env = { c with
      trace := c.trace ++ (if env.xOutputCount > 0 then [Event.writeX c.fp] else [])
        ++ (if env.qOutputCount > 0 then [Event.writeQ (Controller.jointsOut K c)] else []) } := by
  unfold Controller.publish
  split <;> split <;> simp_all [Controller.jointsOut]

theorem controlStep_isCtrlActive (K : Consts) (mj : MjLaw) (env : CycleEnv) (c : Controller) :
    (Controller.controlStep K mj env c).commData.isCtrlActive = c.commData.isCtrlActive := by
  simp only [Controller.controlStep, Controller.outputStep, Controller.rawStep,
    Controller.updateJoints, Controller.updatePose,
    publish_eq, printIter_eq, sendVel_eq, bangBang_eq,
    Controller.joinVel, controlLaw_eq, Controller.splitJoints]

theorem getData_eq (c : Controller) :
    c.getData = { c with xd := c.commData.xd, qd := c.commData.qd, fp := c.commData.x } := rfl

theorem suspend_eq (c : Controller) :
    c.suspend = { c with
      trace := c.trace ++ (if c.Robotable then [Event.delay (2 * c.Ts), Event.stop] else [])
        ++ [Event.suspendedNotice]
      suspended := true } := by
  unfold Controller.suspend
  rw [stopLimbsVel_eq]

theorem afterSwitch_isCtrlActive (K : Consts) (mj : MjLaw) (env : CycleEnv) (c : Controller) :
    (Controller.afterSwitch K mj env c).commData.isCtrlActive = c.commData.isCtrlActive := by
  unfold Controller.afterSwitch
  simp only [getData_eq, Controller.acquire, Controller.resetInt]
  split_ifs
  · simp only [suspend_eq]
  · simp only [controlStep_isCtrlActive]
  · simp only [controlStep_isCtrlActive]

theorem Controller_eta3 (c : Controller) (cd : exchangeData) (px : Option xdPort)
    (tr : List Event) (h1 : cd = c.commData) (h2 : px = c.port_xd) (h3 : tr = c.trace) :
    c = { c with commData := cd, port_xd := px, trace := tr } := by
  subst h1 h2 h3; rfl

theorem exchangeData_eta (cd : exchangeData) (b : Bool) (h : b = cd.isCtrlActive) :
    { cd with isCtrlActive := b } = cd := by
  subst h; rfl

/-- The switching block when the target port is attached, as one update. -/
theorem switchCtrl_eq (K : Consts) (c : Controller) (p : xdPort) (hp : c.port_xd = some p) :
    Controller.switchCtrl K c = some { c with
      commData := { c.commData with
        isCtrlActive := if c.commData.isCtrlActive then !(c.swOffCond K)
          else (!(c.swOffCond K) && c.swOnCond K p) }
      port_xd := some { p with
        isNew := if (c.commData.isCtrlActive && c.swOffCond K) then false else p.isNew }
      trace := c.trace ++ (if (c.commData.isCtrlActive && c.swOffCond K && c.Robotable)
        then [Event.delay (2 * c.Ts), Event.stop] else []) } := by
  unfold Controller.switchCtrl
  by_cases ha : c.commData.isCtrlActive = true <;> by_cases hs : c.swOffCond K = true
  · simp [ha, hs, stopLimbsVel_eq, hp]
  · rw [if_pos ha, if_neg hs]
    refine congrArg some (Controller_eta3 c _ _ _ ?_ ?_ ?_)
    · exact (exchangeData_eta _ _ (by simp [ha, hs])).symm
    · rw [hp]; simp [ha, hs]
    · simp [ha, hs]
  · rw [if_neg ha, if_neg (by simp [hs])]
    refine congrArg some (Controller_eta3 c _ _ _ ?_ ?_ ?_)
    · exact (exchangeData_eta _ _ (by simp [ha, hs])).symm
    · rw [hp]; simp [ha, hs]
    · simp [ha, hs]
  · simp [ha, hs, hp]

theorem run_eq (K : Consts) (mj : MjLaw) (c : Controller) (env : CycleEnv) (p : xdPort)
    (hp : c.port_xd = some p) :
    Controller.run K mj c env = some (Controller.afterSwitch K mj env { c with
      commData := { c.commData with
        isCtrlActive := if c.commData.isCtrlActive then !(c.swOffCond K)
          else (!(c.swOffCond K) && c.swOnCond K p) }
      port_xd := some { p with
        isNew := if (c.commData.isCtrlActive && c.swOffCond K) then false else p.isNew }
      trace := c.trace ++ (if (c.commData.isCtrlActive && c.swOffCond K && c.Robotable)
        then [Event.delay (2 * c.Ts), Event.stop] else []) }) := by
  unfold Controller.run
  rw [switchCtrl_eq K c p hp]
  rfl

/-- The tracking mode read back is the one that was set. -/
theorem setTrackingMode_getTrackingMode (set_xd : xdPort → Vec → xdPort) (c : Controller)
    (f : Bool) : (c.setTrackingMode set_xd f).getTrackingMode = f := by
  unfold Controller.setTrackingMode Controller.getTrackingMode
  cases hp : c.port_xd <;> cases f <;> simp [hp]

/-! ## Activation: theorems -/

/-- C1: motion-done convergence.  Whatever the prior state (active or idle,
tracking mode on or off), when the norm of `commData.qd - fbHead` is below the
motion-done threshold at the start of the cycle, `run` returns and leaves
`isCtrlActive` false. -/
theorem run_motionDone_idle (K : Consts) (mj : MjLaw) (c : Controller) (env : CycleEnv)
    (p : xdPort) (hp : c.port_xd = some p) (hdone : c.swOffCond K = true) :
    ∃ c', Controller.run K mj c env = some c' ∧ c'.commData.isCtrlActive = false := by
  refine ⟨_, run_eq K mj c env p hp, ?_⟩
  rw [afterSwitch_isCtrlActive]
  simp [hdone]

/-- Instance of C1: the active controller in tracking mode, on its target. -/
theorem run_motionDone_idle_witness :
    cActiveLocked.port_xd = some p0 ∧ cActiveLocked.swOffCond K0 = true ∧
    ∃ c', Controller.run K0 mj0 cActiveLocked env0 = some c' ∧
      c'.commData.isCtrlActive = false :=
  ⟨rfl, by with_unfolding_all decide,
    run_motionDone_idle K0 mj0 cActiveLocked env0 p0 rfl (by with_unfolding_all decide)⟩

/-- C2, as stated, fails: a cycle that starts active in tracking mode with the
head on the target ends idle. -/
theorem active_locked_cycle_goes_idle :
    cActiveLocked.commData.isCtrlActive = true ∧ cActiveLocked.getTrackingMode = true ∧
    (Controller.run K0 mj0 cActiveLocked env0).map (fun c => c.commData.isCtrlActive)
      = some false := by
  with_unfolding_all decide

/-- C2, amended: a cycle that starts active in tracking mode ends active exactly
when the motion-done condition does not hold at its start; tracking mode does
not disable the switch to idle. -/
theorem run_active_locked (K : Consts) (mj : MjLaw) (c : Controller) (env : CycleEnv)
    (p : xdPort) (hp : c.port_xd = some p) (hact : c.commData.isCtrlActive = true)
    (_hlock : c.getTrackingMode = true) :
    ∃ c', Controller.run K mj c env = some c' ∧
      c'.commData.isCtrlActive = !(c.swOffCond K) := by
  refine ⟨_, run_eq K mj c env p hp, ?_⟩
  rw [afterSwitch_isCtrlActive]
  simp [hact]

/-- Instance of the amended C2 on the active controller in tracking mode. -/
theorem run_active_locked_witness :
    cActiveLocked.port_xd = some p0 ∧ cActiveLocked.commData.isCtrlActive = true ∧
    cActiveLocked.getTrackingMode = true ∧
    ∃ c', Controller.run K0 mj0 cActiveLocked env0 = some c' ∧
      c'.commData.isCtrlActive = !(cActiveLocked.swOffCond K0) :=
  ⟨rfl, rfl, rfl, run_active_locked K0 mj0 cActiveLocked env0 p0 rfl rfl rfl⟩

/-- C3, as stated, fails: an idle controller out of tracking mode that gets a
new target different from the joints it tracked stays idle when the head is
already within the motion-done threshold of that target. -/
theorem idle_newTarget_cycle_stays_idle :
    cIdleNewTargetReached.commData.isCtrlActive = false ∧
    cIdleNewTargetReached.getTrackingMode = false ∧
    (cIdleNewTargetReached.port_xd.map (fun p => p.isNew)) = some true ∧
    cIdleNewTargetReached.commData.qd ≠ cIdleNewTargetReached.qd ∧
    (Controller.run K0 mj0 cIdleNewTargetReached env0).map (fun c => c.commData.isCtrlActive)
      = some false := by
  with_unfolding_all decide

/-- C3, amended: a cycle that starts idle out of tracking mode, with the new
flag of the target set, desired joints that differ from the tracked ones and
the motion-done condition not holding, ends active. -/
theorem run_idle_newTarget (K : Consts) (mj : MjLaw) (c : Controller) (env : CycleEnv)
    (p : xdPort) (hp : c.port_xd = some p) (hidle : c.commData.isCtrlActive = false)
    (hfree : c.getTrackingMode = false) (hnew : p.isNew = true)
    (_hdiff : c.commData.qd ≠ c.qd) (hfar : c.swOffCond K = false) :
    ∃ c', Controller.run K mj c env = some c' ∧ c'.commData.isCtrlActive = true := by
  refine ⟨_, run_eq K mj c env p hp, ?_⟩
  rw [afterSwitch_isCtrlActive]
  have hcan : c.commData.canCtrlBeDisabled = true := by
    simpa [Controller.getTrackingMode] using hfree
  simp [hidle, hfar, Controller.swOnCond, hcan, hnew]

/-- Instance of the amended C3: a new target two units away from the head. -/
theorem run_idle_newTarget_witness :
    cIdleNewTarget.port_xd = some { isNew := true, xd := [0, 0, 0] } ∧
    cIdleNewTarget.commData.isCtrlActive = false ∧
    cIdleNewTarget.getTrackingMode = false ∧
    cIdleNewTarget.commData.qd ≠ cIdleNewTarget.qd ∧
    cIdleNewTarget.swOffCond K0 = false ∧
    ∃ c', Controller.run K0 mj0 cIdleNewTarget env0 = some c' ∧
      c'.commData.isCtrlActive = true :=
  ⟨rfl, rfl, rfl, by with_unfolding_all decide, by with_unfolding_all decide,
    run_idle_newTarget K0 mj0 cIdleNewTarget env0 { isNew := true, xd := [0, 0, 0] } rfl rfl rfl rfl
      (by with_unfolding_all decide) (by with_unfolding_all decide)⟩

/-! ## Deadband shaper: theorems -/

theorem bangBangFrom_get? (m : ℚ) (qd fb : Vec) (v : Vec) (k i : Nat) :
    (Controller.bangBangFrom m qd fb k v).get? i
      = (v.get? i).map (fun vi => Controller.bangBangAt m vi (qd.getD (k + i) 0 - fb.getD (k + i) 0)) := by
  induction v generalizing k i with
  | nil => simp [Controller.bangBangFrom]
  | cons x xs ih =>
    cases i with
    | zero => simp [Controller.bangBangFrom]
    | succ j =>
      simp only [Controller.bangBangFrom, List.get?_cons_succ, ih]
      have : k + 1 + j = k + (j + 1) := by omega
      rw [this]

theorem bangBangAt_inside (m u e : ℚ) (h0 : 0 < |u|) (h1 : |u| < m) :
    Controller.bangBangAt m u e = if 0 < e then m else if e < 0 then -m else 0 := by
  have hne : u ≠ 0 := abs_pos.mp h0
  have hlt := abs_lt.mp h1
  simp [Controller.bangBangAt, hlt.1, hlt.2, hne]

theorem outputStep_v (K : Consts) (env : CycleEnv) (c : Controller) :
    (Controller.outputStep K env c).v = c.v := by
  simp only [Controller.outputStep, Controller.updateJoints, Controller.updatePose,
    publish_eq, printIter_eq, sendVel_eq]

theorem afterSwitch_ok (K : Consts) (mj : MjLaw) (env : CycleEnv) (c : Controller)
    (hrob : c.Robotable = true) (hok : env.fb.ok = true) :
    Controller.afterSwitch K mj env c
      = Controller.controlStep K mj env (Controller.acquire env c.getData).resetInt := by
  have h1 : c.getData.Robotable = true := hrob
  simp only [Controller.afterSwitch, h1, hok]
  rfl

theorem afterSwitch_sim (K : Consts) (mj : MjLaw) (env : CycleEnv) (c : Controller)
    (hrob : c.Robotable = false) :
    Controller.afterSwitch K mj env c = Controller.controlStep K mj env c.getData := by
  have h1 : c.getData.Robotable = false := hrob
  simp only [Controller.afterSwitch, h1]
  rfl

theorem afterSwitch_fail (K : Consts) (mj : MjLaw) (env : CycleEnv) (c : Controller)
    (hrob : c.Robotable = true) (hfail : env.fb.ok = false) :
    Controller.afterSwitch K mj env c = Controller.suspend
      { (Controller.acquire env c.getData) with
        trace := (Controller.acquire env c.getData).trace ++ [Event.timeoutNotice] } := by
  have h1 : c.getData.Robotable = true := hrob
  simp only [Controller.afterSwitch, h1, hfail]
  rfl

theorem rawStep_frame (mj : MjLaw) (c : Controller) :
    (Controller.rawStep mj c).Robotable = c.Robotable ∧
    (Controller.rawStep mj c).minAbsVel = c.minAbsVel ∧
    (Controller.rawStep mj c).qd = c.qd ∧
    (Controller.rawStep mj c).fbHead = c.fbHead ∧
    (Controller.rawStep mj c).vdegOld = c.vdegOld ∧
    (Controller.rawStep mj c).trace = c.trace := by
  simp only [Controller.rawStep, Controller.joinVel, controlLaw_eq, Controller.splitJoints,
    and_self]

theorem bangBang_v_get? (c : Controller) (hrob : c.Robotable = true) (i : Nat) :
    c.bangBang.v.get? i = (c.v.get? i).map (fun vi =>
      Controller.bangBangAt c.minAbsVel vi (c.qd.getD i 0 - c.fbHead.getD i 0)) := by
  rw [bangBang_eq]
  simp only [hrob, if_true]
  rw [bangBangFrom_get?]
  simp

theorem run_of_switchCtrl (K : Consts) (mj : MjLaw) (c c1 : Controller) (env : CycleEnv)
    (hsw : c.switchCtrl K = some c1) :
    Controller.run K mj c env = some (Controller.afterSwitch K mj env c1) := by
  unfold Controller.run
  rw [hsw]
  rfl

/-- What the switching block leaves alone. -/
theorem switchCtrl_frame (K : Consts) (c c1 : Controller) (p : xdPort)
    (hp : c.port_xd = some p) (hsw : c.switchCtrl K = some c1) :
    c1.Robotable = c.Robotable ∧ c1.minAbsVel = c.minAbsVel ∧ c1.commData.qd = c.commData.qd ∧
    c1.v = c.v ∧ c1.vdegOld = c.vdegOld ∧ c1.fbHead = c.fbHead := by
  rw [switchCtrl_eq K c p hp] at hsw
  have hc1 := (Option.some.inj hsw).symm
  rw [hc1]
  exact ⟨rfl, rfl, rfl, rfl, rfl, rfl⟩

/-- C4: deadband shaper of `run` with a robot.  For every joint `i` whose
unshaped velocity `u` satisfies `0 < |u| < minAbsVel`, the velocity that the
cycle leaves in `v[i]` is `+minAbsVel` when the error `e = qd[i] - fbHead[i]`
(desired joint minus the feedback just read) is positive, `-minAbsVel` when it
is negative and `0` when it is zero, whatever the sign of `u`. -/
theorem run_deadband (K : Consts) (mj : MjLaw) (c c1 : Controller) (env : CycleEnv)
    (p : xdPort) (hp : c.port_xd = some p) (hsw : c.switchCtrl K = some c1)
    (hrob : c.Robotable = true) (hok : env.fb.ok = true)
    (i : Nat) (u : ℚ) (hu : (unshapedVel mj env c1).get? i = some u)
    (h0 : 0 < |u|) (h1 : |u| < c.minAbsVel) :
    ∃ c', Controller.run K mj c env = some c' ∧
      c'.v.get? i = some
        (if 0 < c.commData.qd.getD i 0 - env.fb.head.getD i 0 then c.minAbsVel
         else if c.commData.qd.getD i 0 - env.fb.head.getD i 0 < 0 then -c.minAbsVel
         else 0) := by
  refine ⟨_, run_of_switchCtrl K mj c c1 env hsw, ?_⟩
  obtain ⟨hR, hm, hq, -, -, -⟩ := switchCtrl_frame K c c1 p hp hsw
  rw [afterSwitch_ok K mj env c1 (hR.trans hrob) hok]
  unfold unshapedVel at hu
  obtain ⟨fR, fm, fq, ff, -, -⟩ := rawStep_frame mj (Controller.acquire env c1.getData).resetInt
  show (Controller.outputStep K env (Controller.bangBang _)).v.get? i = _
  rw [outputStep_v, bangBang_v_get? _ (fR.trans (hR.trans hrob)), hu, fm, fq, ff]
  simp only [Option.map_some']
  have e1 : (Controller.acquire env c1.getData).resetInt.minAbsVel = c.minAbsVel := hm
  have e2 : (Controller.acquire env c1.getData).resetInt.qd = c.commData.qd := hq
  have e3 : (Controller.acquire env c1.getData).resetInt.fbHead = env.fb.head := rfl
  rw [e1, e2, e3, bangBangAt_inside _ _ _ h0 h1]

/-- Instance of C4: an unshaped velocity of `1/100` under a minimum of `1/10`. -/
theorem run_deadband_witness :
    cActiveNear.port_xd = some p0 ∧ cActiveNear.switchCtrl K0 = some cActiveNear ∧
    cActiveNear.Robotable = true ∧ envNear.fb.ok = true ∧
    (unshapedVel mj0 envNear cActiveNear).get? 0 = some (1 / 100) ∧
    0 < |(1 / 100 : ℚ)| ∧ |(1 / 100 : ℚ)| < cActiveNear.minAbsVel ∧
    ∃ c', Controller.run K0 mj0 cActiveNear envNear = some c' ∧
      c'.v.get? 0 = some
        (if 0 < cActiveNear.commData.qd.getD 0 0 - envNear.fb.head.getD 0 0
          then cActiveNear.minAbsVel
         else if cActiveNear.commData.qd.getD 0 0 - envNear.fb.head.getD 0 0 < 0
          then -cActiveNear.minAbsVel
         else 0) :=
  ⟨rfl, by with_unfolding_all decide, rfl, rfl, by with_unfolding_all decide,
    by with_unfolding_all decide, by with_unfolding_all decide,
    run_deadband K0 mj0 cActiveNear cActiveNear envNear p0 rfl (by with_unfolding_all decide)
      rfl rfl 0 (1 / 100) (by with_unfolding_all decide) (by with_unfolding_all decide)
      (by with_unfolding_all decide)⟩

/-! ## Fault path: theorems -/

/-- What the switching block changes, when the target port is attached. -/
theorem switchCtrl_effect (K : Consts) (c : Controller) (p : xdPort) (hp : c.port_xd = some p) :
    ∃ c1, c.switchCtrl K = some c1 ∧
      c1.commData.isCtrlActive = (if c.commData.isCtrlActive then !(c.swOffCond K)
          else (!(c.swOffCond K) && c.swOnCond K p)) ∧
      c1.trace = c.trace ++ (if (c.commData.isCtrlActive && c.swOffCond K && c.Robotable)
        then [Event.delay (2 * c.Ts), Event.stop] else []) ∧
      c1.Robotable = c.Robotable ∧ c1.Ts = c.Ts ∧ c1.suspended = c.suspended :=
  ⟨_, switchCtrl_eq K c p hp, rfl, rfl, rfl, rfl, rfl⟩

theorem fault_cycle_trace (K : Consts) (mj : MjLaw) (c : Controller) (env : CycleEnv)
    (p : xdPort) (hp : c.port_xd = some p) (hrob : c.Robotable = true)
    (hfail : env.fb.ok = false) :
    ∃ c', Controller.run K mj c env = some c' ∧
      c'.trace = c.trace ++
        ((if (c.commData.isCtrlActive && c.swOffCond K) then [Event.delay (2 * c.Ts), Event.stop]
          else []) ++
        [Event.timeoutNotice, Event.delay (2 * c.Ts), Event.stop, Event.suspendedNotice]) ∧
      c'.suspended = true := by
  obtain ⟨c1, hsw, -, htr, hR, hTs, -⟩ := switchCtrl_effect K c p hp
  refine ⟨_, run_of_switchCtrl K mj c c1 env hsw, ?_, ?_⟩
  · rw [afterSwitch_fail K mj env c1 (hR.trans hrob) hfail, suspend_eq]
    simp [Controller.acquire, getData_eq, hrob, htr, hR, hTs]
  · rw [afterSwitch_fail K mj env c1 (hR.trans hrob) hfail, suspend_eq]

/-- C5, as stated, fails: with a robot, a cycle that starts active on the target
and whose feedback fails issues two stop commands, one from the switch-off and
one from the suspension. -/
theorem fault_cycle_two_stops :
    cActiveLocked.Robotable = true ∧ envFail.fb.ok = false ∧ cActiveLocked.trace = [] ∧
    (Controller.run K0 mj0 cActiveLocked envFail).map (fun c => c.trace.count Event.stop)
      = some 2 := by
  with_unfolding_all decide

/-- C5, amended: with a robot, a cycle whose feedback acquisition fails issues
one stop command from the fault path, after one more from the switching block
when the cycle starts active with the motion-done condition (two stops then,
one otherwise); it issues no velocity command and ends suspended. -/
theorem run_fault_stops_and_suspends (K : Consts) (mj : MjLaw) (c : Controller) (env : CycleEnv)
    (p : xdPort) (hp : c.port_xd = some p) (hrob : c.Robotable = true)
    (hfail : env.fb.ok = false) :
    ∃ c' evs, Controller.run K mj c env = some c' ∧ c'.trace = c.trace ++ evs ∧
      evs.count Event.stop = (if (c.commData.isCtrlActive && c.swOffCond K) then 2 else 1) ∧
      (∀ w, Event.velocityMove w ∉ evs) ∧ c'.suspended = true := by
  obtain ⟨c', hrun, htr, hsus⟩ := fault_cycle_trace K mj c env p hp hrob hfail
  refine ⟨c', _, hrun, htr, ?_, ?_, hsus⟩
  · by_cases h : (c.commData.isCtrlActive && c.swOffCond K) = true
    · simp [h, List.count_cons]
    · simp [h, List.count_cons]
  · intro w
    by_cases h : (c.commData.isCtrlActive && c.swOffCond K) = true
    · simp [h]
    · simp [h]

/-- Instance of the amended C5 on the idle controller. -/
theorem run_fault_stops_and_suspends_witness :
    cIdle.port_xd = some p0 ∧ cIdle.Robotable = true ∧ envFail.fb.ok = false ∧
    ∃ c' evs, Controller.run K0 mj0 cIdle envFail = some c' ∧ c'.trace = cIdle.trace ++ evs ∧
      evs.count Event.stop = (if (cIdle.commData.isCtrlActive && cIdle.swOffCond K0) then 2 else 1) ∧
      (∀ w, Event.velocityMove w ∉ evs) ∧ c'.suspended = true :=
  ⟨rfl, rfl, rfl, run_fault_stops_and_suspends K0 mj0 cIdle envFail p0 rfl rfl rfl⟩

/-! ## Zero-error cycle: theorems -/

theorem normSq_vsub_self (a : Vec) : normSq (vsub a a) = 0 := by
  induction a with
  | nil => rfl
  | cons x xs ih =>
    simp only [normSq, vsub, List.zipWith_cons_cons, List.map_cons, List.sum_cons] at ih ⊢
    rw [ih]
    simp

theorem swOffCond_of_eq (K : Consts) (c : Controller) (hq : c.commData.qd = c.fbHead)
    (hthr : 0 < K.GAZECTRL_MOTIONDONE_QTHRES * K.CTRL_DEG2RAD) : c.swOffCond K = true := by
  simp only [Controller.swOffCond, normLt, hq, normSq_vsub_self]
  simp [hthr, mul_pos hthr hthr]

theorem set6_zero (v : Vec) (h : v.length = 6) :
    (((((v.set 0 0).set 3 0).set 1 0).set 4 0).set 2 0).set 5 0 = List.replicate 6 0 := by
  rcases v with _ | ⟨a, _ | ⟨b, _ | ⟨c, _ | ⟨d, _ | ⟨e, _ | ⟨f, _ | ⟨g, t⟩⟩⟩⟩⟩⟩⟩ <;>
    simp at h
  rfl

theorem zeroed_getD (a : Vec) (i : Nat) : (zeroed a).getD i 0 = 0 := by
  unfold zeroed
  by_cases h : i < a.length
  · simp [List.getD_eq_getElem?_getD, List.getElem?_replicate, h]
  · simp [List.getD_eq_getElem?_getD, List.getElem?_replicate, h]

theorem bangBangFrom_zero (m : ℚ) (qd fb : Vec) (k n : Nat) :
    Controller.bangBangFrom m qd fb k (List.replicate n 0) = List.replicate n 0 := by
  induction n generalizing k with
  | zero => rfl
  | succ n ih =>
    simp only [List.replicate_succ, Controller.bangBangFrom, ih]
    simp [Controller.bangBangAt]

theorem scal_zero (k : ℚ) (n : Nat) : scal k (List.replicate n 0) = List.replicate n 0 := by
  simp [scal]

/-- The velocity of an idle cycle before shaping is zero on a six-joint head. -/
theorem rawStep_idle_v (mj : MjLaw) (c : Controller) (hidle : c.commData.isCtrlActive = false)
    (hlen : c.v.length = 6) : (Controller.rawStep mj c).v = List.replicate 6 0 := by
  simp only [Controller.rawStep, Controller.joinVel, controlLaw_eq, Controller.splitJoints,
    hidle, Bool.false_eq_true, if_false, zeroed_getD]
  exact set6_zero c.v hlen

/-- The shaped velocity of an idle cycle is zero on a six-joint head. -/
theorem bangBang_idle_v (mj : MjLaw) (c : Controller) (hidle : c.commData.isCtrlActive = false)
    (hlen : c.v.length = 6) : (Controller.rawStep mj c).bangBang.v = List.replicate 6 0 := by
  rw [bangBang_eq]
  show (if (Controller.rawStep mj c).Robotable = true then _ else (Controller.rawStep mj c).v) = _
  rw [rawStep_idle_v mj c hidle hlen, bangBangFrom_zero]
  simp

theorem bangBang_frame (c : Controller) :
    c.bangBang.Robotable = c.Robotable ∧ c.bangBang.vdegOld = c.vdegOld ∧
    c.bangBang.trace = c.trace ∧ c.bangBang.printAccTime = c.printAccTime ∧
    c.bangBang.Ts = c.Ts ∧ c.bangBang.fp = c.fp := by
  rw [bangBang_eq]
  exact ⟨rfl, rfl, rfl, rfl, rfl, rfl⟩

/-- The events of the blocks of `run` after the bang-bang one. -/
theorem outputStep_trace (K : Consts) (env : CycleEnv) (c : Controller) :
    ∃ q, (Controller.outputStep K env c).trace = c.trace ++
      ((if c.sends K then [Event.velocityMove (scal K.CTRL_RAD2DEG c.v)] else []) ++
       ((if (1.0 : ℚ) ≤ c.printAccTime + c.Ts then [Event.iterInfo] else []) ++
        ((if env.xOutputCount > 0 then [Event.writeX c.fp] else []) ++
         (if env.qOutputCount > 0 then [Event.writeQ q] else [])))) := by
  refine ⟨Controller.jointsOut K (Controller.printIter (Controller.sendVel K c) 1.0), ?_⟩
  simp only [Controller.outputStep, Controller.updateJoints, Controller.updatePose,
    publish_eq, printIter_eq, sendVel_eq, List.append_assoc]

theorem quietEvents_output (b1 b2 b3 : Prop) [Decidable b1] [Decidable b2] [Decidable b3]
    (x q : Vec) :
    quietEvents ((if b1 then [Event.iterInfo] else []) ++
      ((if b2 then [Event.writeX x] else []) ++ (if b3 then [Event.writeQ q] else []))) := by
  intro e he
  simp only [List.mem_append] at he
  rcases he with h | h | h
  · split_ifs at h
    · left; simpa using h
    · simp at h
  · split_ifs at h
    · right; left; exact ⟨x, by simpa using h⟩
    · simp at h
  · split_ifs at h
    · right; right; exact ⟨q, by simpa using h⟩
    · simp at h

theorem quietEvents_no_move (evs : List Event) (h : quietEvents evs) (w : Vec) :
    Event.velocityMove w ∉ evs := by
  intro hw
  rcases h _ hw with h1 | ⟨x, h1⟩ | ⟨q, h1⟩ <;> simp at h1

/-- An idle control step on a six-joint head: zero velocity, and a
`velocityMove` of zeros exactly when there is a robot and the last command sent
was not zero. -/
theorem controlStep_idle (K : Consts) (mj : MjLaw) (env : CycleEnv) (c : Controller)
    (hidle : c.commData.isCtrlActive = false) (hlen : c.v.length = 6) :
    (Controller.controlStep K mj env c).v = List.replicate 6 0 ∧
    ∃ rest, quietEvents rest ∧ (Controller.controlStep K mj env c).trace = c.trace ++
      ((if (c.Robotable && !(decide (List.replicate 6 0 = c.vdegOld)))
          then [Event.velocityMove (List.replicate 6 0)] else []) ++ rest) := by
  have hv := bangBang_idle_v mj c hidle hlen
  refine ⟨?_, ?_⟩
  · unfold Controller.controlStep
    rw [outputStep_v, hv]
  · obtain ⟨q, hq⟩ := outputStep_trace K env (Controller.rawStep mj c).bangBang
    obtain ⟨bR, bO, bT, -, -, -⟩ := bangBang_frame (Controller.rawStep mj c)
    obtain ⟨rR, -, -, -, rO, rT⟩ := rawStep_frame mj c
    refine ⟨(if (1.0 : ℚ) ≤ (Controller.rawStep mj c).bangBang.printAccTime
          + (Controller.rawStep mj c).bangBang.Ts then [Event.iterInfo] else []) ++
        ((if env.xOutputCount > 0 then [Event.writeX (Controller.rawStep mj c).bangBang.fp]
          else []) ++ (if env.qOutputCount > 0 then [Event.writeQ q] else [])),
      quietEvents_output _ _ _ _ _, ?_⟩
    unfold Controller.controlStep
    rw [hq]
    simp only [Controller.sends, hv, scal_zero, bR, bO, bT, rR, rO, rT]

/-- The `velocityMove` events of an idle cycle. -/
theorem idle_moves (R : Bool) (old : Vec) (pre rest : List Event)
    (hpre : ∀ w, Event.velocityMove w ∉ pre) (hrest : quietEvents rest) :
    ((∃ w, Event.velocityMove w ∈ pre ++
        ((if (R && !(decide (List.replicate 6 0 = old)))
          then [Event.velocityMove (List.replicate 6 0)] else []) ++ rest)) ↔
      (R = true ∧ old ≠ List.replicate 6 0)) ∧
    (∀ w, Event.velocityMove w ∈ pre ++
        ((if (R && !(decide (List.replicate 6 0 = old)))
          then [Event.velocityMove (List.replicate 6 0)] else []) ++ rest) →
      w = List.replicate 6 0) := by
  have hr := quietEvents_no_move rest hrest
  by_cases hc : (R && !(decide (List.replicate 6 0 = old))) = true
  · have hc2 : R = true ∧ old ≠ List.replicate 6 0 := by
      simp at hc
      exact ⟨hc.1, fun h => hc.2 h.symm⟩
    simp only [hc, if_true]
    refine ⟨⟨fun _ => hc2, fun _ => ⟨List.replicate 6 0, by simp⟩⟩, ?_⟩
    intro w hw
    simp only [List.mem_append, List.mem_singleton] at hw
    rcases hw with h | h | h
    · exact absurd h (hpre w)
    · simpa using h
    · exact absurd h (hr w)
  · have hc2 : ¬ (R = true ∧ old ≠ List.replicate 6 0) := by
      rintro ⟨h1, h2⟩
      apply hc
      simp [h1]
      exact fun h => h2 h.symm
    simp only [hc]
    refine ⟨⟨?_, fun h => absurd h hc2⟩, ?_⟩
    · rintro ⟨w, hw⟩
      simp only [List.mem_append] at hw
      rcases hw with h | h | h
      · exact absurd h (hpre w)
      · simp at h
      · exact absurd h (hr w)
    · intro w hw
      simp only [List.mem_append] at hw
      rcases hw with h | h | h
      · exact absurd h (hpre w)
      · simp at h
      · exact absurd h (hr w)

/-- C6, as stated, fails: with a robot whose last command was not zero, the
cycle in which the desired joints equal the feedback sends a `velocityMove`
(of zeros). -/
theorem zero_error_cycle_sends_move :
    cMoving.commData.qd = cMoving.fbHead ∧ env0.fb.ok = true ∧ cMoving.trace = [] ∧
    (Controller.run K0 mj0 cMoving env0).map (fun c => (c.v, c.trace))
      = some ([0, 0, 0, 0, 0, 0],
          [Event.delay (1 / 25), Event.stop, Event.velocityMove [0, 0, 0, 0, 0, 0]]) := by
  with_unfolding_all decide

/-- C6, amended: when the desired joints equal the head feedback exactly (the
motion-done threshold being positive, the head having six joints), a fault-free
cycle leaves a velocity vector of zeros; it sends a `velocityMove` exactly when
there is a robot and the command sent before, `vdegOld`, is not zero, and that
command is zero. -/
theorem run_zero_error (K : Consts) (mj : MjLaw) (c : Controller) (env : CycleEnv)
    (p : xdPort) (hp : c.port_xd = some p) (hq : c.commData.qd = c.fbHead)
    (hthr : 0 < K.GAZECTRL_MOTIONDONE_QTHRES * K.CTRL_DEG2RAD)
    (hfb : c.Robotable = true → env.fb.ok = true) (hlen : c.v.length = 6) :
    ∃ c' evs, Controller.run K mj c env = some c' ∧ c'.v = List.replicate 6 0 ∧
      c'.trace = c.trace ++ evs ∧
      ((∃ w, Event.velocityMove w ∈ evs) ↔
        (c.Robotable = true ∧ c.vdegOld ≠ List.replicate 6 0)) ∧
      (∀ w, Event.velocityMove w ∈ evs → w = List.replicate 6 0) := by
  have hdone := swOffCond_of_eq K c hq hthr
  obtain ⟨c1, hsw, hact, htr, hR, -, -⟩ := switchCtrl_effect K c p hp
  obtain ⟨-, -, -, hv, hO, -⟩ := switchCtrl_frame K c c1 p hp hsw
  have hidle : c1.commData.isCtrlActive = false := by
    rw [hact]; simp [hdone]
  have hpre : ∀ w, Event.velocityMove w ∉
      (if (c.commData.isCtrlActive && c.swOffCond K && c.Robotable) = true
        then [Event.delay (2 * c.Ts), Event.stop] else []) := by
    intro w hw
    split_ifs at hw <;> simp at hw
  have key : ∃ rest, quietEvents rest ∧ (Controller.afterSwitch K mj env c1).v = List.replicate 6 0 ∧
      (Controller.afterSwitch K mj env c1).trace = c1.trace ++
        ((if (c.Robotable && !(decide (List.replicate 6 0 = c.vdegOld)))
          then [Event.velocityMove (List.replicate 6 0)] else []) ++ rest) := by
    by_cases hrob : c1.Robotable = true
    · rw [afterSwitch_ok K mj env c1 hrob (hfb (hR ▸ hrob))]
      obtain ⟨h1, rest, hqu, h2⟩ := controlStep_idle K mj env
        (Controller.acquire env c1.getData).resetInt hidle (hv ▸ hlen)
      have e1 : (Controller.acquire env c1.getData).resetInt.Robotable = c.Robotable := hR
      have e2 : (Controller.acquire env c1.getData).resetInt.vdegOld = c.vdegOld := hO
      have e3 : (Controller.acquire env c1.getData).resetInt.trace = c1.trace := rfl
      rw [e1, e2, e3] at h2
      exact ⟨rest, hqu, h1, h2⟩
    · have hrob2 : c1.Robotable = false := by simpa using hrob
      rw [afterSwitch_sim K mj env c1 hrob2]
      obtain ⟨h1, rest, hqu, h2⟩ := controlStep_idle K mj env c1.getData hidle (hv ▸ hlen)
      have e1 : c1.getData.Robotable = c.Robotable := hR
      have e2 : c1.getData.vdegOld = c.vdegOld := hO
      have e3 : c1.getData.trace = c1.trace := rfl
      rw [e1, e2, e3] at h2
      exact ⟨rest, hqu, h1, h2⟩
  obtain ⟨rest, hqu, kv, ktr⟩ := key
  obtain ⟨m1, m2⟩ := idle_moves c.Robotable c.vdegOld _ rest hpre hqu
  refine ⟨_, _, run_of_switchCtrl K mj c c1 env hsw, kv, ?_, m1, m2⟩
  rw [ktr, htr, List.append_assoc]

/-- Instance of the amended C6 on the idle controller at rest. -/
theorem run_zero_error_witness :
    cIdle.port_xd = some p0 ∧ cIdle.commData.qd = cIdle.fbHead ∧
    0 < K0.GAZECTRL_MOTIONDONE_QTHRES * K0.CTRL_DEG2RAD ∧
    (cIdle.Robotable = true → env0.fb.ok = true) ∧ cIdle.v.length = 6 ∧
    ∃ c' evs, Controller.run K0 mj0 cIdle env0 = some c' ∧ c'.v = List.replicate 6 0 ∧
      c'.trace = cIdle.trace ++ evs ∧
      ((∃ w, Event.velocityMove w ∈ evs) ↔
        (cIdle.Robotable = true ∧ cIdle.vdegOld ≠ List.replicate 6 0)) ∧
      (∀ w, Event.velocityMove w ∈ evs → w = List.replicate 6 0) :=
  ⟨rfl, rfl, by with_unfolding_all decide, fun _ => rfl, rfl,
    run_zero_error K0 mj0 cIdle env0 p0 rfl rfl (by with_unfolding_all decide) (fun _ => rfl) rfl⟩

/-! ## Pose query: theorems -/

/-- C11: `getPose` succeeds exactly on the selectors `left`, `right` and
`head`: it then returns true with the end-effector pose of the left eye, right
eye or neck chain; on any other selector it returns false and leaves `x` as it
was. -/
theorem getPose_selector (EndEffPose : List Joint → Vec) (c : Controller) (s : String)
    (x : Vec) :
    ((c.getPose EndEffPose s x).1 = true ↔ (s = "left" ∨ s = "right" ∨ s = "head")) ∧
    c.getPose EndEffPose "left" x = (true, EndEffPose c.chainEyeL) ∧
    c.getPose EndEffPose "right" x = (true, EndEffPose c.chainEyeR) ∧
    c.getPose EndEffPose "head" x = (true, EndEffPose c.chainNeck) ∧
    ((c.getPose EndEffPose s x).1 = false ↔ c.getPose EndEffPose s x = (false, x)) := by
  refine ⟨?_, ?_, ?_, ?_, ?_⟩
  · unfold Controller.getPose
    by_cases h1 : s = "left"
    · simp [h1]
    · by_cases h2 : s = "right"
      · simp [h2]
      · by_cases h3 : s = "head"
        · simp [h3]
        · simp [h1, h2, h3]
  · simp [Controller.getPose]
  · simp [Controller.getPose]
  · simp [Controller.getPose]
  · unfold Controller.getPose
    split_ifs <;> simp

/-! ## Fault-free cycles: the state at the entry and at the exit -/

theorem afterSwitch_faultfree (K : Consts) (mj : MjLaw) (env : CycleEnv) (c1 : Controller)
    (hfb : c1.Robotable = true → env.fb.ok = true) :
    Controller.afterSwitch K mj env c1 = Controller.controlStep K mj env (cycleEntry env c1) := by
  unfold cycleEntry
  by_cases hrob : c1.Robotable = true
  · rw [afterSwitch_ok K mj env c1 hrob (hfb hrob), if_pos hrob]
  · have h2 : c1.Robotable = false := by simpa using hrob
    rw [afterSwitch_sim K mj env c1 h2, if_neg hrob]

/-- What the entry of a fault-free cycle keeps of the state left by the
switching block. -/
theorem cycleEntry_frame (env : CycleEnv) (c1 : Controller) :
    (cycleEntry env c1).Robotable = c1.Robotable ∧
    (cycleEntry env c1).minAbsVel = c1.minAbsVel ∧
    (cycleEntry env c1).qd = c1.commData.qd ∧
    (cycleEntry env c1).fbHead = cycleHead env c1 ∧
    (cycleEntry env c1).fbTorso = cycleTorso env c1 ∧
    (cycleEntry env c1).v = c1.v ∧
    (cycleEntry env c1).vdegOld = c1.vdegOld ∧
    (cycleEntry env c1).trace = c1.trace ∧
    (cycleEntry env c1).commData = c1.commData ∧
    (cycleEntry env c1).port_xd = c1.port_xd ∧
    (cycleEntry env c1).nJointsTorso = c1.nJointsTorso ∧
    (cycleEntry env c1).nJointsHead = c1.nJointsHead ∧
    (cycleEntry env c1).chainEyeL = c1.chainEyeL ∧
    (cycleEntry env c1).chainEyeR = c1.chainEyeR ∧
    (cycleEntry env c1).Ts = c1.Ts := by
  unfold cycleEntry cycleHead cycleTorso
  by_cases hrob : c1.Robotable = true
  · simp only [if_pos hrob]
    exact ⟨rfl, rfl, rfl, rfl, rfl, rfl, rfl, rfl, rfl, rfl, rfl, rfl, rfl, rfl, rfl⟩
  · simp only [if_neg hrob]
    exact ⟨rfl, rfl, rfl, rfl, rfl, rfl, rfl, rfl, rfl, rfl, rfl, rfl, rfl, rfl, rfl⟩

/-- What the blocks before the bang-bang one keep. -/
theorem rawStep_frame2 (mj : MjLaw) (c : Controller) :
    (Controller.rawStep mj c).fbTorso = c.fbTorso ∧
    (Controller.rawStep mj c).port_xd = c.port_xd ∧
    (Controller.rawStep mj c).nJointsTorso = c.nJointsTorso ∧
    (Controller.rawStep mj c).nJointsHead = c.nJointsHead ∧
    (Controller.rawStep mj c).chainEyeL = c.chainEyeL ∧
    (Controller.rawStep mj c).chainEyeR = c.chainEyeR ∧
    (Controller.rawStep mj c).Ts = c.Ts ∧
    (Controller.rawStep mj c).Int = c.Int ∧
    (Controller.rawStep mj c).commData.isCtrlActive = c.commData.isCtrlActive := by
  simp only [Controller.rawStep, Controller.joinVel, controlLaw_eq, Controller.splitJoints,
    and_self]

/-- What the bang-bang block keeps. -/
theorem bangBang_frame2 (c : Controller) :
    c.bangBang.fbTorso = c.fbTorso ∧ c.bangBang.fbHead = c.fbHead ∧
    c.bangBang.port_xd = c.port_xd ∧
    c.bangBang.nJointsTorso = c.nJointsTorso ∧ c.bangBang.nJointsHead = c.nJointsHead ∧
    c.bangBang.chainEyeL = c.chainEyeL ∧ c.bangBang.chainEyeR = c.chainEyeR ∧
    c.bangBang.Int = c.Int ∧ c.bangBang.qd = c.qd ∧
    c.bangBang.commData.isCtrlActive = c.commData.isCtrlActive := by
  rw [bangBang_eq]
  exact ⟨rfl, rfl, rfl, rfl, rfl, rfl, rfl, rfl, rfl, rfl⟩

/-- The state after the blocks that follow the bang-bang one. -/
theorem outputStep_facts (K : Consts) (env : CycleEnv) (c : Controller) :
    (Controller.outputStep K env c).vdeg = scal K.CTRL_RAD2DEG c.v ∧
    (Controller.outputStep K env c).vdegOld
      = (if c.sends K then scal K.CTRL_RAD2DEG c.v else c.vdegOld) ∧
    (Controller.outputStep K env c).commData.v = c.v ∧
    (Controller.outputStep K env c).Int = c.Int.integrate c.v ∧
    (Controller.outputStep K env c).port_xd = c.port_xd ∧
    (Controller.outputStep K env c).Ts = c.Ts ∧
    (Controller.outputStep K env c).qddeg = scal K.CTRL_RAD2DEG c.qd ∧
    (Controller.outputStep K env c).commData.isCtrlActive = c.commData.isCtrlActive := by
  simp only [Controller.outputStep, Controller.updateJoints, Controller.updatePose,
    publish_eq, printIter_eq, sendVel_eq, and_self]

/-- The eye chains after the blocks that follow the bang-bang one. -/
theorem outputStep_chains (K : Consts) (env : CycleEnv) (c : Controller) :
    (Controller.outputStep K env c).chainEyeL
      = setAng (setAng
          (Controller.setAngs (Controller.setAngs c.chainEyeL 0 c.nJointsTorso c.fbTorso)
            c.nJointsTorso 3 c.fbHead)
          (c.nJointsTorso + 3) (c.fbHead.getD 3 0))
          (c.nJointsTorso + 4) (c.fbHead.getD 4 0 + c.fbHead.getD 5 0 / 2.0) ∧
    (Controller.outputStep K env c).chainEyeR
      = setAng (setAng
          (Controller.setAngs (Controller.setAngs c.chainEyeR 0 c.nJointsTorso c.fbTorso)
            c.nJointsTorso 3 c.fbHead)
          (c.nJointsTorso + 3) (c.fbHead.getD 3 0))
          (c.nJointsTorso + 4) (c.fbHead.getD 4 0 - c.fbHead.getD 5 0 / 2.0) := by
  simp only [Controller.outputStep, Controller.updateJoints, Controller.updatePose,
    publish_eq, printIter_eq, sendVel_eq, and_self]

/-- The events of the blocks that follow the bang-bang one, with the vector
written on the joints port. -/
theorem outputStep_events (K : Consts) (env : CycleEnv) (c : Controller) :
    (Controller.outputStep K env c).trace = c.trace ++
      ((if c.sends K then [Event.velocityMove (scal K.CTRL_RAD2DEG c.v)] else []) ++
       ((if (1.0 : ℚ) ≤ c.printAccTime + c.Ts then [Event.iterInfo] else []) ++
        ((if env.xOutputCount > 0 then [Event.writeX c.fp] else []) ++
         (if env.qOutputCount > 0 then
            [Event.writeQ ((List.range (c.nJointsTorso + c.nJointsHead)).map (fun j =>
              if j < c.nJointsTorso then K.CTRL_RAD2DEG * c.fbTorso.getD j 0
              else (scal K.CTRL_RAD2DEG c.fbHead).getD (j - c.nJointsTorso) 0))]
          else [])))) := by
  simp only [Controller.outputStep, Controller.updateJoints, Controller.updatePose,
    publish_eq, printIter_eq, sendVel_eq, List.append_assoc, Controller.jointsOut]

/-- The switching block with the target port attached: the state it leaves. -/
theorem switchCtrl_full (K : Consts) (c : Controller) (p : xdPort) (hp : c.port_xd = some p) :
    ∃ c1, c.switchCtrl K = some c1 ∧
      c1.commData.isCtrlActive = (if c.commData.isCtrlActive then !(c.swOffCond K)
          else (!(c.swOffCond K) && c.swOnCond K p)) ∧
      c1.trace = c.trace ++ (if (c.commData.isCtrlActive && c.swOffCond K && c.Robotable)
        then [Event.delay (2 * c.Ts), Event.stop] else []) ∧
      c1.port_xd = some { p with
        isNew := if (c.commData.isCtrlActive && c.swOffCond K) then false else p.isNew } ∧
      c1.Robotable = c.Robotable ∧ c1.Ts = c.Ts ∧ c1.minAbsVel = c.minAbsVel ∧
      c1.commData.qd = c.commData.qd ∧ c1.v = c.v ∧ c1.vdegOld = c.vdegOld ∧
      c1.fbHead = c.fbHead ∧ c1.fbTorso = c.fbTorso ∧
      c1.nJointsTorso = c.nJointsTorso ∧ c1.nJointsHead = c.nJointsHead ∧
      c1.chainEyeL = c.chainEyeL ∧ c1.chainEyeR = c.chainEyeR ∧ c1.Int = c.Int :=
  ⟨_, switchCtrl_eq K c p hp, rfl, rfl, rfl, rfl, rfl, rfl, rfl, rfl, rfl, rfl, rfl, rfl, rfl,
    rfl, rfl, rfl⟩

/-- The events of the switching block contain no `velocityMove`. -/
theorem switch_events_no_move (b : Bool) (d : ℚ) (w : Vec) :
    Event.velocityMove w ∉ (if b then [Event.delay d, Event.stop] else []) := by
  intro hw
  split_ifs at hw <;> simp at hw

/-- The `velocityMove` events of a cycle: one, of `w0`, exactly when `b` holds. -/
theorem cycle_moves (b : Bool) (w0 : Vec) (pre rest : List Event)
    (hpre : ∀ w, Event.velocityMove w ∉ pre) (hrest : quietEvents rest) :
    ((∃ w, Event.velocityMove w ∈ pre ++ ((if b then [Event.velocityMove w0] else []) ++ rest))
      ↔ b = true) ∧
    (∀ w, Event.velocityMove w ∈ pre ++ ((if b then [Event.velocityMove w0] else []) ++ rest) →
      w = w0) ∧
    (pre ++ ((if b then [Event.velocityMove w0] else []) ++ rest)).count (Event.velocityMove w0)
      = (if b then 1 else 0) := by
  have hr := quietEvents_no_move rest hrest
  have hc1 : pre.count (Event.velocityMove w0) = 0 := List.count_eq_zero.mpr (hpre w0)
  have hc2 : rest.count (Event.velocityMove w0) = 0 := List.count_eq_zero.mpr (hr w0)
  cases b with
  | true =>
    refine ⟨⟨fun _ => rfl, fun _ => ⟨w0, by simp⟩⟩, ?_, ?_⟩
    · intro w hw
      simp only [if_true, List.mem_append, List.mem_singleton] at hw
      rcases hw with h | h | h
      · exact absurd h (hpre w)
      · simpa using h
      · exact absurd h (hr w)
    · simp [List.count_append, hc1, hc2]
  | false =>
    refine ⟨⟨?_, fun h => absurd h (by simp)⟩, ?_, ?_⟩
    · rintro ⟨w, hw⟩
      simp only [List.mem_append] at hw
      rcases hw with h | h | h
      · exact absurd h (hpre w)
      · simp at h
      · exact absurd h (hr w)
    · intro w hw
      simp only [List.mem_append] at hw
      rcases hw with h | h | h
      · exact absurd h (hpre w)
      · simp at h
      · exact absurd h (hr w)
    · simp [List.count_append, hc1, hc2]

/-- The part of the trace of `outputStep` after the `velocityMove` is quiet. -/
theorem outputStep_trace_quiet (K : Consts) (env : CycleEnv) (c : Controller) :
    ∃ rest, quietEvents rest ∧ (Controller.outputStep K env c).trace = c.trace ++
      ((if c.sends K then [Event.velocityMove (scal K.CTRL_RAD2DEG c.v)] else []) ++ rest) := by
  obtain ⟨q, hq⟩ := outputStep_trace K env c
  exact ⟨_, quietEvents_output _ _ _ _ q, hq⟩

/-! ## Send only if changed: theorems -/

/-- C12: in a cycle whose feedback did not fail, `run` sends a velocity command
exactly when there is a robot and the command of the cycle in degrees, `vdeg`,
differs from the command sent before, `vdegOld`; the command sent is `vdeg`,
once; `vdegOld` becomes `vdeg` when the cycle sends and is unchanged when it
does not. -/
theorem run_sends_iff_changed (K : Consts) (mj : MjLaw) (c : Controller) (env : CycleEnv)
    (p : xdPort) (hp : c.port_xd = some p) (hfb : c.Robotable = true → env.fb.ok = true) :
    ∃ c' evs, Controller.run K mj c env = some c' ∧ c'.trace = c.trace ++ evs ∧
      ((∃ w, Event.velocityMove w ∈ evs) ↔ (c.Robotable = true ∧ c'.vdeg ≠ c.vdegOld)) ∧
      (∀ w, Event.velocityMove w ∈ evs → w = c'.vdeg) ∧
      evs.count (Event.velocityMove c'.vdeg)
        = (if (c.Robotable = true ∧ c'.vdeg ≠ c.vdegOld) then 1 else 0) ∧
      c'.vdegOld = (if (c.Robotable = true ∧ c'.vdeg ≠ c.vdegOld) then c'.vdeg else c.vdegOld) := by
  obtain ⟨c1, hsw, -, htr, -, hR, -, -, -, -, hO, -⟩ := switchCtrl_full K c p hp
  obtain ⟨eR, -, -, -, -, -, eO, eT, -⟩ := cycleEntry_frame env c1
  obtain ⟨rR, -, -, -, rO, rT⟩ := rawStep_frame mj (cycleEntry env c1)
  obtain ⟨bR, bO, bT, -⟩ := bangBang_frame (Controller.rawStep mj (cycleEntry env c1))
  obtain ⟨rest, hqu, hev⟩ := outputStep_trace_quiet K env
    (Controller.rawStep mj (cycleEntry env c1)).bangBang
  obtain ⟨fdeg, fold, -⟩ := outputStep_facts K env
    (Controller.rawStep mj (cycleEntry env c1)).bangBang
  have hR2 : (Controller.rawStep mj (cycleEntry env c1)).bangBang.Robotable = c.Robotable := by
    rw [bR, rR, eR, hR]
  have hO2 : (Controller.rawStep mj (cycleEntry env c1)).bangBang.vdegOld = c.vdegOld := by
    rw [bO, rO, eO, hO]
  have hT2 : (Controller.rawStep mj (cycleEntry env c1)).bangBang.trace = c.trace ++
      (if (c.commData.isCtrlActive && c.swOffCond K && c.Robotable)
        then [Event.delay (2 * c.Ts), Event.stop] else []) := by
    rw [bT, rT, eT, htr]
  have hsend : (Controller.rawStep mj (cycleEntry env c1)).bangBang.sends K = true ↔
      (c.Robotable = true ∧
        scal K.CTRL_RAD2DEG (Controller.rawStep mj (cycleEntry env c1)).bangBang.v ≠ c.vdegOld) := by
    simp [Controller.sends, hR2, hO2]
  have hrun : Controller.run K mj c env = some (Controller.outputStep K env
      (Controller.rawStep mj (cycleEntry env c1)).bangBang) := by
    rw [run_of_switchCtrl K mj c c1 env hsw, afterSwitch_faultfree K mj env c1 (fun h => hfb (hR ▸ h))]
    rfl
  obtain ⟨m1, m2, m3⟩ := cycle_moves ((Controller.rawStep mj (cycleEntry env c1)).bangBang.sends K)
    (scal K.CTRL_RAD2DEG (Controller.rawStep mj (cycleEntry env c1)).bangBang.v) _ rest
    (switch_events_no_move (c.commData.isCtrlActive && c.swOffCond K && c.Robotable) (2 * c.Ts)) hqu
  refine ⟨_, (if (c.commData.isCtrlActive && c.swOffCond K && c.Robotable)
      then [Event.delay (2 * c.Ts), Event.stop] else []) ++
    ((if (Controller.rawStep mj (cycleEntry env c1)).bangBang.sends K
      then [Event.velocityMove
        (scal K.CTRL_RAD2DEG (Controller.rawStep mj (cycleEntry env c1)).bangBang.v)]
      else []) ++ rest), hrun, ?_, ?_, ?_, ?_, ?_⟩
  · rw [hev, hT2, List.append_assoc]
  · rw [fdeg, ← hsend]
    exact m1
  · rw [fdeg]
    exact m2
  · rw [fdeg, m3]
    by_cases hs : (Controller.rawStep mj (cycleEntry env c1)).bangBang.sends K = true
    · rw [if_pos hs, if_pos (hsend.mp hs)]
    · rw [if_neg hs, if_neg (fun h => hs (hsend.mpr h))]
  · rw [fdeg, fold, hO2]
    by_cases hs : (Controller.rawStep mj (cycleEntry env c1)).bangBang.sends K = true
    · rw [if_pos hs, if_pos (hsend.mp hs)]
    · rw [if_neg hs, if_neg (fun h => hs (hsend.mpr h))]

/-- Instance of C12 on the controller whose last command was not zero. -/
theorem run_sends_iff_changed_witness :
    cMoving.port_xd = some p0 ∧ (cMoving.Robotable = true → env0.fb.ok = true) ∧
    ∃ c' evs, Controller.run K0 mj0 cMoving env0 = some c' ∧ c'.trace = cMoving.trace ++ evs ∧
      ((∃ w, Event.velocityMove w ∈ evs) ↔ (cMoving.Robotable = true ∧ c'.vdeg ≠ cMoving.vdegOld)) ∧
      (∀ w, Event.velocityMove w ∈ evs → w = c'.vdeg) ∧
      evs.count (Event.velocityMove c'.vdeg)
        = (if (cMoving.Robotable = true ∧ c'.vdeg ≠ cMoving.vdegOld) then 1 else 0) ∧
      c'.vdegOld = (if (cMoving.Robotable = true ∧ c'.vdeg ≠ cMoving.vdegOld) then c'.vdeg
        else cMoving.vdegOld) :=
  ⟨rfl, fun _ => rfl, run_sends_iff_changed K0 mj0 cMoving env0 p0 rfl (fun _ => rfl)⟩

/-! ## Deadband shaper, outside the band: theorems -/

theorem bangBangAt_outside (m u e : ℚ) (h : u = 0 ∨ m ≤ |u|) :
    Controller.bangBangAt m u e = u := by
  unfold Controller.bangBangAt
  rcases h with h | h
  · simp [h]
  · have hn : ¬ (-m < u ∧ u < m) := fun hlt => absurd (abs_lt.mpr hlt) (not_lt.mpr h)
    by_cases h1 : -m < u
    · have h2 : ¬ u < m := fun h2 => hn ⟨h1, h2⟩
      simp [h1, h2]
    · simp [h1]

/-- The shaped value is zero or at least the minimum in magnitude. -/
theorem bangBangAt_floor (m u e : ℚ) :
    Controller.bangBangAt m u e = 0 ∨ m ≤ |Controller.bangBangAt m u e| := by
  by_cases hin : 0 < |u| ∧ |u| < m
  · have hm : 0 ≤ m := le_of_lt (lt_trans hin.1 hin.2)
    rw [bangBangAt_inside m u e hin.1 hin.2]
    split_ifs
    · right; rw [abs_of_nonneg hm]
    · right; rw [abs_neg, abs_of_nonneg hm]
    · left; rfl
  · have hout : u = 0 ∨ m ≤ |u| := by
      by_cases h0 : u = 0
      · exact Or.inl h0
      · right
        by_contra hlt
        exact hin ⟨abs_pos.mpr h0, not_le.mp hlt⟩
    rw [bangBangAt_outside m u e hout]
    exact hout

/-- The velocity that a fault-free cycle leaves in `v`. -/
theorem run_faultfree_v (K : Consts) (mj : MjLaw) (c c1 : Controller) (env : CycleEnv)
    (p : xdPort) (hp : c.port_xd = some p) (hsw : c.switchCtrl K = some c1)
    (hfb : c.Robotable = true → env.fb.ok = true) :
    ∃ c', Controller.run K mj c env = some c' ∧
      c'.v = (if c.Robotable then
          Controller.bangBangFrom c.minAbsVel c.commData.qd (cycleHead env c) 0 (rawVel mj env c1)
        else rawVel mj env c1) ∧
      c'.commData.v = c'.v ∧ c'.vdeg = scal K.CTRL_RAD2DEG c'.v := by
  obtain ⟨hR, hm, hq, -, -, hf⟩ := switchCtrl_frame K c c1 p hp hsw
  obtain ⟨eR, em, eq, ef, -⟩ := cycleEntry_frame env c1
  obtain ⟨rR, rm, rq, rf, -, -⟩ := rawStep_frame mj (cycleEntry env c1)
  obtain ⟨fdeg, -, fcv, -⟩ := outputStep_facts K env
    (Controller.rawStep mj (cycleEntry env c1)).bangBang
  have hrun : Controller.run K mj c env = some (Controller.outputStep K env
      (Controller.rawStep mj (cycleEntry env c1)).bangBang) := by
    rw [run_of_switchCtrl K mj c c1 env hsw, afterSwitch_faultfree K mj env c1 (fun h => hfb (hR ▸ h))]
    rfl
  have hhead : cycleHead env c1 = cycleHead env c := by
    unfold cycleHead
    rw [hR, hf]
  refine ⟨_, hrun, ?_, ?_, ?_⟩
  · rw [outputStep_v, bangBang_eq]
    show (if (Controller.rawStep mj (cycleEntry env c1)).Robotable = true then
        Controller.bangBangFrom (Controller.rawStep mj (cycleEntry env c1)).minAbsVel
          (Controller.rawStep mj (cycleEntry env c1)).qd
          (Controller.rawStep mj (cycleEntry env c1)).fbHead 0
          (Controller.rawStep mj (cycleEntry env c1)).v
      else (Controller.rawStep mj (cycleEntry env c1)).v) = _
    rw [rR, rm, rq, rf, eR, em, eq, ef, hR, hm, hq, hhead]
    rfl
  · rw [fcv, outputStep_v]
  · rw [fdeg, outputStep_v]

/-- C13: the deadband shaper is the identity outside its band and without
robot.  In a cycle whose feedback did not fail, every joint whose unshaped
velocity `u` is `0` or has `|u| >= minAbsVel` keeps `u`, and without robot the
whole velocity vector is the unshaped one. -/
theorem deadband_identity_outside_band (K : Consts) (mj : MjLaw) (c c1 : Controller) (env : CycleEnv)
    (p : xdPort) (hp : c.port_xd = some p) (hsw : c.switchCtrl K = some c1)
    (hfb : c.Robotable = true → env.fb.ok = true) :
    ∃ c', Controller.run K mj c env = some c' ∧
      (∀ i u, (rawVel mj env c1).get? i = some u → (u = 0 ∨ c.minAbsVel ≤ |u|) →
        c'.v.get? i = some u) ∧
      (c.Robotable = false → c'.v = rawVel mj env c1) := by
  obtain ⟨c', hrun, hv, -, -⟩ := run_faultfree_v K mj c c1 env p hp hsw hfb
  refine ⟨c', hrun, ?_, ?_⟩
  · intro i u hu hout
    rw [hv]
    by_cases hrob : c.Robotable = true
    · rw [if_pos hrob, bangBangFrom_get?, hu]
      simp only [Option.map_some', bangBangAt_outside _ _ _ hout]
    · rw [if_neg hrob]
      exact hu
  · intro hrob
    rw [hv, hrob]
    rfl

/-- Instance of C13 without robot: the velocity `1/100`, inside the band, is
left as it is; the second joint has velocity zero. -/
theorem deadband_identity_outside_band_witness :
    cSimNear.port_xd = some p0 ∧ cSimNear.switchCtrl K0 = some cSimNear ∧
    (cSimNear.Robotable = true → env0.fb.ok = true) ∧
    (rawVel mj0 env0 cSimNear).get? 0 = some (1 / 100) ∧
    (rawVel mj0 env0 cSimNear).get? 1 = some 0 ∧ cSimNear.Robotable = false ∧
    ∃ c', Controller.run K0 mj0 cSimNear env0 = some c' ∧
      (∀ i u, (rawVel mj0 env0 cSimNear).get? i = some u → (u = 0 ∨ cSimNear.minAbsVel ≤ |u|) →
        c'.v.get? i = some u) ∧
      (cSimNear.Robotable = false → c'.v = rawVel mj0 env0 cSimNear) :=
  ⟨rfl, by with_unfolding_all decide, fun _ => rfl, by with_unfolding_all decide,
    by with_unfolding_all decide, rfl,
    deadband_identity_outside_band K0 mj0 cSimNear cSimNear env0 p0 rfl (by with_unfolding_all decide)
      (fun _ => rfl)⟩

/-- C20, as stated, fails: with a robot and a minimum velocity of `1/10`, a joint
whose unshaped velocity is `+1/100` and whose error is negative gets `-1/10`:
the sign of the input is not kept. -/
theorem deadband_flips_sign :
    cCounter.Robotable = true ∧ env0.fb.ok = true ∧ 0 ≤ cCounter.minAbsVel ∧
    cCounter.switchCtrl K0 = some cCounter ∧
    (rawVel mj0 env0 cCounter).get? 3 = some (1 / 100) ∧
    (Controller.run K0 mj0 cCounter env0).map (fun c => c.v.get? 3) = some (some (-1 / 10)) := by
  with_unfolding_all decide

/-- C20, amended: with a robot, after the deadband shaper every component of
the velocity is `0` or at least `minAbsVel` in magnitude; a component whose
input is at least `minAbsVel` in magnitude is unchanged, and with it its sign;
a non-zero input inside the band takes the sign of the positional error
`qd[i] - fbHead[i]`, and is zero when that error is zero. -/
theorem deadband_floor_and_sign (K : Consts) (mj : MjLaw) (c c1 : Controller) (env : CycleEnv)
    (p : xdPort) (hp : c.port_xd = some p) (hsw : c.switchCtrl K = some c1)
    (hrob : c.Robotable = true) (hok : env.fb.ok = true) :
    ∃ c', Controller.run K mj c env = some c' ∧
      (∀ i w, c'.v.get? i = some w → (w = 0 ∨ c.minAbsVel ≤ |w|)) ∧
      (∀ i u, (rawVel mj env c1).get? i = some u → c.minAbsVel ≤ |u| → c'.v.get? i = some u) ∧
      (∀ i u, (rawVel mj env c1).get? i = some u → 0 < |u| → |u| < c.minAbsVel →
        c'.v.get? i = some
          (if 0 < c.commData.qd.getD i 0 - env.fb.head.getD i 0 then c.minAbsVel
           else if c.commData.qd.getD i 0 - env.fb.head.getD i 0 < 0 then -c.minAbsVel
           else 0)) := by
  obtain ⟨c', hrun, hv, -, -⟩ := run_faultfree_v K mj c c1 env p hp hsw (fun _ => hok)
  rw [if_pos hrob] at hv
  have hhead : cycleHead env c = env.fb.head := by
    unfold cycleHead
    rw [if_pos hrob]
  refine ⟨c', hrun, ?_, ?_, ?_⟩
  · intro i w hw
    rw [hv, bangBangFrom_get?] at hw
    cases hu : (rawVel mj env c1).get? i with
    | none => rw [hu] at hw; simp at hw
    | some u =>
      rw [hu] at hw
      simp only [Option.map_some', Option.some.injEq] at hw
      rw [← hw]
      exact bangBangAt_floor _ _ _
  · intro i u hu hbig
    rw [hv, bangBangFrom_get?, hu]
    simp only [Option.map_some', bangBangAt_outside _ _ _ (Or.inr hbig)]
  · intro i u hu h0 h1
    rw [hv, bangBangFrom_get?, hu, hhead]
    simp only [Option.map_some', bangBangAt_inside _ _ _ h0 h1, Nat.zero_add]

/-- Instance of the amended C20 on the controller of its counterexample. -/
theorem deadband_floor_and_sign_witness :
    cCounter.port_xd = some p0 ∧ cCounter.switchCtrl K0 = some cCounter ∧
    cCounter.Robotable = true ∧ env0.fb.ok = true ∧
    ∃ c', Controller.run K0 mj0 cCounter env0 = some c' ∧
      (∀ i w, c'.v.get? i = some w → (w = 0 ∨ cCounter.minAbsVel ≤ |w|)) ∧
      (∀ i u, (rawVel mj0 env0 cCounter).get? i = some u → cCounter.minAbsVel ≤ |u| →
        c'.v.get? i = some u) ∧
      (∀ i u, (rawVel mj0 env0 cCounter).get? i = some u → 0 < |u| → |u| < cCounter.minAbsVel →
        c'.v.get? i = some
          (if 0 < cCounter.commData.qd.getD i 0 - env0.fb.head.getD i 0 then cCounter.minAbsVel
           else if cCounter.commData.qd.getD i 0 - env0.fb.head.getD i 0 < 0
            then -cCounter.minAbsVel
           else 0)) :=
  ⟨rfl, by with_unfolding_all decide, rfl, rfl,
    deadband_floor_and_sign K0 mj0 cCounter cCounter env0 p0 rfl (by with_unfolding_all decide)
      rfl rfl⟩

/-! ## Eye angles written to the chains: theorems -/

theorem setAng_length (ch : List Joint) (i : Nat) (a : ℚ) :
    (setAng ch i a).length = ch.length := by
  unfold setAng
  split <;> simp

theorem setAng_same (ch : List Joint) (i : Nat) (a : ℚ) (j : Joint)
    (h : ch.get? i = some j) :
    (setAng ch i a).get? i = some { j with ang := clampTo (j.min, j.max) a } := by
  have hi : i < ch.length := by
    by_contra hge
    rw [List.get?_eq_none.mpr (not_lt.mp hge)] at h
    exact Option.noConfusion h
  unfold setAng
  rw [h]
  simp [List.getElem?_set, hi]

theorem setAng_get?_ne (ch : List Joint) (i k : Nat) (a : ℚ) (h : i ≠ k) :
    (setAng ch i a).get? k = ch.get? k := by
  unfold setAng
  split
  · simp [List.getElem?_set, h]
  · rfl

theorem setAngs_length (ch : List Joint) (off n : Nat) (src : Vec) :
    (Controller.setAngs ch off n src).length = ch.length := by
  unfold Controller.setAngs
  induction n with
  | zero => simp
  | succ n ih =>
    rw [List.range_succ, List.foldl_append]
    simp only [List.foldl_cons, List.foldl_nil, setAng_length]
    exact ih

/-- The loop of writes on the joints `off .. off+n-1` leaves the later joints
as they were. -/
theorem setAngs_get?_ge (ch : List Joint) (off n : Nat) (src : Vec) (k : Nat)
    (h : off + n ≤ k) : (Controller.setAngs ch off n src).get? k = ch.get? k := by
  unfold Controller.setAngs
  induction n with
  | zero => simp
  | succ n ih =>
    rw [List.range_succ, List.foldl_append]
    simp only [List.foldl_cons, List.foldl_nil]
    rw [setAng_get?_ne _ _ _ _ (by omega)]
    exact ih (by omega)

theorem clampTo_inside (b : ℚ × ℚ) (x : ℚ) (h1 : b.1 ≤ x) (h2 : x ≤ b.2) : clampTo b x = x := by
  unfold clampTo
  rw [if_neg (not_lt.mpr h1), if_neg (not_lt.mpr h2)]

theorem clampTo_mem (b : ℚ × ℚ) (x : ℚ) (h : b.1 ≤ b.2) :
    b.1 ≤ clampTo b x ∧ clampTo b x ≤ b.2 := by
  unfold clampTo
  by_cases h1 : x < b.1
  · rw [if_pos h1]
    exact ⟨le_refl _, h⟩
  · by_cases h2 : b.2 < x
    · rw [if_neg h1, if_pos h2]
      exact ⟨h, le_refl _⟩
    · rw [if_neg h1, if_neg h2]
      exact ⟨not_lt.mp h1, not_lt.mp h2⟩

/-- The tilt and pan joints left in an eye chain by the last two writes of the
pose update. -/
theorem eye_writes (ch : List Joint) (nT : Nat) (tilt pan : ℚ) (jt jp : Joint)
    (ht : ch.get? (nT + 3) = some jt) (hp : ch.get? (nT + 4) = some jp) :
    (setAng (setAng ch (nT + 3) tilt) (nT + 4) pan).get? (nT + 3)
      = some { jt with ang := clampTo (jt.min, jt.max) tilt } ∧
    (setAng (setAng ch (nT + 3) tilt) (nT + 4) pan).get? (nT + 4)
      = some { jp with ang := clampTo (jp.min, jp.max) pan } := by
  constructor
  · rw [setAng_get?_ne _ _ _ _ (by omega)]
    exact setAng_same ch (nT + 3) tilt jt ht
  · apply setAng_same
    rw [setAng_get?_ne _ _ _ _ (by omega)]
    exact hp

/-- C14, as stated, fails on the chains that keep their angles within the
bounds of the joints: without robot, with the belief version `8` and vergence
`6` (both within the bounds of the integrator), the left pan written is
`8 + 6/2 = 11`, but the pan joint of the left eye is bounded by `[-10,10]` and
holds `10` after the cycle; the two pans then differ by `5`, not by the
vergence. -/
theorem eye_pan_clamped_at_bound :
    cSimWide.Robotable = false ∧ cycleHead env0 cSimWide = [0, 0, 0, 0, 8, 6] ∧
    cSimWide.chainEyeL.get? (cSimWide.nJointsTorso + 4)
      = some { min := -10, max := 10, ang := 0 } ∧
    (Controller.run K0 mj0 cSimWide env0).map
        (fun c' => (c'.chainEyeL.get? (cSimWide.nJointsTorso + 4)).map (fun j => j.ang))
      = some (some 10) ∧
    (Controller.run K0 mj0 cSimWide env0).map
        (fun c' => (c'.chainEyeR.get? (cSimWide.nJointsTorso + 4)).map (fun j => j.ang))
      = some (some 5) ∧
    (cycleHead env0 cSimWide).getD 4 0 + (cycleHead env0 cSimWide).getD 5 0 / 2 = 11 := by
  with_unfolding_all decide

/-- C14, amended: the eye angles written to the chains by a cycle whose
feedback did not fail.  With head feedback `h`, the tilt joints of both eye
chains are written `h[3]`, the pan joint of the left one `h[4] + h[5]/2` and
that of the right one `h[4] - h[5]/2`, each value clamped to the bounds of its
joint, which stay as they were.  When the value lies within the bounds of the
joint the chain holds exactly it; when both pans do, their difference is the
vergence `h[5]` and their mean the version `h[4]`. -/
theorem run_eye_split (K : Consts) (mj : MjLaw) (c : Controller) (env : CycleEnv)
    (p : xdPort) (hp : c.port_xd = some p) (hfb : c.Robotable = true → env.fb.ok = true)
    (lt lp rt rp : Joint)
    (hLt : c.chainEyeL.get? (c.nJointsTorso + 3) = some lt)
    (hLp : c.chainEyeL.get? (c.nJointsTorso + 4) = some lp)
    (hRt : c.chainEyeR.get? (c.nJointsTorso + 3) = some rt)
    (hRp : c.chainEyeR.get? (c.nJointsTorso + 4) = some rp) :
    ∃ c' tiltL tiltR panL panR, Controller.run K mj c env = some c' ∧
      c'.chainEyeL.get? (c.nJointsTorso + 3) = some { lt with ang := tiltL } ∧
      c'.chainEyeR.get? (c.nJointsTorso + 3) = some { rt with ang := tiltR } ∧
      c'.chainEyeL.get? (c.nJointsTorso + 4) = some { lp with ang := panL } ∧
      c'.chainEyeR.get? (c.nJointsTorso + 4) = some { rp with ang := panR } ∧
      tiltL = clampTo (lt.min, lt.max) ((cycleHead env c).getD 3 0) ∧
      tiltR = clampTo (rt.min, rt.max) ((cycleHead env c).getD 3 0) ∧
      panL = clampTo (lp.min, lp.max)
        ((cycleHead env c).getD 4 0 + (cycleHead env c).getD 5 0 / 2) ∧
      panR = clampTo (rp.min, rp.max)
        ((cycleHead env c).getD 4 0 - (cycleHead env c).getD 5 0 / 2) ∧
      (lt.min ≤ (cycleHead env c).getD 3 0 → (cycleHead env c).getD 3 0 ≤ lt.max →
        tiltL = (cycleHead env c).getD 3 0) ∧
      (rt.min ≤ (cycleHead env c).getD 3 0 → (cycleHead env c).getD 3 0 ≤ rt.max →
        tiltR = (cycleHead env c).getD 3 0) ∧
      (lp.min ≤ (cycleHead env c).getD 4 0 + (cycleHead env c).getD 5 0 / 2 →
        (cycleHead env c).getD 4 0 + (cycleHead env c).getD 5 0 / 2 ≤ lp.max →
        panL = (cycleHead env c).getD 4 0 + (cycleHead env c).getD 5 0 / 2) ∧
      (rp.min ≤ (cycleHead env c).getD 4 0 - (cycleHead env c).getD 5 0 / 2 →
        (cycleHead env c).getD 4 0 - (cycleHead env c).getD 5 0 / 2 ≤ rp.max →
        panR = (cycleHead env c).getD 4 0 - (cycleHead env c).getD 5 0 / 2) ∧
      (lp.min ≤ (cycleHead env c).getD 4 0 + (cycleHead env c).getD 5 0 / 2 →
        (cycleHead env c).getD 4 0 + (cycleHead env c).getD 5 0 / 2 ≤ lp.max →
        rp.min ≤ (cycleHead env c).getD 4 0 - (cycleHead env c).getD 5 0 / 2 →
        (cycleHead env c).getD 4 0 - (cycleHead env c).getD 5 0 / 2 ≤ rp.max →
        panL - panR = (cycleHead env c).getD 5 0 ∧
        (panL + panR) / 2 = (cycleHead env c).getD 4 0) := by
  obtain ⟨c1, hsw, -, -, -, sR, -, -, -, -, -, sF, -, sNT, -, sL, sRr, -⟩ :=
    switchCtrl_full K c p hp
  obtain ⟨-, -, -, eF, -, -, -, -, -, -, eNT, -, eL, eR, -⟩ := cycleEntry_frame env c1
  obtain ⟨-, -, -, rF, -, -⟩ := rawStep_frame mj (cycleEntry env c1)
  obtain ⟨-, -, rNT, -, rL, rR, -⟩ := rawStep_frame2 mj (cycleEntry env c1)
  obtain ⟨-, bF, -, bNT, -, bL, bR, -⟩ := bangBang_frame2 (Controller.rawStep mj (cycleEntry env c1))
  obtain ⟨oL, oR⟩ := outputStep_chains K env (Controller.rawStep mj (cycleEntry env c1)).bangBang
  have hrun : Controller.run K mj c env = some (Controller.outputStep K env
      (Controller.rawStep mj (cycleEntry env c1)).bangBang) := by
    rw [run_of_switchCtrl K mj c c1 env hsw, afterSwitch_faultfree K mj env c1 (fun h => hfb (sR ▸ h))]
    rfl
  have hhead : (Controller.rawStep mj (cycleEntry env c1)).bangBang.fbHead = cycleHead env c := by
    rw [bF, rF, eF]
    unfold cycleHead
    rw [sR, sF]
  have hnt : (Controller.rawStep mj (cycleEntry env c1)).bangBang.nJointsTorso = c.nJointsTorso := by
    rw [bNT, rNT, eNT, sNT]
  have hcl : (Controller.rawStep mj (cycleEntry env c1)).bangBang.chainEyeL = c.chainEyeL := by
    rw [bL, rL, eL, sL]
  have hcr : (Controller.rawStep mj (cycleEntry env c1)).bangBang.chainEyeR = c.chainEyeR := by
    rw [bR, rR, eR, sRr]
  have h2 : (2.0 : ℚ) = 2 := by norm_num
  rw [hhead, hnt, hcl, h2] at oL
  rw [hhead, hnt, hcr, h2] at oR
  have keep : ∀ (ch : List Joint) (k : Nat), c.nJointsTorso + 3 ≤ k →
      (Controller.setAngs (Controller.setAngs ch 0 c.nJointsTorso
        (Controller.rawStep mj (cycleEntry env c1)).bangBang.fbTorso) c.nJointsTorso 3
        (cycleHead env c)).get? k = ch.get? k := by
    intro ch k hk
    rw [setAngs_get?_ge _ _ _ _ _ (by omega), setAngs_get?_ge _ _ _ _ _ (by omega)]
  obtain ⟨l3, l4⟩ := eye_writes
    (Controller.setAngs (Controller.setAngs c.chainEyeL 0 c.nJointsTorso
      (Controller.rawStep mj (cycleEntry env c1)).bangBang.fbTorso) c.nJointsTorso 3
      (cycleHead env c))
    c.nJointsTorso ((cycleHead env c).getD 3 0)
    ((cycleHead env c).getD 4 0 + (cycleHead env c).getD 5 0 / 2) lt lp
    (by rw [keep _ _ (le_refl _)]; exact hLt) (by rw [keep _ _ (by omega)]; exact hLp)
  obtain ⟨r3, r4⟩ := eye_writes
    (Controller.setAngs (Controller.setAngs c.chainEyeR 0 c.nJointsTorso
      (Controller.rawStep mj (cycleEntry env c1)).bangBang.fbTorso) c.nJointsTorso 3
      (cycleHead env c))
    c.nJointsTorso ((cycleHead env c).getD 3 0)
    ((cycleHead env c).getD 4 0 - (cycleHead env c).getD 5 0 / 2) rt rp
    (by rw [keep _ _ (le_refl _)]; exact hRt) (by rw [keep _ _ (by omega)]; exact hRp)
  refine ⟨_, _, _, _, _, hrun, ?_, ?_, ?_, ?_, rfl, rfl, rfl, rfl, ?_, ?_, ?_, ?_, ?_⟩
  · rw [oL]; exact l3
  · rw [oR]; exact r3
  · rw [oL]; exact l4
  · rw [oR]; exact r4
  · exact fun a b => clampTo_inside _ _ a b
  · exact fun a b => clampTo_inside _ _ a b
  · exact fun a b => clampTo_inside _ _ a b
  · exact fun a b => clampTo_inside _ _ a b
  · intro a b a2 b2
    rw [clampTo_inside _ _ a b, clampTo_inside _ _ a2 b2]
    constructor <;> ring

/-- Instance of the amended C14 on the idle controller with a robot: tilt `0`,
version `0` and vergence `1` are within the bounds `[-10,10]` and give the pans
`1/2` and `-1/2`. -/
theorem run_eye_split_witness :
    cIdle.port_xd = some p0 ∧ (cIdle.Robotable = true → env0.fb.ok = true) ∧
    cIdle.chainEyeL.get? (cIdle.nJointsTorso + 3) = some { min := -10, max := 10, ang := 0 } ∧
    cIdle.chainEyeL.get? (cIdle.nJointsTorso + 4) = some { min := -10, max := 10, ang := 0 } ∧
    cIdle.chainEyeR.get? (cIdle.nJointsTorso + 3) = some { min := -10, max := 10, ang := 0 } ∧
    cIdle.chainEyeR.get? (cIdle.nJointsTorso + 4) = some { min := -10, max := 10, ang := 0 } ∧
    (Controller.run K0 mj0 cIdle env0).map
        (fun c' => (c'.chainEyeL.get? (cIdle.nJointsTorso + 4)).map (fun j => j.ang))
      = some (some (1 / 2)) ∧
    (Controller.run K0 mj0 cIdle env0).map
        (fun c' => (c'.chainEyeR.get? (cIdle.nJointsTorso + 4)).map (fun j => j.ang))
      = some (some (-1 / 2)) ∧
    ∃ c' tiltL tiltR panL panR, Controller.run K0 mj0 cIdle env0 = some c' ∧
      c'.chainEyeL.get? (cIdle.nJointsTorso + 3)
        = some { ({ min := -10, max := 10, ang := 0 } : Joint) with ang := tiltL } ∧
      c'.chainEyeR.get? (cIdle.nJointsTorso + 3)
        = some { ({ min := -10, max := 10, ang := 0 } : Joint) with ang := tiltR } ∧
      c'.chainEyeL.get? (cIdle.nJointsTorso + 4)
        = some { ({ min := -10, max := 10, ang := 0 } : Joint) with ang := panL } ∧
      c'.chainEyeR.get? (cIdle.nJointsTorso + 4)
        = some { ({ min := -10, max := 10, ang := 0 } : Joint) with ang := panR } ∧
      tiltL = clampTo (-10, 10) ((cycleHead env0 cIdle).getD 3 0) ∧
      tiltR = clampTo (-10, 10) ((cycleHead env0 cIdle).getD 3 0) ∧
      panL = clampTo (-10, 10)
        ((cycleHead env0 cIdle).getD 4 0 + (cycleHead env0 cIdle).getD 5 0 / 2) ∧
      panR = clampTo (-10, 10)
        ((cycleHead env0 cIdle).getD 4 0 - (cycleHead env0 cIdle).getD 5 0 / 2) ∧
      (-10 ≤ (cycleHead env0 cIdle).getD 3 0 → (cycleHead env0 cIdle).getD 3 0 ≤ 10 →
        tiltL = (cycleHead env0 cIdle).getD 3 0) ∧
      (-10 ≤ (cycleHead env0 cIdle).getD 3 0 → (cycleHead env0 cIdle).getD 3 0 ≤ 10 →
        tiltR = (cycleHead env0 cIdle).getD 3 0) ∧
      (-10 ≤ (cycleHead env0 cIdle).getD 4 0 + (cycleHead env0 cIdle).getD 5 0 / 2 →
        (cycleHead env0 cIdle).getD 4 0 + (cycleHead env0 cIdle).getD 5 0 / 2 ≤ 10 →
        panL = (cycleHead env0 cIdle).getD 4 0 + (cycleHead env0 cIdle).getD 5 0 / 2) ∧
      (-10 ≤ (cycleHead env0 cIdle).getD 4 0 - (cycleHead env0 cIdle).getD 5 0 / 2 →
        (cycleHead env0 cIdle).getD 4 0 - (cycleHead env0 cIdle).getD 5 0 / 2 ≤ 10 →
        panR = (cycleHead env0 cIdle).getD 4 0 - (cycleHead env0 cIdle).getD 5 0 / 2) ∧
      (-10 ≤ (cycleHead env0 cIdle).getD 4 0 + (cycleHead env0 cIdle).getD 5 0 / 2 →
        (cycleHead env0 cIdle).getD 4 0 + (cycleHead env0 cIdle).getD 5 0 / 2 ≤ 10 →
        -10 ≤ (cycleHead env0 cIdle).getD 4 0 - (cycleHead env0 cIdle).getD 5 0 / 2 →
        (cycleHead env0 cIdle).getD 4 0 - (cycleHead env0 cIdle).getD 5 0 / 2 ≤ 10 →
        panL - panR = (cycleHead env0 cIdle).getD 5 0 ∧
        (panL + panR) / 2 = (cycleHead env0 cIdle).getD 4 0) :=
  ⟨rfl, fun _ => rfl, by with_unfolding_all decide, by with_unfolding_all decide,
    by with_unfolding_all decide, by with_unfolding_all decide, by with_unfolding_all decide,
    by with_unfolding_all decide,
    run_eye_split K0 mj0 cIdle env0 p0 rfl (fun _ => rfl)
      { min := -10, max := 10, ang := 0 } { min := -10, max := 10, ang := 0 }
      { min := -10, max := 10, ang := 0 } { min := -10, max := 10, ang := 0 }
      (by with_unfolding_all decide) (by with_unfolding_all decide)
      (by with_unfolding_all decide) (by with_unfolding_all decide)⟩

/-! ## Joint telemetry: theorems -/

theorem scal_getD (k : ℚ) (a : Vec) (i : Nat) : (scal k a).getD i 0 = k * a.getD i 0 := by
  unfold scal
  by_cases h : i < a.length
  · simp [List.getD_eq_getElem?_getD, List.getElem?_map, h]
  · have hn : a[i]? = none := List.getElem?_eq_none (by omega)
    simp [List.getD_eq_getElem?_getD, List.getElem?_map, hn]

theorem map_range_getD (f : Nat → ℚ) (n j : Nat) (h : j < n) :
    ((List.range n).map f).getD j 0 = f j := by
  simp [List.getD_eq_getElem?_getD, List.getElem?_map, List.getElem?_range, h]

/-- The `writeQ` events of a cycle with a reader on the joints port. -/
theorem cycle_writeQ (b1 b2 b3 b4 : Bool) (d : ℚ) (w x q : Vec) :
    ∀ q', Event.writeQ q' ∈
        (if b1 then [Event.delay d, Event.stop] else []) ++
        ((if b2 then [Event.velocityMove w] else []) ++
         ((if b3 then [Event.iterInfo] else []) ++
          ((if b4 then [Event.writeX x] else []) ++ [Event.writeQ q])))
      ↔ q' = q := by
  intro q'
  cases b1 <;> cases b2 <;> cases b3 <;> cases b4 <;> simp

/-- C16, as stated, fails: the head entries of the published joint vector are
the feedback (`199/100` on the first head joint), not the desired angles
(`2` on that joint). -/
theorem telemetry_publishes_feedback :
    cActiveNear.commData.qd = [2, 0, 0, 0, 0, 1] ∧ envNearQ.fb.ok = true ∧
    (Controller.run K0 mj0 cActiveNear envNearQ).map (fun c => (c.qddeg, c.trace.getLast?))
      = some ([2, 0, 0, 0, 0, 1],
          some (Event.writeQ [0, 0, 0, 199 / 100, 0, 0, 0, 0, 1])) := by
  with_unfolding_all decide

/-- C16, amended: in a cycle whose feedback did not fail and with a reader on
the joints port, `run` publishes one joint vector, of length
`nJointsTorso + nJointsHead`; its first `nJointsTorso` entries are the torso
feedback in degrees and the others the head feedback of the cycle in degrees
(the encoders with a robot, the belief of the integrator without), not the
desired head angles. -/
theorem run_joint_telemetry (K : Consts) (mj : MjLaw) (c : Controller) (env : CycleEnv)
    (p : xdPort) (hp : c.port_xd = some p) (hfb : c.Robotable = true → env.fb.ok = true)
    (hq : 0 < env.qOutputCount) :
    ∃ c' evs q, Controller.run K mj c env = some c' ∧ c'.trace = c.trace ++ evs ∧
      (∀ q', Event.writeQ q' ∈ evs ↔ q' = q) ∧
      q.length = c.nJointsTorso + c.nJointsHead ∧
      (∀ j, j < c.nJointsTorso →
        q.getD j 0 = K.CTRL_RAD2DEG * (cycleTorso env c).getD j 0) ∧
      (∀ j, c.nJointsTorso ≤ j → j < c.nJointsTorso + c.nJointsHead →
        q.getD j 0 = K.CTRL_RAD2DEG * (cycleHead env c).getD (j - c.nJointsTorso) 0) := by
  obtain ⟨c1, hsw, -, htr, -, sR, -, -, -, -, -, sF, sT, sNT, sNH, -⟩ :=
    switchCtrl_full K c p hp
  obtain ⟨-, -, -, eF, eTo, -, -, eT, -, -, eNT, eNH, -⟩ := cycleEntry_frame env c1
  obtain ⟨-, -, -, rF, -, rT⟩ := rawStep_frame mj (cycleEntry env c1)
  obtain ⟨rTo, -, rNT, rNH, -⟩ := rawStep_frame2 mj (cycleEntry env c1)
  obtain ⟨-, -, bT, -⟩ := bangBang_frame (Controller.rawStep mj (cycleEntry env c1))
  obtain ⟨bTo, bF, -, bNT, bNH, -⟩ := bangBang_frame2 (Controller.rawStep mj (cycleEntry env c1))
  have hev := outputStep_events K env (Controller.rawStep mj (cycleEntry env c1)).bangBang
  have hrun : Controller.run K mj c env = some (Controller.outputStep K env
      (Controller.rawStep mj (cycleEntry env c1)).bangBang) := by
    rw [run_of_switchCtrl K mj c c1 env hsw, afterSwitch_faultfree K mj env c1 (fun h => hfb (sR ▸ h))]
    rfl
  have hhead : (Controller.rawStep mj (cycleEntry env c1)).bangBang.fbHead = cycleHead env c := by
    rw [bF, rF, eF]
    unfold cycleHead
    rw [sR, sF]
  have htorso : (Controller.rawStep mj (cycleEntry env c1)).bangBang.fbTorso = cycleTorso env c := by
    rw [bTo, rTo, eTo]
    unfold cycleTorso
    rw [sR, sT]
  have hnt : (Controller.rawStep mj (cycleEntry env c1)).bangBang.nJointsTorso = c.nJointsTorso := by
    rw [bNT, rNT, eNT, sNT]
  have hnh : (Controller.rawStep mj (cycleEntry env c1)).bangBang.nJointsHead = c.nJointsHead := by
    rw [bNH, rNH, eNH, sNH]
  have htr2 : (Controller.rawStep mj (cycleEntry env c1)).bangBang.trace = c.trace ++
      (if (c.commData.isCtrlActive && c.swOffCond K && c.Robotable)
        then [Event.delay (2 * c.Ts), Event.stop] else []) := by
    rw [bT, rT, eT, htr]
  rw [hhead, htorso, hnt, hnh, htr2, if_pos hq, List.append_assoc] at hev
  refine ⟨_, _, (List.range (c.nJointsTorso + c.nJointsHead)).map (fun j =>
        if j < c.nJointsTorso then K.CTRL_RAD2DEG * (cycleTorso env c).getD j 0
        else (scal K.CTRL_RAD2DEG (cycleHead env c)).getD (j - c.nJointsTorso) 0),
    hrun, hev, ?_, ?_, ?_, ?_⟩
  · intro q'
    have h := cycle_writeQ (c.commData.isCtrlActive && c.swOffCond K && c.Robotable)
      ((Controller.rawStep mj (cycleEntry env c1)).bangBang.sends K)
      (decide ((1.0 : ℚ) ≤ (Controller.rawStep mj (cycleEntry env c1)).bangBang.printAccTime
        + (Controller.rawStep mj (cycleEntry env c1)).bangBang.Ts))
      (decide (env.xOutputCount > 0)) (2 * c.Ts)
      (scal K.CTRL_RAD2DEG (Controller.rawStep mj (cycleEntry env c1)).bangBang.v)
      (Controller.rawStep mj (cycleEntry env c1)).bangBang.fp
      ((List.range (c.nJointsTorso + c.nJointsHead)).map (fun j =>
        if j < c.nJointsTorso then K.CTRL_RAD2DEG * (cycleTorso env c).getD j 0
        else (scal K.CTRL_RAD2DEG (cycleHead env c)).getD (j - c.nJointsTorso) 0)) q'
    simpa only [decide_eq_true_eq] using h
  · simp
  · intro j hj
    rw [map_range_getD _ _ _ (by omega), if_pos hj]
  · intro j hj1 hj2
    rw [map_range_getD _ _ _ hj2, if_neg (by omega), scal_getD]

/-- Instance of the amended C16 on the controller of its counterexample. -/
theorem run_joint_telemetry_witness :
    cActiveNear.port_xd = some p0 ∧ (cActiveNear.Robotable = true → envNearQ.fb.ok = true) ∧
    0 < envNearQ.qOutputCount ∧
    ∃ c' evs q, Controller.run K0 mj0 cActiveNear envNearQ = some c' ∧
      c'.trace = cActiveNear.trace ++ evs ∧
      (∀ q', Event.writeQ q' ∈ evs ↔ q' = q) ∧
      q.length = cActiveNear.nJointsTorso + cActiveNear.nJointsHead ∧
      (∀ j, j < cActiveNear.nJointsTorso →
        q.getD j 0 = K0.CTRL_RAD2DEG * (cycleTorso envNearQ cActiveNear).getD j 0) ∧
      (∀ j, cActiveNear.nJointsTorso ≤ j →
        j < cActiveNear.nJointsTorso + cActiveNear.nJointsHead →
        q.getD j 0
          = K0.CTRL_RAD2DEG * (cycleHead envNearQ cActiveNear).getD (j - cActiveNear.nJointsTorso) 0) :=
  ⟨rfl, fun _ => rfl, by decide,
    run_joint_telemetry K0 mj0 cActiveNear envNearQ p0 rfl (fun _ => rfl) (by decide)⟩

/-! ## Stop on entering idle: theorems -/

/-- The `stop` events of a cycle whose feedback did not fail. -/
theorem cycle_stop_events (b b2 : Bool) (d : ℚ) (w : Vec) (rest : List Event)
    (hrest : quietEvents rest) :
    (Event.stop ∈ (if b then [Event.delay d, Event.stop] else []) ++
        ((if b2 then [Event.velocityMove w] else []) ++ rest) ↔ b = true) ∧
    ((if b then [Event.delay d, Event.stop] else []) ++
        ((if b2 then [Event.velocityMove w] else []) ++ rest)).count Event.stop
      = (if b then 1 else 0) := by
  have hr : Event.stop ∉ rest := by
    intro h
    rcases hrest _ h with h1 | ⟨x, h1⟩ | ⟨q, h1⟩ <;> simp at h1
  have hc : rest.count Event.stop = 0 := List.count_eq_zero.mpr hr
  cases b <;> cases b2 <;> simp [hr, hc, List.count_cons]

/-- The stops and the target port of a cycle with a robot whose feedback did
not fail. -/
theorem cycle_stops (K : Consts) (mj : MjLaw) (c : Controller) (env : CycleEnv)
    (p : xdPort) (hp : c.port_xd = some p) (hrob : c.Robotable = true)
    (hok : env.fb.ok = true) :
    ∃ c' evs, Controller.run K mj c env = some c' ∧ c'.trace = c.trace ++ evs ∧
      (Event.stop ∈ evs ↔ (c.commData.isCtrlActive = true ∧ c.swOffCond K = true)) ∧
      evs.count Event.stop = (if (c.commData.isCtrlActive && c.swOffCond K) then 1 else 0) ∧
      c'.port_xd = some { p with
        isNew := if (c.commData.isCtrlActive && c.swOffCond K) then false else p.isNew } ∧
      c'.Robotable = true ∧
      c'.commData.isCtrlActive = (if c.commData.isCtrlActive then !(c.swOffCond K)
          else (!(c.swOffCond K) && c.swOnCond K p)) := by
  obtain ⟨c1, hsw, sA, htr, sP, sR, -⟩ := switchCtrl_full K c p hp
  obtain ⟨eR, -, -, -, -, -, -, eT, eC, eP, -⟩ := cycleEntry_frame env c1
  obtain ⟨rR, -, -, -, -, rT⟩ := rawStep_frame mj (cycleEntry env c1)
  obtain ⟨-, rP, -, -, -, -, -, -, rA⟩ := rawStep_frame2 mj (cycleEntry env c1)
  obtain ⟨bR, -, bT, -⟩ := bangBang_frame (Controller.rawStep mj (cycleEntry env c1))
  obtain ⟨-, -, bP, -, -, -, -, -, -, bA⟩ :=
    bangBang_frame2 (Controller.rawStep mj (cycleEntry env c1))
  obtain ⟨rest, hqu, hev⟩ := outputStep_trace_quiet K env
    (Controller.rawStep mj (cycleEntry env c1)).bangBang
  obtain ⟨-, -, -, -, oP, -, -, oA⟩ := outputStep_facts K env
    (Controller.rawStep mj (cycleEntry env c1)).bangBang
  have hrun : Controller.run K mj c env = some (Controller.outputStep K env
      (Controller.rawStep mj (cycleEntry env c1)).bangBang) := by
    rw [run_of_switchCtrl K mj c c1 env hsw, afterSwitch_faultfree K mj env c1 (fun _ => hok)]
    rfl
  have htr2 : (Controller.rawStep mj (cycleEntry env c1)).bangBang.trace = c.trace ++
      (if (c.commData.isCtrlActive && c.swOffCond K)
        then [Event.delay (2 * c.Ts), Event.stop] else []) := by
    rw [bT, rT, eT, htr, hrob, Bool.and_true]
  obtain ⟨k1, k2⟩ := cycle_stop_events (c.commData.isCtrlActive && c.swOffCond K)
    ((Controller.rawStep mj (cycleEntry env c1)).bangBang.sends K) (2 * c.Ts)
    (scal K.CTRL_RAD2DEG (Controller.rawStep mj (cycleEntry env c1)).bangBang.v) rest hqu
  have hrobOut : (Controller.outputStep K env
      (Controller.rawStep mj (cycleEntry env c1)).bangBang).Robotable = true := by
    have h : (Controller.outputStep K env
        (Controller.rawStep mj (cycleEntry env c1)).bangBang).Robotable
          = (Controller.rawStep mj (cycleEntry env c1)).bangBang.Robotable := by
      simp only [Controller.outputStep, Controller.updateJoints, Controller.updatePose,
        publish_eq, printIter_eq, sendVel_eq]
    rw [h, bR, rR, eR, sR, hrob]
  refine ⟨_, (if (c.commData.isCtrlActive && c.swOffCond K)
      then [Event.delay (2 * c.Ts), Event.stop] else []) ++
    ((if (Controller.rawStep mj (cycleEntry env c1)).bangBang.sends K
      then [Event.velocityMove
        (scal K.CTRL_RAD2DEG (Controller.rawStep mj (cycleEntry env c1)).bangBang.v)]
      else []) ++ rest), hrun, ?_, ?_, k2, ?_, hrobOut, ?_⟩
  · rw [hev, htr2, List.append_assoc]
  · rw [k1]
    simp
  · rw [oP, bP, rP, eP, sP]
  · have eA : (cycleEntry env c1).commData.isCtrlActive = c1.commData.isCtrlActive := by rw [eC]
    rw [oA, bA, rA, eA, sA]

/-- C17: in a cycle with a robot whose feedback did not fail, `run` issues a
hardware stop, once, and clears the new flag of the target exactly when the
cycle starts active with the motion-done condition; otherwise it issues no
stop and leaves the flag as it is.  A cycle that starts idle issues no stop,
and neither does the cycle after a cycle that ends idle. -/
theorem run_stop_once_on_idle (K : Consts) (mj : MjLaw) (c : Controller) (env env2 : CycleEnv)
    (p : xdPort) (hp : c.port_xd = some p) (hrob : c.Robotable = true)
    (hok : env.fb.ok = true) (hok2 : env2.fb.ok = true) :
    ∃ c' evs, Controller.run K mj c env = some c' ∧ c'.trace = c.trace ++ evs ∧
      (Event.stop ∈ evs ↔ (c.commData.isCtrlActive = true ∧ c.swOffCond K = true)) ∧
      evs.count Event.stop = (if (c.commData.isCtrlActive && c.swOffCond K) then 1 else 0) ∧
      c'.port_xd = some { p with
        isNew := if (c.commData.isCtrlActive && c.swOffCond K) then false else p.isNew } ∧
      (c.commData.isCtrlActive = false → Event.stop ∉ evs) ∧
      (c'.commData.isCtrlActive = false →
        ∃ c'' evs2, Controller.run K mj c' env2 = some c'' ∧ c''.trace = c'.trace ++ evs2 ∧
          Event.stop ∉ evs2 ∧ c''.port_xd = c'.port_xd) := by
  obtain ⟨c', evs, hrun, htr, hstop, hcount, hport, hrob', -⟩ :=
    cycle_stops K mj c env p hp hrob hok
  refine ⟨c', evs, hrun, htr, hstop, hcount, hport, ?_, ?_⟩
  · intro hidle hmem
    have := (hstop.mp hmem).1
    rw [hidle] at this
    exact absurd this (by simp)
  · intro hidle'
    obtain ⟨c'', evs2, hrun2, htr2, hstop2, -, hport2, -, -⟩ :=
      cycle_stops K mj c' env2 _ hport hrob' hok2
    refine ⟨c'', evs2, hrun2, htr2, ?_, ?_⟩
    · intro hmem
      have := (hstop2.mp hmem).1
      rw [hidle'] at this
      exact absurd this (by simp)
    · rw [hport2, hport, hidle']
      simp

/-- Instance of C17: the active controller on its target stops once, and the
next cycle, idle, does not stop. -/
theorem run_stop_once_on_idle_witness :
    cMoving.port_xd = some p0 ∧ cMoving.Robotable = true ∧ env0.fb.ok = true ∧
    ∃ c' evs, Controller.run K0 mj0 cMoving env0 = some c' ∧ c'.trace = cMoving.trace ++ evs ∧
      (Event.stop ∈ evs ↔ (cMoving.commData.isCtrlActive = true ∧ cMoving.swOffCond K0 = true)) ∧
      evs.count Event.stop
        = (if (cMoving.commData.isCtrlActive && cMoving.swOffCond K0) then 1 else 0) ∧
      c'.port_xd = some { p0 with
        isNew := if (cMoving.commData.isCtrlActive && cMoving.swOffCond K0) then false
          else p0.isNew } ∧
      (cMoving.commData.isCtrlActive = false → Event.stop ∉ evs) ∧
      (c'.commData.isCtrlActive = false →
        ∃ c'' evs2, Controller.run K0 mj0 c' env0 = some c'' ∧ c''.trace = c'.trace ++ evs2 ∧
          Event.stop ∉ evs2 ∧ c''.port_xd = c'.port_xd) :=
  ⟨rfl, rfl, rfl, run_stop_once_on_idle K0 mj0 cMoving env0 env0 p0 rfl rfl rfl rfl⟩

/-! ## Idle forces zero velocity: theorems -/

theorem cycleEntry_Int (env : CycleEnv) (c1 : Controller) :
    (cycleEntry env c1).Int = (if c1.Robotable then c1.Int.reset env.fb.head else c1.Int) := by
  unfold cycleEntry
  by_cases hrob : c1.Robotable = true
  · rw [if_pos hrob, if_pos hrob]
    rfl
  · rw [if_neg hrob, if_neg hrob]
    rfl

/-- C18: in a cycle whose feedback did not fail and whose state after the
switching block is idle, on a six-joint head, the velocity `v` is the zero
6-vector, with or without robot; it is the vector handed to the integrator and
published in `commData`, and `vdeg` is zero as well. -/
theorem run_idle_zero_velocity (K : Consts) (mj : MjLaw) (c c1 : Controller) (env : CycleEnv)
    (p : xdPort) (hp : c.port_xd = some p) (hsw : c.switchCtrl K = some c1)
    (hidle : c1.commData.isCtrlActive = false)
    (hfb : c.Robotable = true → env.fb.ok = true) (hlen : c.v.length = 6) :
    ∃ c', Controller.run K mj c env = some c' ∧
      c'.v = List.replicate 6 0 ∧ c'.commData.v = List.replicate 6 0 ∧
      c'.vdeg = List.replicate 6 0 ∧
      c'.Int = (if c.Robotable then c.Int.reset env.fb.head else c.Int).integrate
        (List.replicate 6 0) ∧
      c'.commData.isCtrlActive = false := by
  obtain ⟨c0, hsw0, -, -, -, sR, -, -, -, sV, -, -, -, -, -, -, -, sI⟩ := switchCtrl_full K c p hp
  have hc : c0 = c1 := Option.some.inj (hsw0.symm.trans hsw)
  subst hc
  obtain ⟨-, -, -, -, -, eV, -, -, eC, -⟩ := cycleEntry_frame env c0
  obtain ⟨-, -, -, -, -, -, -, rI, rA⟩ := rawStep_frame2 mj (cycleEntry env c0)
  obtain ⟨-, -, -, -, -, -, -, bI, -, bA⟩ :=
    bangBang_frame2 (Controller.rawStep mj (cycleEntry env c0))
  obtain ⟨fdeg, -, fcv, fI, -, -, -, oA⟩ := outputStep_facts K env
    (Controller.rawStep mj (cycleEntry env c0)).bangBang
  have hidle2 : (cycleEntry env c0).commData.isCtrlActive = false := by rw [eC]; exact hidle
  have hlen2 : (cycleEntry env c0).v.length = 6 := by rw [eV, sV]; exact hlen
  have hv := bangBang_idle_v mj (cycleEntry env c0) hidle2 hlen2
  have hrun : Controller.run K mj c env = some (Controller.outputStep K env
      (Controller.rawStep mj (cycleEntry env c0)).bangBang) := by
    rw [run_of_switchCtrl K mj c c0 env hsw, afterSwitch_faultfree K mj env c0 (fun h => hfb (sR ▸ h))]
    rfl
  refine ⟨_, hrun, ?_, ?_, ?_, ?_, ?_⟩
  · rw [outputStep_v, hv]
  · rw [fcv, hv]
  · rw [fdeg, hv, scal_zero]
  · rw [fI, hv, bI, rI, cycleEntry_Int, sR, sI]
  · rw [oA, bA, rA, hidle2]

/-- Instance of C18 on the idle controller without robot. -/
theorem run_idle_zero_velocity_witness :
    cSim.port_xd = some p0 ∧ cSim.switchCtrl K0 = some cSim ∧
    cSim.commData.isCtrlActive = false ∧ (cSim.Robotable = true → env0.fb.ok = true) ∧
    cSim.v.length = 6 ∧
    ∃ c', Controller.run K0 mj0 cSim env0 = some c' ∧
      c'.v = List.replicate 6 0 ∧ c'.commData.v = List.replicate 6 0 ∧
      c'.vdeg = List.replicate 6 0 ∧
      c'.Int = (if cSim.Robotable then cSim.Int.reset env0.fb.head else cSim.Int).integrate
        (List.replicate 6 0) ∧
      c'.commData.isCtrlActive = false :=
  ⟨rfl, by with_unfolding_all decide, rfl, fun _ => rfl, rfl,
    run_idle_zero_velocity K0 mj0 cSim cSim env0 p0 rfl (by with_unfolding_all decide) rfl
      (fun _ => rfl) rfl⟩

/-! ## Switch-on condition: theorems -/

/-- C19: the transition from idle to active.  For a cycle that starts idle, the
state after the switching block (and after the whole cycle) is active exactly
when the motion-done condition does not hold and either tracking mode is off
and the new flag of the target is set or one of the first three desired joints
differs from the tracked one, or tracking mode is on and the norm of the
desired minus the current fixation point exceeds the motion-start threshold. -/
theorem run_switch_on_exact (K : Consts) (mj : MjLaw) (c : Controller) (env : CycleEnv)
    (p : xdPort) (hp : c.port_xd = some p) (hidle : c.commData.isCtrlActive = false) :
    ∃ c1 c', c.switchCtrl K = some c1 ∧ Controller.run K mj c env = some c' ∧
      c'.commData.isCtrlActive = c1.commData.isCtrlActive ∧
      (c1.commData.isCtrlActive = true ↔
        (c.swOffCond K = false ∧
          ((c.getTrackingMode = false ∧
              (p.isNew = true ∨ c.commData.qd.getD 0 0 ≠ c.qd.getD 0 0
                ∨ c.commData.qd.getD 1 0 ≠ c.qd.getD 1 0
                ∨ c.commData.qd.getD 2 0 ≠ c.qd.getD 2 0)) ∨
           (c.getTrackingMode = true ∧
              normGt (vsub p.xd c.fp) K.GAZECTRL_MOTIONSTART_XTHRES = true)))) := by
  obtain ⟨c1, hsw, sA, -⟩ := switchCtrl_full K c p hp
  refine ⟨c1, _, hsw, run_of_switchCtrl K mj c c1 env hsw, afterSwitch_isCtrlActive K mj env c1, ?_⟩
  rw [sA, hidle]
  unfold Controller.swOnCond Controller.getTrackingMode
  cases hs : c.swOffCond K <;> cases hc : c.commData.canCtrlBeDisabled <;> simp [or_assoc]

/-- Instance of C19 on the idle controller that gets a new target two units
away. -/
theorem run_switch_on_exact_witness :
    cIdleNewTarget.port_xd = some { isNew := true, xd := [0, 0, 0] } ∧
    cIdleNewTarget.commData.isCtrlActive = false ∧
    ∃ c1 c', cIdleNewTarget.switchCtrl K0 = some c1 ∧
      Controller.run K0 mj0 cIdleNewTarget env0 = some c' ∧
      c'.commData.isCtrlActive = c1.commData.isCtrlActive ∧
      (c1.commData.isCtrlActive = true ↔
        (cIdleNewTarget.swOffCond K0 = false ∧
          ((cIdleNewTarget.getTrackingMode = false ∧
              ((xdPort.mk true [0, 0, 0]).isNew = true
                ∨ cIdleNewTarget.commData.qd.getD 0 0 ≠ cIdleNewTarget.qd.getD 0 0
                ∨ cIdleNewTarget.commData.qd.getD 1 0 ≠ cIdleNewTarget.qd.getD 1 0
                ∨ cIdleNewTarget.commData.qd.getD 2 0 ≠ cIdleNewTarget.qd.getD 2 0)) ∨
           (cIdleNewTarget.getTrackingMode = true ∧
              normGt (vsub (xdPort.mk true [0, 0, 0]).xd cIdleNewTarget.fp)
                K0.GAZECTRL_MOTIONSTART_XTHRES = true)))) :=
  ⟨rfl, rfl, run_switch_on_exact K0 mj0 cIdleNewTarget env0 { isNew := true, xd := [0, 0, 0] }
    rfl rfl⟩

/-! ## Delay before stop: theorems -/

/-- What the switching block leaves alone of the motion state. -/
theorem switchCtrl_motion_frame (K : Consts) (c : Controller) (p : xdPort)
    (hp : c.port_xd = some p) :
    ∃ c1, c.switchCtrl K = some c1 ∧ c1.Robotable = c.Robotable ∧
      c1.v = c.v ∧ c1.vdeg = c.vdeg ∧ c1.vdegOld = c.vdegOld ∧ c1.Int = c.Int ∧
      c1.chainNeck = c.chainNeck ∧ c1.chainEyeL = c.chainEyeL ∧ c1.chainEyeR = c.chainEyeR ∧
      c1.commData.q = c.commData.q ∧ c1.commData.torso = c.commData.torso ∧
      c1.commData.v = c.commData.v :=
  ⟨_, switchCtrl_eq K c p hp, rfl, rfl, rfl, rfl, rfl, rfl, rfl, rfl, rfl, rfl, rfl⟩

/-- C21: a fault leaves the motion state untouched.  When the feedback
acquisition fails, with a robot, `run` returns with the velocity `v` (and
`vdeg`), the last command sent `vdegOld`, the integrator, the joint angles of
the three chains and the values `q`, `torso`, `v` of `commData` as they were. -/
theorem run_fault_frame (K : Consts) (mj : MjLaw) (c : Controller) (env : CycleEnv)
    (p : xdPort) (hp : c.port_xd = some p) (hrob : c.Robotable = true)
    (hfail : env.fb.ok = false) :
    ∃ c', Controller.run K mj c env = some c' ∧
      c'.v = c.v ∧ c'.vdeg = c.vdeg ∧ c'.vdegOld = c.vdegOld ∧ c'.Int = c.Int ∧
      c'.chainNeck = c.chainNeck ∧ c'.chainEyeL = c.chainEyeL ∧ c'.chainEyeR = c.chainEyeR ∧
      c'.commData.q = c.commData.q ∧ c'.commData.torso = c.commData.torso ∧
      c'.commData.v = c.commData.v ∧ c'.suspended = true := by
  obtain ⟨c1, hsw, hR, h1, h2, h3, h4, h5, h6, h7, h8, h9, h10⟩ :=
    switchCtrl_motion_frame K c p hp
  refine ⟨_, run_of_switchCtrl K mj c c1 env hsw, ?_⟩
  rw [afterSwitch_fail K mj env c1 (hR.trans hrob) hfail, suspend_eq]
  exact ⟨h1, h2, h3, h4, h5, h6, h7, h8, h9, h10, rfl⟩

/-- Instance of C21 on the controller that was moving. -/
theorem run_fault_frame_witness :
    cMoving.port_xd = some p0 ∧ cMoving.Robotable = true ∧ envFail.fb.ok = false ∧
    ∃ c', Controller.run K0 mj0 cMoving envFail = some c' ∧
      c'.v = cMoving.v ∧ c'.vdeg = cMoving.vdeg ∧ c'.vdegOld = cMoving.vdegOld ∧
      c'.Int = cMoving.Int ∧
      c'.chainNeck = cMoving.chainNeck ∧ c'.chainEyeL = cMoving.chainEyeL ∧
      c'.chainEyeR = cMoving.chainEyeR ∧
      c'.commData.q = cMoving.commData.q ∧ c'.commData.torso = cMoving.commData.torso ∧
      c'.commData.v = cMoving.commData.v ∧ c'.suspended = true :=
  ⟨rfl, rfl, rfl, run_fault_frame K0 mj0 cMoving envFail p0 rfl rfl rfl⟩

/-! ## Vergence bound at construction: theorems -/

theorem setLimMin_same (lim : List (ℚ × ℚ)) (i : Nat) (x : ℚ) (h : i < lim.length) :
    ((setLimMin lim i x).get? i).map (fun b => b.1) = some x := by
  unfold setLimMin
  cases hb : lim.get? i with
  | none =>
    rw [List.get?_eq_none] at hb
    omega
  | some b => simp [List.getElem?_set, h]

theorem simLim_vergence (K : Consts) (ch : List Joint) :
    ((simLim K ch 3 6).get? 5).map (fun b => b.1)
      = some (K.MINALLOWED_VERGENCE * K.CTRL_DEG2RAD) := by
  simp [simLim, List.getElem?_append_right]

theorem construct_Int_robot (K : Consts) (lib : Libraries) (d : HeadDriver)
    (cd : exchangeData) (n e tmin tmax mv : ℚ) (p : Nat) :
    (Controller.construct K lib (some d) cd n e tmin tmax mv p).Int.lim
      = setLimMin d.lim (d.nJointsHead - 1) (K.MINALLOWED_VERGENCE * K.CTRL_DEG2RAD) := rfl

theorem construct_Int_sim (K : Consts) (lib : Libraries)
    (cd : exchangeData) (n e tmin tmax mv : ℚ) (p : Nat) :
    (Controller.construct K lib none cd n e tmin tmax mv p).Int.lim = simLim K lib.chainNeck 3 6 ∧
    (Controller.construct K lib none cd n e tmin tmax mv p).fbHead
      = (List.replicate 6 (0 : ℚ)).set 5 (K.MINALLOWED_VERGENCE * K.CTRL_DEG2RAD) ∧
    (Controller.construct K lib none cd n e tmin tmax mv p).Int.y
      = (Controller.construct K lib none cd n e tmin tmax mv p).fbHead :=
  ⟨rfl, rfl, rfl⟩

/-- C22, as stated, fails: with a robot whose aligned bounds give the vergence
the strictly positive lower bound `5`, the constructor does not keep it: the
lower bound of the integrator is the configured minimum, `1`. -/
theorem vergence_bound_overwritten :
    (drvPos.lim.get? (drvPos.nJointsHead - 1)) = some (5, 10) ∧
    K0.MINALLOWED_VERGENCE * K0.CTRL_DEG2RAD = 1 ∧
    (Controller.construct K0 lib0 (some drvPos) cd0 (1 / 10) (1 / 2) 0 0 (1 / 10) 20).Int.lim.get?
        (drvPos.nJointsHead - 1) = some (1, 10) := by
  with_unfolding_all decide

/-- C22, amended: the constructor always sets the lower bound of the last head
joint (vergence) in the bounds of the integrator to
`MINALLOWED_VERGENCE*CTRL_DEG2RAD`, whatever the computed bound; it is strictly
positive when the configured minimum is, and without robot the initial vergence
`fbHead[5]`, which is also the belief of the integrator, equals it. -/
theorem construct_vergence_bound (K : Consts) (lib : Libraries) (d : HeadDriver)
    (cd : exchangeData) (n e tmin tmax mv : ℚ) (p : Nat)
    (hrow : d.nJointsHead - 1 < d.lim.length)
    (hpos : 0 < K.MINALLOWED_VERGENCE * K.CTRL_DEG2RAD) :
    ((Controller.construct K lib (some d) cd n e tmin tmax mv p).Int.lim.get?
        (d.nJointsHead - 1)).map (fun b => b.1)
      = some (K.MINALLOWED_VERGENCE * K.CTRL_DEG2RAD) ∧
    ((Controller.construct K lib none cd n e tmin tmax mv p).Int.lim.get? 5).map (fun b => b.1)
      = some (K.MINALLOWED_VERGENCE * K.CTRL_DEG2RAD) ∧
    (Controller.construct K lib none cd n e tmin tmax mv p).fbHead.getD 5 0
      = K.MINALLOWED_VERGENCE * K.CTRL_DEG2RAD ∧
    (Controller.construct K lib none cd n e tmin tmax mv p).Int.y.getD 5 0
      = K.MINALLOWED_VERGENCE * K.CTRL_DEG2RAD ∧
    0 < (Controller.construct K lib none cd n e tmin tmax mv p).fbHead.getD 5 0 := by
  obtain ⟨s1, s2, s3⟩ := construct_Int_sim K lib cd n e tmin tmax mv p
  have hfb : (Controller.construct K lib none cd n e tmin tmax mv p).fbHead.getD 5 0
      = K.MINALLOWED_VERGENCE * K.CTRL_DEG2RAD := by
    rw [s2]
    simp [List.replicate]
  refine ⟨?_, ?_, hfb, ?_, ?_⟩
  · rw [construct_Int_robot]
    exact setLimMin_same _ _ _ hrow
  · rw [s1]
    exact simLim_vergence K lib.chainNeck
  · rw [s3]
    exact hfb
  · rw [hfb]
    exact hpos

/-- Instance of the amended C22 on the robot of its counterexample. -/
theorem construct_vergence_bound_witness :
    drvPos.nJointsHead - 1 < drvPos.lim.length ∧
    0 < K0.MINALLOWED_VERGENCE * K0.CTRL_DEG2RAD ∧
    ((Controller.construct K0 lib0 (some drvPos) cd0 (1 / 10) (1 / 2) 0 0 (1 / 10) 20).Int.lim.get?
        (drvPos.nJointsHead - 1)).map (fun b => b.1)
      = some (K0.MINALLOWED_VERGENCE * K0.CTRL_DEG2RAD) ∧
    ((Controller.construct K0 lib0 none cd0 (1 / 10) (1 / 2) 0 0 (1 / 10) 20).Int.lim.get? 5).map
        (fun b => b.1)
      = some (K0.MINALLOWED_VERGENCE * K0.CTRL_DEG2RAD) ∧
    (Controller.construct K0 lib0 none cd0 (1 / 10) (1 / 2) 0 0 (1 / 10) 20).fbHead.getD 5 0
      = K0.MINALLOWED_VERGENCE * K0.CTRL_DEG2RAD ∧
    (Controller.construct K0 lib0 none cd0 (1 / 10) (1 / 2) 0 0 (1 / 10) 20).Int.y.getD 5 0
      = K0.MINALLOWED_VERGENCE * K0.CTRL_DEG2RAD ∧
    0 < (Controller.construct K0 lib0 none cd0 (1 / 10) (1 / 2) 0 0 (1 / 10) 20).fbHead.getD 5 0 :=
  ⟨by with_unfolding_all decide, by with_unfolding_all decide,
    construct_vergence_bound K0 lib0 drvPos cd0 (1 / 10) (1 / 2) 0 0 (1 / 10) 20
      (by with_unfolding_all decide) (by with_unfolding_all decide)⟩

end GazeCtrl

namespace SkinDynLib

/-! ## Contacts: theorems -/

theorem normSq_div {α : Type} [Field α] (v : List α) (n : α) :
    normSq (v.map (fun x => x / n)) = normSq v / (n * n) := by
  unfold normSq
  induction v with
  | nil => simp
  | cons x xs ih =>
    simp only [List.map_cons, List.sum_cons] at ih ⊢
    rw [ih]
    by_cases hn : n = 0
    · simp [hn]
    · field_simp

theorem map_mul_div {α : Type} [Field α] (v : List α) (n : α) (hn : n ≠ 0) :
    (v.map (fun x => x / n)).map (fun x => n * x) = v := by
  rw [List.map_map]
  have : ((fun x => n * x) ∘ fun x => x / n) = id := by
    funext x
    simp only [Function.comp, id]
    field_simp
  rw [this, List.map_id]

theorem checkVectorDim_iff {α : Type} (v : List α) (dim : Nat) :
    dynContact.checkVectorDim v dim = true ↔ v.length = dim := by
  unfold dynContact.checkVectorDim
  by_cases h : v.length = dim <;> simp [h]

/-- The force, its module and its direction after `setForce`, for a norm that
is exact on `F`. -/
theorem setForce_core {α : Type} [Field α] (nrm : List α → α) (c : dynContact α) (F : List α)
    (hF : F.length = 3) (hn : nrm F * nrm F = normSq F) (hne : nrm F ≠ 0)
    (hMu : c.Mu.length = 3) :
    (dynContact.setForce nrm c F).1 = true ∧
    (dynContact.setForce nrm c F).2.getForce = F ∧
    (dynContact.setForce nrm c F).2.getForceModule = nrm F ∧
    normSq (dynContact.setForce nrm c F).2.getForceDirection = 1 ∧
    (dynContact.setForce nrm c F).2.getForceMoment
      = (dynContact.setForce nrm c F).2.getForce ++ (dynContact.setForce nrm c F).2.getMoment := by
  have hchk : dynContact.checkVectorDim F 3 = true := (checkVectorDim_iff F 3).mpr hF
  have hset : dynContact.setForce nrm c F
      = (true, { c with Fmodule := nrm F, Fdir := F.map (fun x => x / nrm F) }) := by
    unfold dynContact.setForce
    simp [hchk]
  have hforce : (dynContact.setForce nrm c F).2.getForce = F := by
    rw [hset]
    exact map_mul_div F (nrm F) hne
  refine ⟨by rw [hset], hforce, by rw [hset]; rfl, ?_, ?_⟩
  · rw [hset]
    show normSq (F.map (fun x => x / nrm F)) = 1
    rw [normSq_div, ← hn]
    exact div_self (mul_ne_zero hne hne)
  · unfold dynContact.getForceMoment
    rw [hforce]
    have hMu2 : (dynContact.setForce nrm c F).2.Mu = c.Mu := by rw [hset]
    unfold dynContact.getMoment
    rw [hMu2]
    rcases F with _ | ⟨a, _ | ⟨b, _ | ⟨d, _ | ⟨e, t⟩⟩⟩⟩ <;> simp at hF
    generalize c.Mu = M at hMu
    rcases M with _ | ⟨a', _ | ⟨b', _ | ⟨d', _ | ⟨e', t'⟩⟩⟩⟩ <;> simp at hMu
    simp

/-- The round trip of `setForce` on the reals, with the Euclidean norm: it
holds for every 3-vector whose norm is not zero. -/
theorem setForce_real (c : dynContact ℝ) (F : List ℝ) (hF : F.length = 3)
    (hne : Real.sqrt (normSq F) ≠ 0) (hMu : c.Mu.length = 3) :
    (dynContact.setForce (fun v => Real.sqrt (normSq v)) c F).1 = true ∧
    (dynContact.setForce (fun v => Real.sqrt (normSq v)) c F).2.getForce = F ∧
    (dynContact.setForce (fun v => Real.sqrt (normSq v)) c F).2.getForceModule
      = Real.sqrt (normSq F) ∧
    normSq (dynContact.setForce (fun v => Real.sqrt (normSq v)) c F).2.getForceDirection = 1 := by
  have hpos : 0 ≤ normSq F := by
    unfold normSq
    apply List.sum_nonneg
    intro x hx
    obtain ⟨y, -, rfl⟩ := List.mem_map.mp hx
    exact mul_self_nonneg y
  obtain ⟨h1, h2, h3, h4, -⟩ := setForce_core (fun v => Real.sqrt (normSq v)) c F hF
    (Real.mul_self_sqrt hpos) hne hMu
  exact ⟨h1, h2, h3, h4⟩

/-- C24, as stated, fails on a contact built without moment: the constructor
`dynContact()` leaves the moment empty, so after `setForce([3,4,0])`
`getForce()` followed by `getMoment()` has three entries, while
`getForceMoment()` has six. -/
theorem getForceMoment_without_moment :
    contactDefault.getMoment = [] ∧
    (dynContact.setForce nrm0 contactDefault [3, 4, 0]).1 = true ∧
    (dynContact.setForce nrm0 contactDefault [3, 4, 0]).2.getForce = [3, 4, 0] ∧
    (dynContact.setForce nrm0 contactDefault [3, 4, 0]).2.getMoment = [] ∧
    (dynContact.setForce nrm0 contactDefault [3, 4, 0]).2.getForceMoment.length = 6 ∧
    (dynContact.setForce nrm0 contactDefault [3, 4, 0]).2.getForceMoment
      ≠ (dynContact.setForce nrm0 contactDefault [3, 4, 0]).2.getForce
        ++ (dynContact.setForce nrm0 contactDefault [3, 4, 0]).2.getMoment := by
  with_unfolding_all decide

/-- C24, amended: round trip of `setForce`.  For every 3-vector `F` whose norm
is not zero, `setForce(F)` returns true and then `getForceModule()` is the norm
of `F`, `getForceDirection()` is `F/norm(F)` and `getForce()` is
`norm(F)*(F/norm(F))` entry by entry, which in exact arithmetic is `F`; the
direction has unit norm when the norm is exact on `F` (its square is the sum of
the squares); the moment is as it was, and when it has its three entries
`getForceMoment()` is `getForce()` followed by `getMoment()`. -/
theorem setForce_roundtrip {α : Type} [Field α] (nrm : List α → α) (c : dynContact α)
    (F : List α) (hF : F.length = 3) (hne : nrm F ≠ 0) :
    (dynContact.setForce nrm c F).1 = true ∧
    (dynContact.setForce nrm c F).2.getForceModule = nrm F ∧
    (dynContact.setForce nrm c F).2.getForceDirection = F.map (fun x => x / nrm F) ∧
    (dynContact.setForce nrm c F).2.getForce = F.map (fun x => nrm F * (x / nrm F)) ∧
    (dynContact.setForce nrm c F).2.getForce = F ∧
    (nrm F * nrm F = normSq F →
      normSq (dynContact.setForce nrm c F).2.getForceDirection = 1) ∧
    (dynContact.setForce nrm c F).2.getMoment = c.getMoment ∧
    (c.Mu.length = 3 →
      (dynContact.setForce nrm c F).2.getForceMoment
        = (dynContact.setForce nrm c F).2.getForce
          ++ (dynContact.setForce nrm c F).2.getMoment) := by
  have hchk : dynContact.checkVectorDim F 3 = true := (checkVectorDim_iff F 3).mpr hF
  have hset : dynContact.setForce nrm c F
      = (true, { c with Fmodule := nrm F, Fdir := F.map (fun x => x / nrm F) }) := by
    unfold dynContact.setForce
    simp [hchk]
  have hforce : (dynContact.setForce nrm c F).2.getForce = F := by
    rw [hset]
    exact map_mul_div F (nrm F) hne
  refine ⟨by rw [hset], by rw [hset]; rfl, by rw [hset]; rfl, ?_, hforce, ?_, by rw [hset]; rfl,
    ?_⟩
  · rw [hset]
    show (F.map (fun x => x / nrm F)).map (fun x => nrm F * x) = _
    rw [List.map_map]
    rfl
  · intro hn
    rw [hset]
    show normSq (F.map (fun x => x / nrm F)) = 1
    rw [normSq_div, ← hn]
    exact div_self (mul_ne_zero hne hne)
  · intro hMu
    unfold dynContact.getForceMoment
    rw [hforce]
    have hMu2 : (dynContact.setForce nrm c F).2.Mu = c.Mu := by rw [hset]
    unfold dynContact.getMoment
    rw [hMu2]
    rcases F with _ | ⟨a, _ | ⟨b, _ | ⟨d, _ | ⟨e, t⟩⟩⟩⟩ <;> simp at hF
    generalize c.Mu = M at hMu
    rcases M with _ | ⟨a', _ | ⟨b', _ | ⟨d', _ | ⟨e', t'⟩⟩⟩⟩ <;> simp at hMu
    simp

/-- Instance of the amended C24 on the rationals: the force `[3,4,0]`, of norm
`5`, on a contact whose moment has three entries. -/
theorem setForce_roundtrip_witness :
    ([3, 4, 0] : List ℚ).length = 3 ∧ nrm0 [3, 4, 0] ≠ 0 ∧
    nrm0 [3, 4, 0] * nrm0 [3, 4, 0] = normSq [3, 4, 0] ∧ contact0.Mu.length = 3 ∧
    (dynContact.setForce nrm0 contact0 [3, 4, 0]).2.getForceDirection = [3 / 5, 4 / 5, 0] ∧
    (dynContact.setForce nrm0 contact0 [3, 4, 0]).2.getForceMoment = [3, 4, 0, 0, 0, 0] ∧
    (dynContact.setForce nrm0 contact0 [3, 4, 0]).1 = true ∧
    (dynContact.setForce nrm0 contact0 [3, 4, 0]).2.getForceModule = nrm0 [3, 4, 0] ∧
    (dynContact.setForce nrm0 contact0 [3, 4, 0]).2.getForceDirection
      = ([3, 4, 0] : List ℚ).map (fun x => x / nrm0 [3, 4, 0]) ∧
    (dynContact.setForce nrm0 contact0 [3, 4, 0]).2.getForce
      = ([3, 4, 0] : List ℚ).map (fun x => nrm0 [3, 4, 0] * (x / nrm0 [3, 4, 0])) ∧
    (dynContact.setForce nrm0 contact0 [3, 4, 0]).2.getForce = [3, 4, 0] ∧
    (nrm0 [3, 4, 0] * nrm0 [3, 4, 0] = normSq [3, 4, 0] →
      normSq (dynContact.setForce nrm0 contact0 [3, 4, 0]).2.getForceDirection = 1) ∧
    (dynContact.setForce nrm0 contact0 [3, 4, 0]).2.getMoment = contact0.getMoment ∧
    (contact0.Mu.length = 3 →
      (dynContact.setForce nrm0 contact0 [3, 4, 0]).2.getForceMoment
        = (dynContact.setForce nrm0 contact0 [3, 4, 0]).2.getForce
          ++ (dynContact.setForce nrm0 contact0 [3, 4, 0]).2.getMoment) :=
  ⟨rfl, by with_unfolding_all decide, by with_unfolding_all decide, rfl,
    by with_unfolding_all decide, by with_unfolding_all decide,
    setForce_roundtrip nrm0 contact0 [3, 4, 0] rfl (by with_unfolding_all decide)⟩

theorem checkVectorDim_false_iff {α : Type} (v : List α) (dim : Nat) :
    (!dynContact.checkVectorDim v dim) = true ↔ v.length ≠ dim := by
  unfold dynContact.checkVectorDim
  by_cases h : v.length = dim <;> simp [h]

/-- C25: the validation of the dimension is atomic.  Each of `setForce`,
`setForceDirection`, `setMoment` and `setCoP` returns false exactly when its
argument does not have length 3, and then leaves the whole contact as it was;
`fixMoment(Mu)` and `fixForceDirection(Fdir)` return what the setter returns,
set their flag to true when it succeeds and leave the contact, flag included,
as it was when it fails. -/
theorem setters_validate_dimension {α : Type} [Field α] (nrm : List α → α)
    (c : dynContact α) (v : List α) :
    (((dynContact.setForce nrm c v).1 = false ↔ v.length ≠ 3) ∧
      (v.length ≠ 3 → (dynContact.setForce nrm c v).2 = c)) ∧
    (((dynContact.setForceDirection nrm c v).1 = false ↔ v.length ≠ 3) ∧
      (v.length ≠ 3 → (dynContact.setForceDirection nrm c v).2 = c)) ∧
    (((dynContact.setMoment c v).1 = false ↔ v.length ≠ 3) ∧
      (v.length ≠ 3 → (dynContact.setMoment c v).2 = c)) ∧
    (((dynContact.setCoP c v).1 = false ↔ v.length ≠ 3) ∧
      (v.length ≠ 3 → (dynContact.setCoP c v).2 = c)) ∧
    ((dynContact.fixMoment c v).1 = (dynContact.setMoment c v).1 ∧
      (v.length = 3 → (dynContact.fixMoment c v).2.muKnown = true ∧
        (dynContact.fixMoment c v).2.Mu = v) ∧
      (v.length ≠ 3 → (dynContact.fixMoment c v).2 = c)) ∧
    ((dynContact.fixForceDirection nrm c v).1 = (dynContact.setForceDirection nrm c v).1 ∧
      (v.length = 3 → (dynContact.fixForceDirection nrm c v).2.fDirKnown = true) ∧
      (v.length ≠ 3 → (dynContact.fixForceDirection nrm c v).2 = c)) := by
  by_cases h : v.length = 3
  · have hc : dynContact.checkVectorDim v 3 = true := (checkVectorDim_iff v 3).mpr h
    simp [dynContact.setForce, dynContact.setForceDirection, dynContact.setMoment,
      dynContact.setCoP, dynContact.fixMoment, dynContact.fixForceDirection, hc, h]
  · have hc : dynContact.checkVectorDim v 3 = false := by
      have := (checkVectorDim_false_iff v 3).mpr h
      simpa using this
    simp [dynContact.setForce, dynContact.setForceDirection, dynContact.setMoment,
      dynContact.setCoP, dynContact.fixMoment, dynContact.fixForceDirection, hc, h]

end SkinDynLib

namespace SkinDriftCompensation

/-! ## Compensator: list lemmas -/

theorem getD_set {α : Type} (l : List α) (i j : Nat) (a d : α) :
    (l.set i a).getD j d = if i = j ∧ j < l.length then a else l.getD j d := by
  simp only [List.getD_eq_getElem?_getD, List.getElem?_set]
  by_cases h : i = j
  · subst h
    by_cases h2 : i < l.length
    · simp [h2]
    · simp [h2, List.getElem?_eq_none (not_lt.mp h2)]
  · simp [h]

/-- Removing the head of a filtered duplicate-free list by a further test. -/
theorem filter_and_ne_head (p : Nat → Bool) (l : List Nat) (hl : l.Nodup) (i : Nat)
    (t : List Nat) (h : l.filter p = i :: t) :
    l.filter (fun j => p j && !decide (j = i)) = t := by
  have hnd : (i :: t).Nodup := h ▸ hl.filter p
  have hi : i ∉ t := (List.nodup_cons.mp hnd).1
  have h1 : l.filter (fun j => p j && !decide (j = i))
      = (l.filter p).filter (fun j => !decide (j = i)) := by
    rw [List.filter_filter]
    congr 1
    funext j
    exact Bool.and_comm _ _
  rw [h1, h]
  simp only [List.filter_cons, decide_True, Bool.not_true, Bool.false_eq_true, if_false]
  apply List.filter_eq_self.mpr
  intro a ha
  have : a ≠ i := fun e => hi (e ▸ ha)
  simp [this]

/-! ## Smoothing factor: theorems -/

/-- C26: `setSmoothFactor` accepts exactly the values of `[0,1]`.  It returns
false, leaving the compensator as it was, if and only if `value < 0` or
`value > 1`; on success the stored factor is `value`, except that 1 is stored as
0.99, so the stored factor is then at least 0 and strictly below 1, and the
weight `1 - smoothFactor` of the new sample in the filter is positive. -/
theorem setSmoothFactor_accepts (c : Compensator) (value : ℚ) :
    ((Compensator.setSmoothFactor c value).1 = false ↔ (value < 0 ∨ value > 1)) ∧
    ((value < 0 ∨ value > 1) → (Compensator.setSmoothFactor c value).2 = c) ∧
    (¬(value < 0 ∨ value > 1) →
      (Compensator.setSmoothFactor c value).2
        = { c with smoothFactor := if value = 1 then 99 / 100 else value }) ∧
    ((Compensator.setSmoothFactor c value).1 = true →
      0 ≤ (Compensator.setSmoothFactor c value).2.smoothFactor ∧
      (Compensator.setSmoothFactor c value).2.smoothFactor < 1 ∧
      0 < 1 - (Compensator.setSmoothFactor c value).2.smoothFactor) := by
  by_cases h : value < 0 ∨ value > 1
  · simp [Compensator.setSmoothFactor, h]
  · have h0 : 0 ≤ value := not_lt.mp (fun h0 => h (Or.inl h0))
    have h1 : value ≤ 1 := not_lt.mp (fun h1 => h (Or.inr h1))
    refine ⟨by simp [Compensator.setSmoothFactor, h], fun h2 => absurd h2 h,
      fun _ => by simp [Compensator.setSmoothFactor, h], fun _ => ?_⟩
    simp only [Compensator.setSmoothFactor, if_neg h]
    by_cases e : value = 1
    · simp only [if_pos e]
      norm_num
    · simp only [if_neg e]
      have : value < 1 := lt_of_le_of_ne h1 e
      exact ⟨h0, this, by linarith⟩

/-! ## Saturated taxels: theorems -/

theorem exceedFrom_eq_head (K : SkinConsts) (c : Compensator) (l : List Nat) :
    Compensator.exceedFrom K c l
      = (l.filter (fun i => Compensator.exceeds K c i && !c.saturatedTaxels.contains i)).head? := by
  induction l with
  | nil => rfl
  | cons i rest ih =>
    rw [Compensator.exceedFrom, ih, List.filter_cons]
    by_cases h1 : Compensator.exceeds K c i = true
    · by_cases h2 : i ∈ c.saturatedTaxels
      · simp [h1, h2]
      · simp [h1, h2]
    · simp [h1]

theorem doesBaselineExceed_eq (K : SkinConsts) (c : Compensator) :
    Compensator.doesBaselineExceed K c
      = match (pendingTaxels K c).head? with
        | some i => (some (i, c.baselines.getD i 0, c.initialBaselines.getD i 0),
            { c with saturatedTaxels := c.saturatedTaxels ++ [i] })
        | none => (none, c) := by
  simp only [Compensator.doesBaselineExceed, exceedFrom_eq_head, pendingTaxels]

theorem mem_pendingTaxels (K : SkinConsts) (c : Compensator) (i : Nat) :
    i ∈ pendingTaxels K c
      ↔ i < c.skinDim ∧ Compensator.exceeds K c i = true ∧ i ∉ c.saturatedTaxels := by
  simp [pendingTaxels, List.mem_filter, List.mem_range]

theorem pendingTaxels_sorted (K : SkinConsts) (c : Compensator) :
    (pendingTaxels K c).Sorted (fun a b => a < b) :=
  List.Sorted.filter _ (List.sorted_lt_range c.skinDim)

theorem pendingTaxels_after (K : SkinConsts) (c : Compensator) (i : Nat) (t : List Nat)
    (h : pendingTaxels K c = i :: t) :
    pendingTaxels K { c with saturatedTaxels := c.saturatedTaxels ++ [i] } = t := by
  have := filter_and_ne_head
    (fun j => Compensator.exceeds K c j && !c.saturatedTaxels.contains j)
    (List.range c.skinDim) (List.nodup_range c.skinDim) i t h
  rw [← this]
  simp only [pendingTaxels, Compensator.exceeds]
  congr 1
  funext j
  by_cases e : j = i <;> simp [e, Bool.and_assoc]

theorem exceedCalls_inv (K : SkinConsts) (c : Compensator) (n : Nat) :
    exceedCalls K c n
        = { c with saturatedTaxels := c.saturatedTaxels ++ (pendingTaxels K c).take n } ∧
    pendingTaxels K (exceedCalls K c n) = (pendingTaxels K c).drop n := by
  induction n with
  | zero => simp [exceedCalls]
  | succ n ih =>
    obtain ⟨hc, hp⟩ := ih
    have hhead : (pendingTaxels K (exceedCalls K c n)).head? = (pendingTaxels K c)[n]? := by
      rw [hp, List.head?_drop]
    simp only [exceedCalls]
    rw [doesBaselineExceed_eq, hhead]
    cases hn : (pendingTaxels K c)[n]? with
    | none =>
      have hlen : (pendingTaxels K c).length ≤ n := List.getElem?_eq_none_iff.mp hn
      simp only []
      refine ⟨?_, ?_⟩
      · rw [hc, List.take_of_length_le hlen, List.take_of_length_le (Nat.le_succ_of_le hlen)]
      · rw [hp, List.drop_of_length_le hlen, List.drop_of_length_le (Nat.le_succ_of_le hlen)]
    | some i =>
      have hcons : pendingTaxels K (exceedCalls K c n) = i :: (pendingTaxels K c).drop (n + 1) := by
        rw [hp]
        have hlt : n < (pendingTaxels K c).length := by
          by_contra hge
          rw [List.getElem?_eq_none (not_lt.mp hge)] at hn
          exact Option.noConfusion hn
        rw [List.drop_eq_getElem_cons hlt]
        congr 1
        rw [List.getElem?_eq_getElem hlt] at hn
        exact Option.some.inj hn
      simp only []
      refine ⟨?_, pendingTaxels_after K _ i _ hcons⟩
      rw [List.take_succ, hn, hc]
      simp

theorem exceeds_iff (K : SkinConsts) (c : Compensator) (i : Nat) :
    Compensator.exceeds K c i = true
      ↔ ¬(c.minBaseline ≤ c.baselines.getD i 0
          ∧ c.baselines.getD i 0 ≤ (K.MAX_SKIN : ℚ) - c.minBaseline) := by
  simp only [Compensator.exceeds, decide_eq_true_eq, not_and_or, not_le]

theorem head_least (l : List Nat) (hs : l.Sorted (fun a b => a < b)) (i : Nat) (t : List Nat)
    (h : l = i :: t) (j : Nat) (hj : j ∈ l) : i ≤ j := by
  subst h
  rcases List.mem_cons.mp hj with e | e
  · exact le_of_eq e.symm
  · exact le_of_lt (List.rel_of_sorted_cons hs j e)

/-- C30: `doesBaselineExceed` reports each saturated taxel once.  It returns
true if and only if some taxel whose baseline is out of
`[minBaseline, MAX_SKIN - minBaseline]` is not yet in `saturatedTaxels`; it then
reports the lowest such index with its baseline and its initial baseline and
appends the index to `saturatedTaxels` (nothing else changes), and it changes
nothing when it returns false; `saturatedTaxels` stays free of duplicates; in a
row of calls the call number `n` reports the `n`-th pending taxel, in increasing
index order, each one once, and the calls after the last one return false. -/
theorem doesBaselineExceed_reports_once (K : SkinConsts) (c : Compensator) :
    (((Compensator.doesBaselineExceed K c).1.isSome = true
      ↔ ∃ i, i < c.skinDim ∧ i ∉ c.saturatedTaxels ∧
          ¬(c.minBaseline ≤ c.baselines.getD i 0
            ∧ c.baselines.getD i 0 ≤ (K.MAX_SKIN : ℚ) - c.minBaseline))) ∧
    (∀ i b b0, (Compensator.doesBaselineExceed K c).1 = some (i, b, b0) →
      i < c.skinDim ∧ Compensator.exceeds K c i = true ∧ i ∉ c.saturatedTaxels ∧
      (∀ j, j < i → ¬(Compensator.exceeds K c j = true ∧ j ∉ c.saturatedTaxels)) ∧
      b = c.baselines.getD i 0 ∧ b0 = c.initialBaselines.getD i 0 ∧
      (Compensator.doesBaselineExceed K c).2
        = { c with saturatedTaxels := c.saturatedTaxels ++ [i] }) ∧
    ((Compensator.doesBaselineExceed K c).1 = none → (Compensator.doesBaselineExceed K c).2 = c) ∧
    (c.saturatedTaxels.Nodup → (Compensator.doesBaselineExceed K c).2.saturatedTaxels.Nodup) ∧
    (∀ n, exceedReport K c n
        = ((pendingTaxels K c)[n]?).map
            (fun i => (i, c.baselines.getD i 0, c.initialBaselines.getD i 0)) ∧
      (exceedCalls K c n).saturatedTaxels = c.saturatedTaxels ++ (pendingTaxels K c).take n ∧
      (exceedCalls K c n).baselines = c.baselines) ∧
    (∀ n, (pendingTaxels K c).length ≤ n → exceedReport K c n = none) ∧
    (pendingTaxels K c).Sorted (fun a b => a < b) ∧
    (∀ i, i ∈ pendingTaxels K c
      ↔ i < c.skinDim ∧ i ∉ c.saturatedTaxels ∧
          ¬(c.minBaseline ≤ c.baselines.getD i 0
            ∧ c.baselines.getD i 0 ≤ (K.MAX_SKIN : ℚ) - c.minBaseline)) := by
  have hmem : ∀ i, i ∈ pendingTaxels K c
      ↔ i < c.skinDim ∧ i ∉ c.saturatedTaxels ∧
          ¬(c.minBaseline ≤ c.baselines.getD i 0
            ∧ c.baselines.getD i 0 ≤ (K.MAX_SKIN : ℚ) - c.minBaseline) := by
    intro i
    rw [mem_pendingTaxels, exceeds_iff]
    tauto
  have hrep : ∀ n, exceedReport K c n
        = ((pendingTaxels K c)[n]?).map
            (fun i => (i, c.baselines.getD i 0, c.initialBaselines.getD i 0)) := by
    intro n
    obtain ⟨hc, hp⟩ := exceedCalls_inv K c n
    have hhead : (pendingTaxels K (exceedCalls K c n)).head? = (pendingTaxels K c)[n]? := by
      rw [hp, List.head?_drop]
    simp only [exceedReport]
    rw [doesBaselineExceed_eq, hhead, hc]
    cases (pendingTaxels K c)[n]? <;> rfl
  refine ⟨?_, ?_, ?_, ?_, ?_, ?_, pendingTaxels_sorted K c, hmem⟩
  · rw [doesBaselineExceed_eq]
    constructor
    · intro h
      cases hh : (pendingTaxels K c).head? with
      | none => rw [hh] at h; simp at h
      | some i => exact ⟨i, (hmem i).mp (List.mem_of_mem_head? hh)⟩
    · rintro ⟨i, hi⟩
      have hin : i ∈ pendingTaxels K c := (hmem i).mpr hi
      cases hh : (pendingTaxels K c).head? with
      | none =>
        rw [List.head?_eq_none_iff] at hh
        rw [hh] at hin
        exact absurd hin (List.not_mem_nil i)
      | some k => rfl
  · intro i b b0 h
    rw [doesBaselineExceed_eq] at h ⊢
    cases hh : (pendingTaxels K c).head? with
    | none => rw [hh] at h; simp at h
    | some k =>
      rw [hh] at h
      simp only [Option.some.injEq, Prod.mk.injEq] at h
      obtain ⟨rfl, rfl, rfl⟩ := h
      have hin := (mem_pendingTaxels K c k).mp (List.mem_of_mem_head? hh)
      obtain ⟨t, ht⟩ : ∃ t, pendingTaxels K c = k :: t := by
        cases hl : pendingTaxels K c with
        | nil => rw [hl] at hh; simp at hh
        | cons a t =>
          rw [hl] at hh
          simp only [List.head?_cons, Option.some.injEq] at hh
          exact ⟨t, by rw [hh]⟩
      refine ⟨hin.1, hin.2.1, hin.2.2, ?_, rfl, rfl, rfl⟩
      intro j hj hcon
      have hjin : j ∈ pendingTaxels K c :=
        (mem_pendingTaxels K c j).mpr ⟨lt_trans hj hin.1, hcon.1, hcon.2⟩
      exact absurd (head_least _ (pendingTaxels_sorted K c) k t ht j hjin) (not_le.mpr hj)
  · intro h
    rw [doesBaselineExceed_eq] at h ⊢
    cases hh : (pendingTaxels K c).head? with
    | none => rfl
    | some k => rw [hh] at h; simp at h
  · intro hnd
    rw [doesBaselineExceed_eq]
    cases hh : (pendingTaxels K c).head? with
    | none => exact hnd
    | some k =>
      have hin := (mem_pendingTaxels K c k).mp (List.mem_of_mem_head? hh)
      simp only []
      rw [List.nodup_append]
      refine ⟨hnd, List.nodup_singleton k, ?_⟩
      intro a ha hb
      rw [List.mem_singleton] at hb
      exact hin.2.2 (hb ▸ ha)
  · intro n
    obtain ⟨hc, -⟩ := exceedCalls_inv K c n
    refine ⟨hrep n, ?_, ?_⟩
    · rw [hc]
    · rw [hc]
  · intro n hn
    rw [hrep n, List.getElem?_eq_none hn]
    rfl

/-! ## Baseline update: theorems -/

theorem untouchedCount_succ (c : Compensator) (n : Nat) :
    untouchedCount c (n + 1) = untouchedCount c n + (if untouched c n = true then 1 else 0) := by
  simp only [untouchedCount, List.range_succ, List.filter_append, List.length_append]
  by_cases h : untouched c n = true <;> simp [h]

theorem untouchedChange_succ (c : Compensator) (n : Nat) :
    untouchedChange c (n + 1)
      = untouchedChange c n + (if untouched c n = true then driftChange c n else 0) := by
  simp [untouchedChange, List.range_succ, List.map_append, List.sum_append]

theorem driftTaxel_eq (c : Compensator) (s : List ℚ × ℚ × Nat) (j : Nat) :
    Compensator.driftTaxel c s j
      = if untouched c j = true then
          (if |c.compensatedData.getD j 0| > 1 / 2 then s.1.set j (s.1.getD j 0 + driftChange c j)
            else s.1,
           s.2.1 + driftChange c j, s.2.2 + 1)
        else s := by
  unfold Compensator.driftTaxel untouched driftChange
  by_cases h1 : (!(c.touchDetected.getD j false || c.subTouchDetected.getD j false)) = true
  · by_cases h2 : |c.compensatedData.getD j 0| > 1 / 2
    · simp only [if_pos h1, if_pos h2]
    · simp only [if_pos h1, if_neg h2, add_zero]
  · simp only [if_neg h1]

theorem drift_fold (c : Compensator) (B : List ℚ) (n : Nat) :
    ((List.range n).foldl (Compensator.driftTaxel c) (B, 0, 0)).1.length = B.length ∧
    ((List.range n).foldl (Compensator.driftTaxel c) (B, 0, 0)).2.2 = untouchedCount c n ∧
    ((List.range n).foldl (Compensator.driftTaxel c) (B, 0, 0)).2.1 = untouchedChange c n ∧
    ∀ j, ((List.range n).foldl (Compensator.driftTaxel c) (B, 0, 0)).1.getD j 0
      = if j < n ∧ j < B.length ∧ untouched c j = true then B.getD j 0 + driftChange c j
        else B.getD j 0 := by
  induction n with
  | zero => simp [untouchedCount, untouchedChange]
  | succ n ih =>
    obtain ⟨h1, h2, h3, h4⟩ := ih
    rw [List.range_succ, List.foldl_append, List.foldl_cons, List.foldl_nil, driftTaxel_eq,
      untouchedCount_succ, untouchedChange_succ]
    by_cases hu : untouched c n = true
    · simp only [if_pos hu]
      refine ⟨?_, by rw [h2], by rw [h3], ?_⟩
      · by_cases hd : |c.compensatedData.getD n 0| > 1 / 2
        · simp only [if_pos hd, List.length_set, h1]
        · simp only [if_neg hd, h1]
      · intro j
        by_cases hd : |c.compensatedData.getD n 0| > 1 / 2
        · simp only [if_pos hd, getD_set, h1, h4]
          by_cases e : n = j
          · subst e
            by_cases hl : n < B.length
            · simp [hl, hu]
            · simp [hl]
          · have : ¬ (j < n + 1) ∨ j < n := by omega
            have e2 : j < n + 1 ↔ j < n := by omega
            simp [e, e2]
        · simp only [if_neg hd, h4]
          by_cases e : n = j
          · subst e
            have hz : driftChange c n = 0 := by
              unfold driftChange
              rw [if_neg hd]
            simp [hz]
          · have e2 : j < n + 1 ↔ j < n := by omega
            simp [e2]
    · simp only [if_neg hu, add_zero]
      refine ⟨h1, h2, h3, ?_⟩
      intro j
      rw [h4]
      by_cases e : n = j
      · subst e
        simp [hu]
      · have e2 : j < n + 1 ↔ j < n := by omega
        simp [e2]

theorem shift_fold (c : Compensator) (m : ℚ) (B : List ℚ) (n : Nat) :
    ((List.range n).foldl (Compensator.shiftTaxel c m) B).length = B.length ∧
    ∀ j, ((List.range n).foldl (Compensator.shiftTaxel c m) B).getD j 0
      = if j < n ∧ j < B.length ∧ c.touchDetected.getD j false = true then B.getD j 0 + m
        else B.getD j 0 := by
  induction n with
  | zero => simp
  | succ n ih =>
    obtain ⟨h1, h4⟩ := ih
    have hstep : ∀ b : List ℚ, Compensator.shiftTaxel c m b n
        = if c.touchDetected.getD n false = true then b.set n (b.getD n 0 + m) else b :=
      fun _ => rfl
    rw [List.range_succ, List.foldl_append, List.foldl_cons, List.foldl_nil, hstep]
    by_cases ht : c.touchDetected.getD n false = true
    · simp only [if_pos ht]
      have ht2 := ht
      simp only [List.getD_eq_getElem?_getD] at ht2
      refine ⟨by rw [List.length_set, h1], ?_⟩
      intro j
      simp only [getD_set, h1, h4]
      by_cases e : n = j
      · subst e
        by_cases hl : n < B.length
        · simp [hl, ht2]
        · simp [hl]
      · have e2 : j < n + 1 ↔ j < n := by omega
        simp [e, e2]
    · simp only [if_neg ht]
      have ht2 := ht
      simp only [List.getD_eq_getElem?_getD] at ht2
      refine ⟨h1, ?_⟩
      intro j
      rw [h4]
      by_cases e : n = j
      · subst e
        simp [ht2]
      · have e2 : j < n + 1 ↔ j < n := by omega
        simp [e2]

theorem untouched_of_touch (c : Compensator) (j : Nat)
    (h : c.touchDetected.getD j false = true) : untouched c j = false := by
  unfold untouched
  rw [h]
  rfl

theorem untouched_of_sub (c : Compensator) (j : Nat)
    (h : c.subTouchDetected.getD j false = true) : untouched c j = false := by
  unfold untouched
  rw [h, Bool.or_true]
  rfl

theorem untouched_of_neither (c : Compensator) (j : Nat)
    (h1 : ¬c.touchDetected.getD j false = true) (h2 : ¬c.subTouchDetected.getD j false = true) :
    untouched c j = true := by
  simp only [Bool.not_eq_true] at h1 h2
  unfold untouched
  rw [h1, h2]
  rfl

/-- C29: the drift rule of `updateBaseline`.  For every taxel `j` (the baseline
vector having its `skinDim` entries) the new baseline is the old one plus: the
common shift `touchShift` for a touched taxel (the mean of the drift steps of
the untouched taxels, or nothing when no taxel or every taxel is untouched or
the sum of the steps is zero); nothing for a taxel with sub-touch and no touch;
and for a taxel with neither, `(compensationGain/50)*d/touchThresholds[j]` when
`|d| > 0.5` and nothing when `|d| <= 0.5`.  Only the baselines change. -/
theorem updateBaseline_drift_rule (c : Compensator) (j : Nat) (hj : j < c.skinDim)
    (hlen : c.baselines.length = c.skinDim) :
    (Compensator.updateBaseline c).baselines.getD j 0
      = c.baselines.getD j 0
        + (if c.touchDetected.getD j false = true then touchShift c
           else if c.subTouchDetected.getD j false = true then 0
           else if |c.compensatedData.getD j 0| > 1 / 2
             then (c.compensationGain / 50) * c.compensatedData.getD j 0
                    / c.touchThresholds.getD j 0
             else 0) ∧
    (Compensator.updateBaseline c).baselines.length = c.skinDim ∧
    Compensator.updateBaseline c
      = { c with baselines := (Compensator.updateBaseline c).baselines } := by
  obtain ⟨d1, d2, d3, d4⟩ := drift_fold c c.baselines c.skinDim
  have hjl : j < c.baselines.length := hlen ▸ hj
  have hD : ((List.range c.skinDim).foldl (Compensator.driftTaxel c) (c.baselines, 0, 0)).1.getD j 0
      = c.baselines.getD j 0
        + (if c.touchDetected.getD j false = true then 0
           else if c.subTouchDetected.getD j false = true then 0
           else if |c.compensatedData.getD j 0| > 1 / 2
             then (c.compensationGain / 50) * c.compensatedData.getD j 0
                    / c.touchThresholds.getD j 0
             else 0) := by
    rw [d4 j]
    by_cases ht : c.touchDetected.getD j false = true
    · rw [if_pos ht, if_neg (by simp [untouched_of_touch c j ht]), add_zero]
    · by_cases hs : c.subTouchDetected.getD j false = true
      · rw [if_neg ht, if_pos hs, if_neg (by simp [untouched_of_sub c j hs]), add_zero]
      · rw [if_neg ht, if_neg hs, if_pos ⟨hj, hjl, untouched_of_neither c j ht hs⟩]
        rfl
  unfold Compensator.updateBaseline
  simp only [d2, d3]
  by_cases hc : 0 < untouchedCount c c.skinDim ∧ untouchedCount c c.skinDim < c.skinDim
      ∧ untouchedChange c c.skinDim ≠ 0
  · rw [if_pos hc]
    obtain ⟨s1, s4⟩ := shift_fold c (untouchedChange c c.skinDim / (untouchedCount c c.skinDim : ℚ))
      ((List.range c.skinDim).foldl (Compensator.driftTaxel c) (c.baselines, 0, 0)).1 c.skinDim
    refine ⟨?_, by rw [s1, d1, hlen], rfl⟩
    simp only []
    rw [s4 j, hD, d1]
    by_cases ht : c.touchDetected.getD j false = true
    · rw [if_pos ⟨hj, hjl, ht⟩, if_pos ht, if_pos ht, add_zero]
      simp only [touchShift, if_pos hc]
    · rw [if_neg (fun h => ht h.2.2), if_neg ht, if_neg ht]
  · rw [if_neg hc]
    refine ⟨?_, by rw [d1, hlen], rfl⟩
    simp only []
    rw [hD]
    by_cases ht : c.touchDetected.getD j false = true
    · rw [if_pos ht, if_pos ht]
      simp only [touchShift, if_neg hc]
    · rw [if_neg ht, if_neg ht]

/-- Instance of the drift rule on the sample with one touched taxel: the
untouched third taxel moves by `1/20` and the touched first one by the same
mean, the second (sub-touch) stays. -/
theorem updateBaseline_drift_rule_witness :
    0 < compTouch.skinDim ∧ compTouch.baselines.length = compTouch.skinDim ∧
    (Compensator.updateBaseline compTouch).baselines = [1 + 1 / 20, 2, 3 + 1 / 20] ∧
    ((Compensator.updateBaseline compTouch).baselines.getD 0 0
      = compTouch.baselines.getD 0 0
        + (if compTouch.touchDetected.getD 0 false = true then touchShift compTouch
           else if compTouch.subTouchDetected.getD 0 false = true then 0
           else if |compTouch.compensatedData.getD 0 0| > 1 / 2
             then (compTouch.compensationGain / 50) * compTouch.compensatedData.getD 0 0
                    / compTouch.touchThresholds.getD 0 0
             else 0) ∧
    (Compensator.updateBaseline compTouch).baselines.length = compTouch.skinDim ∧
    Compensator.updateBaseline compTouch
      = { compTouch with baselines := (Compensator.updateBaseline compTouch).baselines }) :=
  ⟨by decide, rfl, by with_unfolding_all decide,
    updateBaseline_drift_rule compTouch 0 (by decide) rfl⟩

/-! ## Compensated output: theorems -/

theorem smoothed_eq (K : SkinConsts) (c : Compensator) (raw : List ℚ) (i : Nat) :
    smoothed K c raw i = smoothWith c (compensated K c raw i) (c.compensatedDataOld.getD i 0) :=
  rfl

theorem binarized_eq (K : SkinConsts) (c : Compensator) (raw : List ℚ) (i : Nat) :
    max 0 (binarized K c raw i) = sendValue K c i (smoothed K c raw i) := rfl

theorem compensateTaxel_loopState (K : SkinConsts) (raw : List ℚ) (c : Compensator)
    (cd : List ℚ) (td sd : List Bool) (old : List ℚ) (tf : List Bool) (out : List ℚ) (i : Nat) :
    Compensator.compensateTaxel K raw (loopState c cd td sd old tf, out) i
      = (loopState c (cd ++ [compensated K c raw i])
          (td.set i (decide (compensated K c raw i > touchLevel c i)))
          (sd.set i (decide (compensated K c raw i < -(touchLevel c i))))
          (if c.smoothFilter
            then old.set i (smoothWith c (compensated K c raw i) (old.getD i 0)) else old)
          (tf.set i (decide (smoothWith c (compensated K c raw i) (old.getD i 0) > touchLevel c i))),
         out ++ [sendValue K c i (smoothWith c (compensated K c raw i) (old.getD i 0))]) := by
  have hmax : ∀ x : ℚ, (if x < 0 then 0 else x) = max 0 x := by
    intro x
    by_cases h : x < 0
    · rw [if_pos h, max_eq_left (le_of_lt h)]
    · rw [if_neg h, max_eq_right (not_lt.mp h)]
  have hneg : ∀ a b : ℚ, -a - b = -(a + b) := by
    intro a b
    ring
  have hdec : ∀ (p : Prop) [Decidable p], (if p then true else false) = decide p := by
    intro p _
    by_cases h : p <;> simp [h]
  have hbin : ∀ (p : Prop) [Decidable p] (b : Bool) (x y z : ℚ),
      (if p then (if b = true then x else z) else (if b = true then y else z))
        = if b = true then (if p then x else y) else z := by
    intro p _ b x y z
    by_cases h : p <;> by_cases hb : b = true <;> simp [h, hb]
  simp only [Compensator.compensateTaxel, loopState, compensated, smoothWith, sendValue,
    touchLevel, hmax, hneg, hdec, hbin]

/-- One more step of a loop that writes `f i` at index `i`. -/
theorem set_step {α : Type} (l0 l : List α) (f : Nat → α) (d : α) (n : Nat)
    (hlen : l.length = l0.length)
    (h : ∀ j, l.getD j d = if j < n ∧ j < l0.length then f j else l0.getD j d) (j : Nat) :
    (l.set n (f n)).getD j d = if j < n + 1 ∧ j < l0.length then f j else l0.getD j d := by
  rw [getD_set, hlen, h j]
  by_cases e : n = j
  · subst e
    by_cases hl : n < l0.length
    · simp [hl]
    · simp [hl]
  · have e2 : j < n + 1 ↔ j < n := by omega
    simp [e, e2]

theorem compensate_fold (K : SkinConsts) (raw : List ℚ) (c : Compensator) (n : Nat) :
    ∃ td sd old tf,
      (List.range n).foldl (Compensator.compensateTaxel K raw) (c, [])
        = (loopState c (c.compensatedData ++ (List.range n).map (compensated K c raw))
            td sd old tf,
           (List.range n).map (fun i => max 0 (binarized K c raw i))) ∧
      td.length = c.touchDetected.length ∧
      (∀ j, td.getD j false
        = if j < n ∧ j < c.touchDetected.length
          then decide (compensated K c raw j > touchLevel c j)
          else c.touchDetected.getD j false) ∧
      sd.length = c.subTouchDetected.length ∧
      (∀ j, sd.getD j false
        = if j < n ∧ j < c.subTouchDetected.length
          then decide (compensated K c raw j < -(touchLevel c j))
          else c.subTouchDetected.getD j false) ∧
      old.length = c.compensatedDataOld.length ∧
      (∀ j, old.getD j 0
        = if j < n ∧ j < c.compensatedDataOld.length
          then (if c.smoothFilter = true then smoothed K c raw j
                else c.compensatedDataOld.getD j 0)
          else c.compensatedDataOld.getD j 0) ∧
      tf.length = c.touchDetectedFilt.length ∧
      (∀ j, tf.getD j false
        = if j < n ∧ j < c.touchDetectedFilt.length
          then decide (smoothed K c raw j > touchLevel c j)
          else c.touchDetectedFilt.getD j false) := by
  induction n with
  | zero =>
    exact ⟨c.touchDetected, c.subTouchDetected, c.compensatedDataOld, c.touchDetectedFilt,
      by simp [loopState], rfl, by simp, rfl, by simp, rfl, by simp, rfl, by simp⟩
  | succ n ih =>
    obtain ⟨td, sd, old, tf, hfold, htl, ht, hsl, hs, hol, ho, hfl, hf⟩ := ih
    have hold : old.getD n 0 = c.compensatedDataOld.getD n 0 := by
      rw [ho n, if_neg (fun h => lt_irrefl n h.1)]
    have hsm : smoothWith c (compensated K c raw n) (old.getD n 0) = smoothed K c raw n := by
      rw [hold, smoothed_eq]
    rw [List.range_succ, List.foldl_append, hfold, List.foldl_cons, List.foldl_nil,
      compensateTaxel_loopState, hsm]
    refine ⟨td.set n (decide (compensated K c raw n > touchLevel c n)),
      sd.set n (decide (compensated K c raw n < -(touchLevel c n))),
      (if c.smoothFilter = true then old.set n (smoothed K c raw n) else old),
      tf.set n (decide (smoothed K c raw n > touchLevel c n)),
      ?_, ?_, set_step c.touchDetected td _ false n htl ht, ?_,
      set_step c.subTouchDetected sd _ false n hsl hs, ?_, ?_, ?_,
      set_step c.touchDetectedFilt tf _ false n hfl hf⟩
    · simp only [List.map_append, List.map_cons, List.map_nil, List.append_assoc, binarized_eq]
    · rw [List.length_set, htl]
    · rw [List.length_set, hsl]
    · by_cases hsf : c.smoothFilter = true
      · rw [if_pos hsf, List.length_set, hol]
      · rw [if_neg hsf, hol]
    · intro j
      by_cases hsf : c.smoothFilter = true
      · rw [if_pos hsf]
        have ho2 : ∀ j, old.getD j 0
            = if j < n ∧ j < c.compensatedDataOld.length then smoothed K c raw j
              else c.compensatedDataOld.getD j 0 := by
          intro j
          rw [ho j]
          simp only [if_pos hsf]
        rw [set_step c.compensatedDataOld old (fun j => smoothed K c raw j) 0 n hol ho2 j]
        simp only [if_pos hsf]
      · rw [if_neg hsf, ho j]
        simp only [if_neg hsf, ite_self]
    · rw [List.length_set, hfl]

theorem readInputData_true (K : SkinConsts) (c : Compensator) (rd : SensorRead) :
    (Compensator.readInputData K c rd).1 = true
      ↔ rd.status = AnalogStatus.AS_OK ∧ rd.values.length = c.skinDim := by
  unfold Compensator.readInputData
  by_cases h1 : rd.status = AnalogStatus.AS_OK
  · by_cases h2 : rd.values.length = c.skinDim
    · simp [h1, h2]
    · simp [h1, h2]
  · simp [h1]

theorem readInputData_ok (K : SkinConsts) (c : Compensator) (rd : SensorRead)
    (h1 : rd.status = AnalogStatus.AS_OK) (h2 : rd.values.length = c.skinDim) :
    Compensator.readInputData K c rd = (true, { c with readErrorCounter := 0 }) := by
  unfold Compensator.readInputData
  simp [h1, h2]

theorem readRaw_true (K : SkinConsts) (c : Compensator) (rd : SensorRead) :
    (Compensator.readRawAndWriteCompensatedData K c rd).1 = true
      ↔ rd.status = AnalogStatus.AS_OK ∧ rd.values.length = c.skinDim := by
  rw [← readInputData_true K c rd]
  unfold Compensator.readRawAndWriteCompensatedData
  by_cases h : (Compensator.readInputData K c rd).1 = true
  · simp [h]
  · simp [h]

/-- The state after a successful `readRawAndWriteCompensatedData`. -/
theorem readRaw_success (K : SkinConsts) (c : Compensator) (rd : SensorRead)
    (hok : (Compensator.readRawAndWriteCompensatedData K c rd).1 = true) :
    ∃ td sd old tf,
      (Compensator.readRawAndWriteCompensatedData K c rd).2
        = { loopState { c with readErrorCounter := 0 }
              ((List.range c.skinDim).map (compensated K c rd.values)) td sd old tf with
            events := c.events ++ [SkinEvent.write
              ((List.range c.skinDim).map (fun i => max 0 (binarized K c rd.values i)))] } ∧
      (∀ j, td.getD j false
        = if j < c.skinDim ∧ j < c.touchDetected.length
          then decide (compensated K c rd.values j > touchLevel c j)
          else c.touchDetected.getD j false) ∧
      (∀ j, sd.getD j false
        = if j < c.skinDim ∧ j < c.subTouchDetected.length
          then decide (compensated K c rd.values j < -(touchLevel c j))
          else c.subTouchDetected.getD j false) := by
  obtain ⟨h1, h2⟩ := (readRaw_true K c rd).mp hok
  obtain ⟨td, sd, old, tf, hfold, -, ht, -, hs, -, -, -, -⟩ := compensate_fold K rd.values
    { ({ c with readErrorCounter := 0 } : Compensator) with compensatedData := [] } c.skinDim
  refine ⟨td, sd, old, tf, ?_, ht, hs⟩
  unfold Compensator.readRawAndWriteCompensatedData
  rw [readInputData_ok K c rd h1 h2]
  simp only [Bool.not_true, Bool.false_eq_true, if_false]
  rw [hfold]
  rfl

/-- C27: output range of `readRawAndWriteCompensatedData`.  After every
successful read one vector is written to the port; it has exactly `skinDim`
entries, all of them at least 0, and entry `i` is `max(0, d)`, where `d` is
the (optionally smoothed) compensated value, replaced, when the binarization is
on, by `BIN_TOUCH` if it is above `touchThresholds[i] + addThreshold` and by
`BIN_NO_TOUCH` otherwise; the stored `compensatedData` has the `skinDim`
compensated values, before the filter and the clamp. -/
theorem readRaw_output_range (K : SkinConsts) (c : Compensator) (rd : SensorRead)
    (hok : (Compensator.readRawAndWriteCompensatedData K c rd).1 = true) :
    ∃ out,
      (Compensator.readRawAndWriteCompensatedData K c rd).2.events
        = c.events ++ [SkinEvent.write out] ∧
      out.length = c.skinDim ∧
      (∀ x, x ∈ out → 0 ≤ x) ∧
      (∀ i, i < c.skinDim →
        out.getD i 0
          = max 0 (if c.binarization = true then
              (if smoothed K c rd.values i > c.touchThresholds.getD i 0 + (c.addThreshold : ℚ)
                then K.BIN_TOUCH else K.BIN_NO_TOUCH)
            else smoothed K c rd.values i)) ∧
      (Compensator.readRawAndWriteCompensatedData K c rd).2.compensatedData.length = c.skinDim ∧
      (∀ i, i < c.skinDim →
        (Compensator.readRawAndWriteCompensatedData K c rd).2.compensatedData.getD i 0
          = compensated K c rd.values i) := by
  obtain ⟨td, sd, old, tf, hst, -, -⟩ := readRaw_success K c rd hok
  refine ⟨(List.range c.skinDim).map (fun i => max 0 (binarized K c rd.values i)), ?_, ?_, ?_,
    ?_, ?_, ?_⟩
  · rw [hst]
  · rw [List.length_map, List.length_range]
  · intro x hx
    obtain ⟨i, -, rfl⟩ := List.mem_map.mp hx
    exact le_max_left 0 _
  · intro i hi
    rw [List.getD_eq_getElem?_getD, List.getElem?_map, List.getElem?_range hi]
    rfl
  · rw [hst]
    simp only [loopState, List.length_map, List.length_range]
  · intro i hi
    rw [hst]
    simp only [loopState]
    rw [List.getD_eq_getElem?_getD, List.getElem?_map, List.getElem?_range hi]
    rfl

/-- Instance of C27: two taxels, the smoothing filter on, the binarization
off; the vector sent is `[10, 0]` and the stored values are `[20, -8]`. -/
theorem readRaw_output_range_witness :
    (Compensator.readRawAndWriteCompensatedData Ks comp0 rd0).1 = true ∧
    (Compensator.readRawAndWriteCompensatedData Ks comp0 rd0).2.events
      = [SkinEvent.write [10, 0]] ∧
    (Compensator.readRawAndWriteCompensatedData Ks comp0 rd0).2.compensatedData = [20, -8] ∧
    ∃ out,
      (Compensator.readRawAndWriteCompensatedData Ks comp0 rd0).2.events
        = comp0.events ++ [SkinEvent.write out] ∧
      out.length = comp0.skinDim ∧
      (∀ x, x ∈ out → 0 ≤ x) ∧
      (∀ i, i < comp0.skinDim →
        out.getD i 0
          = max 0 (if comp0.binarization = true then
              (if smoothed Ks comp0 rd0.values i
                  > comp0.touchThresholds.getD i 0 + (comp0.addThreshold : ℚ)
                then Ks.BIN_TOUCH else Ks.BIN_NO_TOUCH)
            else smoothed Ks comp0 rd0.values i)) ∧
      (Compensator.readRawAndWriteCompensatedData Ks comp0 rd0).2.compensatedData.length
        = comp0.skinDim ∧
      (∀ i, i < comp0.skinDim →
        (Compensator.readRawAndWriteCompensatedData Ks comp0 rd0).2.compensatedData.getD i 0
          = compensated Ks comp0 rd0.values i) :=
  ⟨by with_unfolding_all decide, by with_unfolding_all decide, by with_unfolding_all decide,
    readRaw_output_range Ks comp0 rd0 (by with_unfolding_all decide)⟩

/-! ## Touch and sub-touch: theorems -/

/-- C28: touch and sub-touch after a successful
`readRawAndWriteCompensatedData`, for a taxel `i` of the two flag vectors (which
have `skinDim` entries): `touchDetected[i]` holds if and only if the compensated
value, before the filter, is above `touchThresholds[i] + addThreshold`,
`subTouchDetected[i]` if and only if it is below the opposite of that level,
that value is the one stored in `compensatedData[i]`, and when the level is at
least 0 the two flags are not both true. -/
theorem readRaw_touch_exclusive (K : SkinConsts) (c : Compensator) (rd : SensorRead) (i : Nat)
    (hok : (Compensator.readRawAndWriteCompensatedData K c rd).1 = true)
    (hi : i < c.skinDim) (htl : c.touchDetected.length = c.skinDim)
    (hsl : c.subTouchDetected.length = c.skinDim) :
    ((Compensator.readRawAndWriteCompensatedData K c rd).2.touchDetected.getD i false = true
      ↔ compensated K c rd.values i > c.touchThresholds.getD i 0 + (c.addThreshold : ℚ)) ∧
    ((Compensator.readRawAndWriteCompensatedData K c rd).2.subTouchDetected.getD i false = true
      ↔ compensated K c rd.values i < -(c.touchThresholds.getD i 0 + (c.addThreshold : ℚ))) ∧
    (Compensator.readRawAndWriteCompensatedData K c rd).2.compensatedData.getD i 0
      = compensated K c rd.values i ∧
    (0 ≤ c.touchThresholds.getD i 0 + (c.addThreshold : ℚ) →
      ¬((Compensator.readRawAndWriteCompensatedData K c rd).2.touchDetected.getD i false = true
        ∧ (Compensator.readRawAndWriteCompensatedData K c rd).2.subTouchDetected.getD i false
            = true)) := by
  obtain ⟨td, sd, old, tf, hst, ht, hs⟩ := readRaw_success K c rd hok
  have h1 : (Compensator.readRawAndWriteCompensatedData K c rd).2.touchDetected.getD i false = true
      ↔ compensated K c rd.values i > c.touchThresholds.getD i 0 + (c.addThreshold : ℚ) := by
    rw [hst]
    simp only [loopState]
    rw [ht i, if_pos ⟨hi, htl ▸ hi⟩, decide_eq_true_eq]
    rfl
  have h2 : (Compensator.readRawAndWriteCompensatedData K c rd).2.subTouchDetected.getD i false
        = true
      ↔ compensated K c rd.values i < -(c.touchThresholds.getD i 0 + (c.addThreshold : ℚ)) := by
    rw [hst]
    simp only [loopState]
    rw [hs i, if_pos ⟨hi, hsl ▸ hi⟩, decide_eq_true_eq]
    rfl
  refine ⟨h1, h2, ?_, ?_⟩
  · rw [hst]
    simp only [loopState]
    rw [List.getD_eq_getElem?_getD, List.getElem?_map, List.getElem?_range hi]
    rfl
  · intro hpos hboth
    have a := h1.mp hboth.1
    have b := h2.mp hboth.2
    linarith

/-- Instance of C28: taxel 0 of the sample read is touched and has no
sub-touch. -/
theorem readRaw_touch_exclusive_witness :
    (Compensator.readRawAndWriteCompensatedData Ks comp0 rd0).1 = true ∧
    0 < comp0.skinDim ∧ comp0.touchDetected.length = comp0.skinDim ∧
    comp0.subTouchDetected.length = comp0.skinDim ∧
    (Compensator.readRawAndWriteCompensatedData Ks comp0 rd0).2.touchDetected = [true, false] ∧
    (Compensator.readRawAndWriteCompensatedData Ks comp0 rd0).2.subTouchDetected
      = [false, true] ∧
    ((Compensator.readRawAndWriteCompensatedData Ks comp0 rd0).2.touchDetected.getD 0 false = true
      ↔ compensated Ks comp0 rd0.values 0
          > comp0.touchThresholds.getD 0 0 + (comp0.addThreshold : ℚ)) ∧
    ((Compensator.readRawAndWriteCompensatedData Ks comp0 rd0).2.subTouchDetected.getD 0 false
        = true
      ↔ compensated Ks comp0 rd0.values 0
          < -(comp0.touchThresholds.getD 0 0 + (comp0.addThreshold : ℚ))) ∧
    (Compensator.readRawAndWriteCompensatedData Ks comp0 rd0).2.compensatedData.getD 0 0
      = compensated Ks comp0 rd0.values 0 ∧
    (0 ≤ comp0.touchThresholds.getD 0 0 + (comp0.addThreshold : ℚ) →
      ¬((Compensator.readRawAndWriteCompensatedData Ks comp0 rd0).2.touchDetected.getD 0 false
          = true
        ∧ (Compensator.readRawAndWriteCompensatedData Ks comp0 rd0).2.subTouchDetected.getD 0 false
            = true)) :=
  ⟨by with_unfolding_all decide, by decide, rfl, rfl, by with_unfolding_all decide,
    by with_unfolding_all decide,
    readRaw_touch_exclusive Ks comp0 rd0 0 (by with_unfolding_all decide) (by decide) rfl rfl⟩

/-! ## Calibration: theorems -/

theorem finish_fold_skinDim (K : SkinConsts) (l : List Nat) (c : Compensator) :
    (l.foldl (Compensator.finishTaxel K) c).skinDim = c.skinDim := by
  induction l generalizing c with
  | nil => rfl
  | cons i rest ih =>
    rw [List.foldl_cons, ih]
    rfl

theorem clampThresholds_spec (K : SkinConsts) (n : Nat) (t : List ℚ) :
    (Compensator.clampThresholds K n t).length = t.length ∧
    ∀ j, (Compensator.clampThresholds K n t).getD j 0
      = if j < n ∧ j < t.length then max K.MIN_TOUCH_THR (t.getD j 0) else t.getD j 0 := by
  unfold Compensator.clampThresholds
  induction n with
  | zero => simp
  | succ n ih =>
    obtain ⟨h1, h2⟩ := ih
    rw [List.range_succ, List.foldl_append, List.foldl_cons, List.foldl_nil]
    refine ⟨by rw [List.length_set, h1], ?_⟩
    have hn : ((List.range n).foldl
        (fun t i => t.set i (max K.MIN_TOUCH_THR (t.getD i 0))) t).getD n 0 = t.getD n 0 := by
      rw [h2 n, if_neg (fun h => lt_irrefl n h.1)]
    rw [hn]
    exact set_step t _ (fun j => max K.MIN_TOUCH_THR (t.getD j 0)) 0 n h1 h2

/-- When the compensator is working after `calibrationFinish`, the threshold of
every taxel is at least `MIN_TOUCH_THR`. -/
theorem calibrationFinish_working (K : SkinConsts) (c : Compensator)
    (hw : (Compensator.calibrationFinish K c)._isWorking = true) (i : Nat) (hi : i < c.skinDim)
    (hl : i < (Compensator.calibrationFinish K c).touchThresholds.length) :
    K.MIN_TOUCH_THR ≤ (Compensator.calibrationFinish K c).touchThresholds.getD i 0 := by
  unfold Compensator.calibrationFinish at hw hl ⊢
  simp only [] at hw hl ⊢
  rw [if_pos hw] at hl ⊢
  obtain ⟨h1, h2⟩ := clampThresholds_spec K
    ((List.range c.skinDim).foldl (Compensator.finishTaxel K) c).skinDim
    ((List.range c.skinDim).foldl (Compensator.finishTaxel K) c).touchThresholds
  rw [h1] at hl
  rw [h2 i, if_pos ⟨by rw [finish_fold_skinDim]; exact hi, hl⟩]
  exact le_max_left _ _

set_option maxRecDepth 100000 in
/-- C23, the failing run: a skin of two taxels that answers the constant
value 10 at both reads of the calibration.  The baselines are 10, the
thresholds computed are 0, the compensator is declared not working and the
clamp of the thresholds to `MIN_TOUCH_THR` (here 1), which sits in the print
block under `if(_isWorking)`, is skipped: the thresholds stay 0. -/
theorem calibration_flat_skin_thresholds :
    (calibrationRun Ks comp0 [rdFlat, rdFlat]).baselines = [10, 10] ∧
    (calibrationRun Ks comp0 [rdFlat, rdFlat])._isWorking = false ∧
    (calibrationRun Ks comp0 [rdFlat, rdFlat]).touchThresholds = [0, 0] ∧
    ¬(∀ t, t ∈ (calibrationRun Ks comp0 [rdFlat, rdFlat]).touchThresholds →
        Ks.MIN_TOUCH_THR ≤ t) := by
  have h : (calibrationRun Ks comp0 [rdFlat, rdFlat]).touchThresholds = [0, 0] := by
    with_unfolding_all decide
  refine ⟨by with_unfolding_all decide, by with_unfolding_all decide, h, ?_⟩
  rw [h]
  intro hall
  have := hall 0 (List.mem_cons_self 0 [0])
  exact absurd this (by with_unfolding_all decide)

end SkinDriftCompensation
